import Mathlib

/-!
# IECoreArnold::RendererImplementation

A shallow embedding of `contrib/IECoreArnold/src/IECoreArnold/RendererImplementation.cpp`.

* A `RendererImplementation` value holds the member variables of the C++ object.
* A `World` value holds what lives outside the object: the Arnold universe (its nodes and
  its options node), the heap of `ProceduralData` descriptors, and the messages passed to
  `IECore::msg`.
* Every member function is a function `RendererImplementation → World → Option (...)`;
  `none` stands for undefined behaviour of the C++ code (`top()` or `pop()` on an empty
  `std::stack`, indexing past the end of a `std::vector`, dereferencing a null pointer).
* `float` is read as exact rational arithmetic, and `std::string` as `String`, with
  `c_str()` the identity (names hold no embedded NUL character).
-/

namespace IECoreArnold

/-! ## Data model -/

/-- Imath::M44f, a 4x4 matrix; `M44f()` is the identity and `*` the matrix product. -/
abbrev M44f := Matrix (Fin 4) (Fin 4) ℚ

/-- Handle of an Arnold node (`AtNode *`); a null pointer is `none : Option AtNode`. -/
abbrev AtNode := Nat

/-- Values of IECore::Data that the renderer meets (IECore/SimpleTypedData.h). -/
inductive Data where
  | IntData (v : Int)
  | FloatData (v : ℚ)
  | BoolData (v : Bool)
  | StringData (v : String)
  | V2iData (x y : Int)
  | V2fData (x y : ℚ)
  deriving DecidableEq

/-- Deep copy `Data::copy()`: values are immutable here, the copy is the value. -/
def Data.copy (d : Data) : Data := d

/-- IECore::CompoundDataMap, a `std::map` from names to data, as an association list. -/
abbrev CompoundDataMap := List (String × Data)

/-- Lookup `CompoundData::member<Data>( name )`: the entry, or null when there is none. -/
def CompoundDataMap.member (m : CompoundDataMap) (name : String) : Option Data :=
  m.lookup name

/-- Assignment `map[name] = value` of `std::map`: overwrite the entry or add one. -/
def CompoundDataMap.assign : CompoundDataMap → String → Data → CompoundDataMap
  | [], name, value => [(name, value)]
  | (k, v) :: rest, name, value =>
    if k = name then (k, value) :: rest
    else (k, v) :: CompoundDataMap.assign rest name value

/-- Lookup `CompoundData::member<V2iData>( name )`: null when absent or of another type. -/
def CompoundDataMap.memberV2i (m : CompoundDataMap) (name : String) : Option (Int × Int) :=
  match m.lookup name with
  | some (Data.V2iData x y) => some (x, y)
  | _ => none

/-- RendererImplementation::AttributeState. -/
structure AttributeState where
  surfaceShader : Option AtNode
  attributes : CompoundDataMap
  deriving DecidableEq

/-- Copy constructor `AttributeState( const AttributeState &other )`: the shader handle is
shared, the attribute mapping is copied. -/
def AttributeState.copyOf (other : AttributeState) : AttributeState :=
  { surfaceShader := other.surfaceShader
    attributes := other.attributes.map (fun kv => (kv.1, kv.2.copy)) }

/-- RendererImplementation::Mode. -/
inductive Mode where
  | Render
  | AssGen
  | Procedural
  deriving DecidableEq

/-- The member variables of RendererImplementation. Stacks have their top at the head;
`m_shapes` and `m_outputDescriptions` are vectors, `push_back` appends at the end. -/
structure RendererImplementation where
  m_mode : Mode
  m_assFileName : String
  m_defaultFilter : Option AtNode
  m_transformStack : List M44f
  m_attributeStack : List AttributeState
  m_shapes : List AtNode
  m_outputDescriptions : List String
  deriving DecidableEq

/-- Imath::Box3f. -/
structure Box3f where
  min : ℚ × ℚ × ℚ
  max : ℚ × ℚ × ℚ

/-- The calls of the IECore::Renderer protocol, as data: what a client, or the `render`
method of a procedural, issues against a renderer. -/
inductive Cmd where
  | setOption (name : String) (value : Data)
  | camera (name : String) (parameters : CompoundDataMap)
  | display (name type data : String) (parameters : CompoundDataMap)
  | worldBegin
  | worldEnd
  | transformBegin
  | transformEnd
  | setTransform (m : M44f)
  | setTransformNamed (coordinateSystem : String)
  | getTransformNamed (coordinateSystem : String)
  | concatTransform (m : M44f)
  | coordinateSystem (name : String)
  | attributeBegin
  | attributeEnd
  | setAttribute (name : String) (value : Data)
  | shader (type name : String) (parameters : CompoundDataMap)
  | light (name handle : String) (parameters : CompoundDataMap)
  | illuminate (lightHandle : String) (isOn : Bool)
  | motionBegin (times : List ℚ)
  | motionEnd
  | points (numPoints : Nat) (primVars : CompoundDataMap)
  | disk (radius z thetaMax : ℚ) (primVars : CompoundDataMap)
  | curves (periodic : Bool) (numVertices : List Int) (primVars : CompoundDataMap)
  | text (font text : String) (kerning : ℚ) (primVars : CompoundDataMap)
  | sphere (radius zMin zMax thetaMax : ℚ) (primVars : CompoundDataMap)
  | image (primVars : CompoundDataMap)
  | mesh (vertsPerFace vertIds : List Int) (interpolation : String) (primVars : CompoundDataMap)
  | nurbs (uOrder vOrder : Int) (primVars : CompoundDataMap)
  | patchMesh (nu nv : Int) (primVars : CompoundDataMap)
  | geometry (type : String) (topology primVars : CompoundDataMap)
  | procedural (bound : Box3f) (render : List Cmd)
  | instanceBegin (name : String) (parameters : CompoundDataMap)
  | instanceEnd
  | instance_ (name : String)
  | command (name : String) (parameters : CompoundDataMap)

/-- IECore::Renderer::Procedural: `bound()` and the calls its `render( renderer )` issues. -/
structure Procedural where
  bound : Box3f
  render : List Cmd

/-- RendererImplementation::ProceduralData: the generator (null once it has run) and the
renderer the generator draws into. -/
structure ProceduralData where
  procedural : Option Procedural
  renderer : RendererImplementation

/-- Value of a parameter of an Arnold node. -/
inductive ParamValue where
  | Int (v : Int)
  | Flt (v : ℚ)
  | Str (v : String)
  | Ptr (v : Option AtNode)
  | Pnt (v : ℚ × ℚ × ℚ)
  | Matrix (m : M44f)
  | IntArray (a : List Int)
  | StrArray (a : List (Option String))
  | Converted (d : Data)
  | FuncPtr (name : String)
  | UserPtr (descriptor : Nat)

/-- An Arnold node: the name of its node entry and the parameter values set on it. -/
structure Node where
  entry : String
  params : List (String × ParamValue)

/-- IECore::Msg::Level. -/
inductive Level where
  | Error
  | Warning
  | Info
  | Debug
  deriving DecidableEq

/-- One call of `IECore::msg( level, context, message )`. -/
structure Message where
  level : Level
  context : String
  text : String
  deriving DecidableEq

/-- What lies outside the renderer object: the node entries Arnold knows with the names
of their declared parameters, the options node, the nodes created so far (a handle is an
index), the `ProceduralData` descriptors allocated so far (a pointer is an index), the
messages logged and the render or scene-write requests made. -/
structure World where
  nodeEntries : List (String × List String)
  options : Node
  nodes : List Node
  procData : List ProceduralData
  msgs : List Message
  actions : List String

/-! ## The Arnold API, as far as the renderer uses it -/

/-- Logging `IECore::msg( level, context, message )`: the message is added to the log. -/
def msg (level : Level) (context text : String) (w : World) : World :=
  { w with msgs := w.msgs ++ [{ level := level, context := context, text := text }] }

/-- Store of a parameter value on a node: overwrite the value or add it. -/
def setParam : List (String × ParamValue) → String → ParamValue → List (String × ParamValue)
  | [], name, v => [(name, v)]
  | (k, old) :: rest, name, v =>
    if k = name then (k, v) :: rest else (k, old) :: setParam rest name v

/-- A new node of the given entry with the given parameter values; it takes the next free
handle. -/
def realizeNode (entry : String) (params : List (String × ParamValue)) (w : World) :
    AtNode × World :=
  (w.nodes.length, { w with nodes := w.nodes ++ [{ entry := entry, params := params }] })

/-- Arnold `AiNode( name )`: a new node of the named entry, or null when Arnold knows no
such entry. -/
def AiNode (name : String) (w : World) : Option AtNode × World :=
  if (w.nodeEntries.lookup name).isSome then
    (some (realizeNode name [] w).1, (realizeNode name [] w).2)
  else
    (none, w)

/-- Arnold `AiNodeSetStr`, `AiNodeSetPtr`, `AiNodeSetInt`, `AiNodeSetFlt`, `AiNodeSetPnt`,
`AiNodeSetMatrix`, `AiNodeSetArray` on a created node; undefined on a null or unknown
handle. -/
def AiNodeSet (node : Option AtNode) (name : String) (v : ParamValue) (w : World) :
    Option World :=
  match node with
  | none => none
  | some n =>
    match w.nodes[n]? with
    | none => none
    | some nd =>
      some { w with nodes := w.nodes.set n { nd with params := setParam nd.params name v } }

/-- Arnold `AiNodeSet...( AiUniverseGetOptions(), name, v )`. -/
def optionsSet (name : String) (v : ParamValue) (w : World) : World :=
  { w with options := { w.options with params := setParam w.options.params name v } }

/-- Arnold `AiNodeGetPtr( AiUniverseGetOptions(), name )`: null unless a pointer was set. -/
def optionsGetPtr (name : String) (w : World) : Option AtNode :=
  match w.options.params.lookup name with
  | some (ParamValue.Ptr p) => p
  | _ => none

/-- Arnold `AiNodeGetName( node )`: the string stored as "name", empty when none was;
undefined on a null or unknown handle. -/
def AiNodeGetName (node : Option AtNode) (w : World) : Option String :=
  match node with
  | none => none
  | some n =>
    match w.nodes[n]? with
    | none => none
    | some nd =>
      match nd.params.lookup "name" with
      | some (ParamValue.Str s) => some s
      | _ => some ""

/-- Arnold `AiNodeEntryLookUpParameter( entry, name )` is non-null: the entry declares a
parameter of that name. -/
def entryHasParameter (w : World) (entry name : String) : Bool :=
  match w.nodeEntries.lookup entry with
  | some ps => ps.contains name
  | none => false

/-- Arnold `AiNodeEntryLookUpParameter( AiNodeGetNodeEntry( node ), name )` is non-null. -/
def nodeHasParameter (w : World) (node : AtNode) (name : String) : Bool :=
  match w.nodes[node]? with
  | some nd => entryHasParameter w nd.entry name
  | none => false

/-- Arnold `AiArrayAllocate( n, 1, AI_TYPE_STRING )`: n elements, none of them set. -/
def AiArrayAllocate (n : Nat) : List (Option String) := List.replicate n none

/-- Arnold `AiArraySetStr( array, i, s )`. -/
def AiArraySetStr (a : List (Option String)) (i : Nat) (s : String) : List (Option String) :=
  a.set i (some s)

/-- Modelled from the spec: `ToArnoldConverter::setParameter( node, name, value )` of
IECoreArnold/ToArnoldConverter.h, declared there and defined outside this file; the value
is forwarded to the node under the given name. -/
def ToArnoldConverter.setParameter (node : Option AtNode) (name : String) (value : Data)
    (w : World) : Option World :=
  AiNodeSet node name (ParamValue.Converted value) w

/-- Modelled from the spec: `ToArnoldConverter::setParameters( node, values )`, which
forwards every entry of the map in turn. -/
def ToArnoldConverter.setParameters (node : Option AtNode) :
    CompoundDataMap → World → Option World
  | [], w => some w
  | (k, v) :: rest, w =>
    (ToArnoldConverter.setParameter node k v w).bind
      (fun w1 => ToArnoldConverter.setParameters node rest w1)

/-- Modelled from the spec: `ToArnoldConverter::setParameter( options, name, value )` on
the options node. -/
def ToArnoldConverter.setOptionsParameter (name : String) (value : Data) (w : World) : World :=
  optionsSet name (ParamValue.Converted value) w

/-- Modelled from the spec: `ToArnoldMeshConverter::convert()` of
IECoreArnold/ToArnoldMeshConverter.h, defined outside this file; it realizes a backend node
from the topology of the mesh: a new "polymesh" node carrying the face sizes and the
vertex ids. -/
def ToArnoldMeshConverter.convert (vertsPerFace vertIds : List Int) (w : World) :
    AtNode × World :=
  realizeNode "polymesh"
    [("nsides", ParamValue.IntArray vertsPerFace), ("vidxs", ParamValue.IntArray vertIds)] w

/-- Modelled from the spec: `ToArnoldCurvesConverter::convert()` of
IECoreArnold/ToArnoldCurvesConverter.h, defined outside this file; it realizes a new
"curves" node carrying the vertex counts. -/
def ToArnoldCurvesConverter.convert (numVertices : List Int) (w : World) : AtNode × World :=
  realizeNode "curves" [("num_points", ParamValue.IntArray numVertices)] w

/-- Modelled from the spec: `ToArnoldCameraConverter::convert()` of
IECoreArnold/ToArnoldCameraConverter.h, defined outside this file; it realizes a camera
node, a new "persp_camera", from the camera of the given name and parameters. -/
def ToArnoldCameraConverter.convert (_name : String) (_parameters : CompoundDataMap)
    (w : World) : AtNode × World :=
  realizeNode "persp_camera" [] w

/-! ## AttributeState and the constructors -/

/-- Default constructor `AttributeState()`: the shader is `AiNode( "utility" )`, the
attribute mapping is a new empty CompoundData. -/
def AttributeState.default (w : World) : AttributeState × World :=
  let p := AiNode "utility" w
  ({ surfaceShader := p.1, attributes := [] }, p.2)

namespace RendererImplementation

/-- The object before a constructor body runs: empty stacks and vectors, and no default
filter (the copy constructor leaves `m_defaultFilter` without a value). -/
def blank : RendererImplementation :=
  { m_mode := Mode.Procedural
    m_assFileName := ""
    m_defaultFilter := none
    m_transformStack := []
    m_attributeStack := []
    m_shapes := []
    m_outputDescriptions := [] }

/-- Arnold `AiBegin()`: a new universe, with an options node and no other node. -/
def AiBegin (w : World) : World :=
  { w with options := { entry := "options", params := [] }, nodes := [] }

/-- Arnold `AiLoadPlugins( pluginPaths )`, run when ARNOLD_PLUGIN_PATH is set: the node
entries found on the path become known. -/
def AiLoadPlugins (pluginEntries : Option (List (String × List String))) (w : World) : World :=
  match pluginEntries with
  | none => w
  | some es => { w with nodeEntries := w.nodeEntries ++ es }

/-- RendererImplementation::constructCommon. -/
def constructCommon (mode : Mode) (pluginEntries : Option (List (String × List String)))
    (r : RendererImplementation) (w : World) : Option (RendererImplementation × World) :=
  let r0 := { r with m_mode := mode }
  if mode ≠ Mode.Procedural then
    let w0 := AiLoadPlugins pluginEntries (AiBegin w)
    let f := AiNode "gaussian_filter" w0
    (AiNodeSet f.1 "name" (ParamValue.Str "ieCoreArnold:defaultFilter") f.2).bind (fun w1 =>
    let a := AttributeState.default w1
    some ({ r0 with m_defaultFilter := f.1
                    m_transformStack := (1 : M44f) :: r0.m_transformStack
                    m_attributeStack := a.1 :: r0.m_attributeStack }, a.2))
  else
    some (r0, w)

/-- Constructor `RendererImplementation()`. -/
def create (pluginEntries : Option (List (String × List String))) (w : World) :
    Option (RendererImplementation × World) :=
  constructCommon Mode.Render pluginEntries { blank with m_defaultFilter := none } w

/-- Constructor `RendererImplementation( const std::string &assFileName )`. -/
def createAssGen (assFileName : String) (pluginEntries : Option (List (String × List String)))
    (w : World) : Option (RendererImplementation × World) :=
  constructCommon Mode.AssGen pluginEntries
    { blank with m_defaultFilter := none, m_assFileName := assFileName } w

/-- Copy constructor `RendererImplementation( const RendererImplementation &other )`;
undefined when a stack of `other` is empty. -/
def createCopy (other : RendererImplementation) : Option RendererImplementation :=
  match other.m_transformStack, other.m_attributeStack with
  | t :: _, a :: _ =>
    some { blank with m_mode := Mode.Procedural
                      m_transformStack := [t]
                      m_attributeStack := [AttributeState.copyOf a] }
  | _, _ => none

/-- Constructor `RendererImplementation( const AtNode *proceduralNode )`. -/
def createForNode (w : World) : RendererImplementation × World :=
  let a := AttributeState.default w
  ({ blank with m_mode := Mode.Procedural
                m_transformStack := [(1 : M44f)]
                m_attributeStack := [a.1] }, a.2)

/-! ## Transforms -/

/-- RendererImplementation::transformBegin. -/
def transformBegin (r : RendererImplementation) (w : World) :
    Option (RendererImplementation × World) :=
  match r.m_transformStack with
  | [] => none
  | top :: rest => some ({ r with m_transformStack := top :: top :: rest }, w)

/-- RendererImplementation::transformEnd. -/
def transformEnd (r : RendererImplementation) (w : World) :
    Option (RendererImplementation × World) :=
  if r.m_transformStack.length ≤ 1 then
    some (r, msg Level.Warning "IECoreArnold::RendererImplementation::transformEnd"
      "No matching transformBegin() call." w)
  else
    some ({ r with m_transformStack := r.m_transformStack.tail }, w)

/-- RendererImplementation::setTransform( const Imath::M44f &m ). -/
def setTransform (m : M44f) (r : RendererImplementation) (w : World) :
    Option (RendererImplementation × World) :=
  match r.m_transformStack with
  | [] => none
  | _ :: rest => some ({ r with m_transformStack := m :: rest }, w)

/-- RendererImplementation::setTransform( const std::string &coordinateSystem ). -/
def setTransformNamed (_coordinateSystem : String) (r : RendererImplementation) (w : World) :
    Option (RendererImplementation × World) :=
  some (r, msg Level.Warning "IECoreArnold::RendererImplementation::setTransform"
    "Not implemented" w)

/-- RendererImplementation::getTransform() const; undefined on an empty stack. -/
def getTransform (r : RendererImplementation) : Option M44f :=
  r.m_transformStack.head?

/-- RendererImplementation::getTransform( const std::string &coordinateSystem ) const. -/
def getTransformNamed (_coordinateSystem : String) (_r : RendererImplementation) (w : World) :
    M44f × World :=
  ((1 : M44f), msg Level.Warning "IECoreArnold::RendererImplementation::getTransform"
    "Not implemented" w)

/-- RendererImplementation::concatTransform. -/
def concatTransform (m : M44f) (r : RendererImplementation) (w : World) :
    Option (RendererImplementation × World) :=
  match r.m_transformStack with
  | [] => none
  | top :: rest => some ({ r with m_transformStack := (m * top) :: rest }, w)

/-- RendererImplementation::coordinateSystem. -/
def coordinateSystem (_name : String) (r : RendererImplementation) (w : World) :
    Option (RendererImplementation × World) :=
  some (r, msg Level.Warning "IECoreArnold::RendererImplementation::coordinateSystem"
    "Not implemented" w)

/-! ## Attributes -/

/-- RendererImplementation::attributeBegin. -/
def attributeBegin (r : RendererImplementation) (w : World) :
    Option (RendererImplementation × World) :=
  (transformBegin r w).bind (fun p =>
    match p.1.m_attributeStack with
    | [] => none
    | top :: rest =>
      some ({ p.1 with m_attributeStack := AttributeState.copyOf top :: top :: rest }, p.2))

/-- RendererImplementation::attributeEnd: `m_attributeStack.pop()`, then `transformEnd()`. -/
def attributeEnd (r : RendererImplementation) (w : World) :
    Option (RendererImplementation × World) :=
  match r.m_attributeStack with
  | [] => none
  | _ :: rest => transformEnd { r with m_attributeStack := rest } w

/-- RendererImplementation::setAttribute. -/
def setAttribute (name : String) (value : Data) (r : RendererImplementation) (w : World) :
    Option (RendererImplementation × World) :=
  match r.m_attributeStack with
  | [] => none
  | top :: rest =>
    some ({ r with m_attributeStack :=
      { top with attributes := top.attributes.assign name value.copy } :: rest }, w)

/-- RendererImplementation::getAttribute; the inner option is the possibly null result,
the outer one is undefined on an empty stack. -/
def getAttribute (name : String) (r : RendererImplementation) : Option (Option Data) :=
  match r.m_attributeStack with
  | [] => none
  | top :: _ => some (top.attributes.member name)

/-- RendererImplementation::shader. -/
def shader (type name : String) (parameters : CompoundDataMap) (r : RendererImplementation)
    (w : World) : Option (RendererImplementation × World) :=
  if type = "surface" then
    match AiNode name w with
    | (none, w1) =>
      some (r, msg Level.Warning "IECoreArnold::RendererImplementation::shader"
        ("Couldn't load shader \"" ++ name ++ "\"") w1)
    | (some s, w1) =>
      (ToArnoldConverter.setParameters (some s) parameters w1).bind (fun w2 =>
        match r.m_attributeStack with
        | [] => none
        | top :: rest =>
          some ({ r with m_attributeStack := { top with surfaceShader := some s } :: rest }, w2))
  else
    some (r, msg Level.Warning "IECoreArnold::RendererImplementation::shader"
      ("Unsupported shader type \"" ++ type ++ "\"") w)

/-- RendererImplementation::light. -/
def light (_name _handle : String) (_parameters : CompoundDataMap) (r : RendererImplementation)
    (w : World) : Option (RendererImplementation × World) :=
  some (r, msg Level.Warning "IECoreArnold::RendererImplementation::light" "Not implemented" w)

/-- RendererImplementation::illuminate. -/
def illuminate (_lightHandle : String) (_on : Bool) (r : RendererImplementation) (w : World) :
    Option (RendererImplementation × World) :=
  some (r, msg Level.Warning "IECoreArnold::RendererImplementation::illuminate"
    "Not implemented" w)

/-- RendererImplementation::motionBegin. -/
def motionBegin (_times : List ℚ) (r : RendererImplementation) (w : World) :
    Option (RendererImplementation × World) :=
  some (r, msg Level.Warning "IECoreArnold::RendererImplementation::motionBegin"
    "Not implemented" w)

/-- RendererImplementation::motionEnd. -/
def motionEnd (r : RendererImplementation) (w : World) :
    Option (RendererImplementation × World) :=
  some (r, msg Level.Warning "IECoreArnold::RendererImplementation::motionEnd"
    "Not implemented" w)

/-! ## Shapes -/

/-- RendererImplementation::applyTransformToNode: the top of the transform stack is copied
element by element and set as the "matrix" of the node. -/
def applyTransformToNode (node : Option AtNode) (r : RendererImplementation) (w : World) :
    Option World :=
  match r.m_transformStack with
  | [] => none
  | m :: _ => AiNodeSet node "matrix" (ParamValue.Matrix (Matrix.of (fun i j => m i j))) w

/-- RendererImplementation::addShape. -/
def addShape (shape : Option AtNode) (r : RendererImplementation) (w : World) :
    Option (RendererImplementation × World) :=
  (applyTransformToNode shape r w).bind (fun w1 =>
    match r.m_attributeStack with
    | [] => none
    | top :: _ =>
      (AiNodeSet shape "shader" (ParamValue.Ptr top.surfaceShader) w1).bind (fun w2 =>
        match shape with
        | none => none
        | some n => some ({ r with m_shapes := r.m_shapes ++ [n] }, w2)))

/-! ## Options, camera, display -/

/-- RendererImplementation::setOption. `name.compare( 0, 3, "ai:" ) == 0` holds when the
name starts with "ai:", and `name.c_str() + 3` is the name without its first three
characters. -/
def setOption (name : String) (value : Data) (r : RendererImplementation) (w : World) :
    Option (RendererImplementation × World) :=
  if "ai:".toList.isPrefixOf name.toList then
    if entryHasParameter w w.options.entry (String.mk (name.toList.drop 3)) then
      some (r, ToArnoldConverter.setOptionsParameter (String.mk (name.toList.drop 3)) value w)
    else
      some (r, msg Level.Warning "IECoreArnold::RendererImplementation::setOption"
        ("Unknown option \"" ++ name ++ "\".") w)
  else if "user:".toList.isPrefixOf name.toList then
    some (r, ToArnoldConverter.setOptionsParameter name value w)
  else if name.toList.contains ':' then
    some (r, w)
  else
    some (r, msg Level.Warning "IECoreArnold::RendererImplementation::setOption"
      ("Unknown option \"" ++ name ++ "\".") w)

/-- RendererImplementation::camera. -/
def camera (name : String) (parameters : CompoundDataMap) (r : RendererImplementation)
    (w : World) : Option (RendererImplementation × World) :=
  let c := ToArnoldCameraConverter.convert name parameters w
  let w1 := optionsSet "camera" (ParamValue.Ptr (some c.1)) c.2
  (applyTransformToNode (some c.1) r w1).bind (fun w2 =>
    let resolution := parameters.memberV2i "resolution"
    let w3 := optionsSet "xres"
      (ParamValue.Int (match resolution with | some v => v.1 | none => 640)) w2
    let w4 := optionsSet "yres"
      (ParamValue.Int (match resolution with | some v => v.2 | none => 480)) w3
    some (r, w4))

/-- The string `boost::format( "ieCoreArnold:display%d" ) % k`. -/
def displayNodeName (k : Nat) : String := "ieCoreArnold:display" ++ Nat.repr k

/-- The data selector `d` of RendererImplementation::display. -/
def displayData (data : String) : String :=
  if data = "rgb" then "RGB RGB"
  else if data = "rgba" then "RGBA RGBA"
  else data

/-- RendererImplementation::display. -/
def display (name type data : String) (parameters : CompoundDataMap)
    (r : RendererImplementation) (w : World) : Option (RendererImplementation × World) :=
  match AiNode type w with
  | (none, w0) =>
    some (r, msg Level.Error "IECoreArnold::RendererImplementation::display"
      ("Unable to create display of type \"" ++ type ++ "\"") w0)
  | (some driver, w0) =>
    let nodeName := displayNodeName r.m_outputDescriptions.length
    (AiNodeSet (some driver) "name" (ParamValue.Str nodeName) w0).bind (fun w1 =>
    (if nodeHasParameter w1 driver "filename" then
        AiNodeSet (some driver) "filename" (ParamValue.Str name) w1
      else some w1).bind (fun w2 =>
    (ToArnoldConverter.setParameters (some driver) parameters w2).bind (fun w3 =>
    (AiNodeGetName r.m_defaultFilter w3).bind (fun filterName =>
      let outputDescription := displayData data ++ " " ++ filterName ++ " " ++ nodeName
      some ({ r with m_outputDescriptions := r.m_outputDescriptions ++ [outputDescription] },
        w3)))))

/-! ## World -/

/-- The loop `while( m_transformStack.size() > 1 ) m_transformStack.pop();` of worldBegin. -/
def popToGuard : List M44f → List M44f
  | _ :: b :: rest => popToGuard (b :: rest)
  | l => l

/-- The loop of worldBegin over `m_outputDescriptions`, each turn of which runs
`AiArraySetStr( outputsArray, 0, m_outputDescriptions[i].c_str() )`. -/
def setOutputs : List String → List (Option String) → List (Option String)
  | [], a => a
  | d :: rest, a => setOutputs rest (AiArraySetStr a 0 d)

/-- RendererImplementation::worldBegin. -/
def worldBegin (r : RendererImplementation) (w : World) :
    Option (RendererImplementation × World) :=
  (if r.m_transformStack.length > 1 then
      match popToGuard r.m_transformStack with
      | [] => none
      | _ :: rest =>
        some ({ r with m_transformStack := (1 : M44f) :: rest },
          msg Level.Warning "IECoreArnold::RendererImplementation::worldBegin"
            "Missing transformEnd() call detected." w)
    else some (r, w)).bind (fun p =>
  (if (optionsGetPtr "camera" p.2).isNone then
      camera "ieCoreArnold:defaultCamera" [] p.1 p.2
    else some p).bind (fun q =>
  let outputsArray :=
    setOutputs q.1.m_outputDescriptions (AiArrayAllocate q.1.m_outputDescriptions.length)
  some (q.1, optionsSet "outputs" (ParamValue.StrArray outputsArray) q.2)))

/-- RendererImplementation::worldEnd. -/
def worldEnd (r : RendererImplementation) (w : World) :
    Option (RendererImplementation × World) :=
  if r.m_mode = Mode.Render then
    some (r, { w with actions := w.actions ++ ["AiRender( AI_RENDER_MODE_CAMERA )"] })
  else if r.m_mode = Mode.AssGen then
    some (r, { w with actions := w.actions ++ ["AiASSWrite( " ++ r.m_assFileName ++ " )"] })
  else
    some (r, w)

/-! ## Primitives -/

/-- The body shared by the primitives without an Arnold counterpart:
`msg( Msg::Warning, context, "Not implemented" )`. -/
def notImplemented (context : String) (r : RendererImplementation) (w : World) :
    Option (RendererImplementation × World) :=
  some (r, msg Level.Warning context "Not implemented" w)

/-- RendererImplementation::points. -/
def points (_numPoints : Nat) (_primVars : CompoundDataMap) (r : RendererImplementation)
    (w : World) : Option (RendererImplementation × World) :=
  notImplemented "IECoreArnold::RendererImplementation::points" r w

/-- RendererImplementation::disk. -/
def disk (_radius _z _thetaMax : ℚ) (_primVars : CompoundDataMap) (r : RendererImplementation)
    (w : World) : Option (RendererImplementation × World) :=
  notImplemented "IECoreArnold::RendererImplementation::disk" r w

/-- RendererImplementation::curves. -/
def curves (_periodic : Bool) (numVertices : List Int) (_primVars : CompoundDataMap)
    (r : RendererImplementation) (w : World) : Option (RendererImplementation × World) :=
  let c := ToArnoldCurvesConverter.convert numVertices w
  addShape (some c.1) r c.2

/-- RendererImplementation::text. -/
def text (_font _text : String) (_kerning : ℚ) (_primVars : CompoundDataMap)
    (r : RendererImplementation) (w : World) : Option (RendererImplementation × World) :=
  notImplemented "IECoreArnold::RendererImplementation::text" r w

/-- RendererImplementation::sphere. -/
def sphere (radius zMin zMax thetaMax : ℚ) (_primVars : CompoundDataMap)
    (r : RendererImplementation) (w : World) : Option (RendererImplementation × World) :=
  let w1 := if zMin ≠ -1 then
      msg Level.Warning "IECoreArnold::RendererImplementation::sphere" "zMin not supported" w
    else w
  let w2 := if zMax ≠ 1 then
      msg Level.Warning "IECoreArnold::RendererImplementation::sphere" "zMax not supported" w1
    else w1
  let w3 := if thetaMax ≠ 360 then
      msg Level.Warning "IECoreArnold::RendererImplementation::sphere" "thetaMax not supported" w2
    else w2
  let s := AiNode "sphere" w3
  (AiNodeSet s.1 "radius" (ParamValue.Flt radius) s.2).bind (fun w4 => addShape s.1 r w4)

/-- RendererImplementation::image. -/
def image (_primVars : CompoundDataMap) (r : RendererImplementation) (w : World) :
    Option (RendererImplementation × World) :=
  notImplemented "IECoreArnold::RendererImplementation::image" r w

/-- RendererImplementation::mesh. -/
def mesh (vertsPerFace vertIds : List Int) (_interpolation : String)
    (_primVars : CompoundDataMap) (r : RendererImplementation) (w : World) :
    Option (RendererImplementation × World) :=
  let c := ToArnoldMeshConverter.convert vertsPerFace vertIds w
  addShape (some c.1) r c.2

/-- RendererImplementation::nurbs. -/
def nurbs (_uOrder _vOrder : Int) (_primVars : CompoundDataMap) (r : RendererImplementation)
    (w : World) : Option (RendererImplementation × World) :=
  notImplemented "IECoreArnold::RendererImplementation::nurbs" r w

/-- RendererImplementation::patchMesh. -/
def patchMesh (_nu _nv : Int) (_primVars : CompoundDataMap) (r : RendererImplementation)
    (w : World) : Option (RendererImplementation × World) :=
  notImplemented "IECoreArnold::RendererImplementation::patchMesh" r w

/-- RendererImplementation::geometry. -/
def geometry (_type : String) (_topology _primVars : CompoundDataMap)
    (r : RendererImplementation) (w : World) : Option (RendererImplementation × World) :=
  notImplemented "IECoreArnold::RendererImplementation::geometry" r w

/-- RendererImplementation::instanceBegin. -/
def instanceBegin (_name : String) (_parameters : CompoundDataMap) (r : RendererImplementation)
    (w : World) : Option (RendererImplementation × World) :=
  notImplemented "IECoreArnold::RendererImplementation::instanceBegin" r w

/-- RendererImplementation::instanceEnd. -/
def instanceEnd (r : RendererImplementation) (w : World) :
    Option (RendererImplementation × World) :=
  notImplemented "IECoreArnold::RendererImplementation::instanceEnd" r w

/-- RendererImplementation::instance. -/
def instance_ (_name : String) (r : RendererImplementation) (w : World) :
    Option (RendererImplementation × World) :=
  notImplemented "IECoreArnold::RendererImplementation::instance" r w

/-- RendererImplementation::command; the returned data pointer is null. -/
def command (_name : String) (_parameters : CompoundDataMap) (r : RendererImplementation)
    (w : World) : Option (RendererImplementation × World) :=
  notImplemented "IECoreArnold::RendererImplementation::command" r w

/-! ## Procedurals -/

/-- RendererImplementation::procedural. `boxTransform` is Imath's
`transform( const Box3f &, const M44f & )` of ImathBoxAlgo.h, taken as a parameter. The
new `ProceduralData` goes to the end of the descriptor heap and the node's "userptr"
points at it. -/
def procedural (boxTransform : Box3f → M44f → Box3f) (proc : Procedural)
    (r : RendererImplementation) (w : World) : Option (RendererImplementation × World) :=
  match r.m_transformStack with
  | [] => none
  | top :: _ =>
    let bound := boxTransform proc.bound top
    let p := AiNode "procedural" w
    (AiNodeSet p.1 "min" (ParamValue.Pnt bound.min) p.2).bind (fun w1 =>
    (AiNodeSet p.1 "max" (ParamValue.Pnt bound.max) w1).bind (fun w2 =>
    (AiNodeSet p.1 "funcptr" (ParamValue.FuncPtr "procLoader") w2).bind (fun w3 =>
    (createCopy r).bind (fun child =>
      let data : ProceduralData := { procedural := some proc, renderer := child }
      let w4 := { w3 with procData := w3.procData ++ [data] }
      (AiNodeSet p.1 "userptr" (ParamValue.UserPtr w3.procData.length) w4).bind (fun w5 =>
        addShape p.1 r w5)))))

/-- One call of the protocol, dispatched to the member function of that name. -/
def step (boxTransform : Box3f → M44f → Box3f) (c : Cmd) (r : RendererImplementation)
    (w : World) : Option (RendererImplementation × World) :=
  match c with
  | Cmd.setOption name value => setOption name value r w
  | Cmd.camera name parameters => camera name parameters r w
  | Cmd.display name type data parameters => display name type data parameters r w
  | Cmd.worldBegin => worldBegin r w
  | Cmd.worldEnd => worldEnd r w
  | Cmd.transformBegin => transformBegin r w
  | Cmd.transformEnd => transformEnd r w
  | Cmd.setTransform m => setTransform m r w
  | Cmd.setTransformNamed cs => setTransformNamed cs r w
  | Cmd.getTransformNamed cs => some (r, (getTransformNamed cs r w).2)
  | Cmd.concatTransform m => concatTransform m r w
  | Cmd.coordinateSystem name => coordinateSystem name r w
  | Cmd.attributeBegin => attributeBegin r w
  | Cmd.attributeEnd => attributeEnd r w
  | Cmd.setAttribute name value => setAttribute name value r w
  | Cmd.shader type name parameters => shader type name parameters r w
  | Cmd.light name handle parameters => light name handle parameters r w
  | Cmd.illuminate lightHandle isOn => illuminate lightHandle isOn r w
  | Cmd.motionBegin times => motionBegin times r w
  | Cmd.motionEnd => motionEnd r w
  | Cmd.points numPoints primVars => points numPoints primVars r w
  | Cmd.disk radius z thetaMax primVars => disk radius z thetaMax primVars r w
  | Cmd.curves periodic numVertices primVars => curves periodic numVertices primVars r w
  | Cmd.text font t kerning primVars => text font t kerning primVars r w
  | Cmd.sphere radius zMin zMax thetaMax primVars => sphere radius zMin zMax thetaMax primVars r w
  | Cmd.image primVars => image primVars r w
  | Cmd.mesh vertsPerFace vertIds interpolation primVars =>
    mesh vertsPerFace vertIds interpolation primVars r w
  | Cmd.nurbs uOrder vOrder primVars => nurbs uOrder vOrder primVars r w
  | Cmd.patchMesh nu nv primVars => patchMesh nu nv primVars r w
  | Cmd.geometry type topology primVars => geometry type topology primVars r w
  | Cmd.procedural bound render => procedural boxTransform { bound := bound, render := render } r w
  | Cmd.instanceBegin name parameters => instanceBegin name parameters r w
  | Cmd.instanceEnd => instanceEnd r w
  | Cmd.instance_ name => instance_ name r w
  | Cmd.command name parameters => command name parameters r w

/-- A sequence of calls of the protocol against one renderer, in order. -/
def run (boxTransform : Box3f → M44f → Box3f) :
    List Cmd → RendererImplementation → World → Option (RendererImplementation × World)
  | [], r, w => some (r, w)
  | c :: cs, r, w => (step boxTransform c r w).bind (fun p => run boxTransform cs p.1 p.2)

/-- Arnold `AiNodeGetPtr( node, "userptr" )`, as an index into the descriptor heap. -/
def userPtrOf (node : AtNode) (w : World) : Option Nat :=
  match w.nodes[node]? with
  | none => none
  | some nd =>
    match nd.params.lookup "userptr" with
    | some (ParamValue.UserPtr d) => some d
    | _ => none

/-- RendererImplementation::procInit: the generator renders into the renderer of the
descriptor and is then cleared; the result is `*userPtr` with the new world. Undefined
when the node has no descriptor or the generator is null. -/
def procInit (boxTransform : Box3f → M44f → Box3f) (node : AtNode) (w : World) :
    Option (Nat × World) :=
  (userPtrOf node w).bind (fun ptr =>
  (w.procData[ptr]?).bind (fun data =>
  (data.procedural).bind (fun proc =>
  (run boxTransform proc.render data.renderer w).bind (fun p =>
    let w1 := p.2
    let expanded : ProceduralData := { procedural := none, renderer := p.1 }
    some (ptr, { w1 with procData := w1.procData.set ptr expanded })))))

/-- RendererImplementation::procNumNodes; undefined on a pointer to no descriptor. -/
def procNumNodes (userPtr : Nat) (w : World) : Option Nat :=
  (w.procData[userPtr]?).map (fun data => data.renderer.m_shapes.length)

/-- RendererImplementation::procGetNode: `m_shapes[i]`, undefined outside the vector. -/
def procGetNode (userPtr : Nat) (i : Int) (w : World) : Option AtNode :=
  (w.procData[userPtr]?).bind (fun data =>
    if i < 0 then none else data.renderer.m_shapes[i.toNat]?)

/-- The calls that act on the transform stack alone. -/
def isTransformCall : Cmd → Bool
  | Cmd.transformBegin => true
  | Cmd.transformEnd => true
  | Cmd.setTransform _ => true
  | Cmd.concatTransform _ => true
  | _ => false

end RendererImplementation

open RendererImplementation

/-! ## Definitions used in the statements -/

/-- The parameter values of a node after `ToArnoldConverter::setParameters` has forwarded
the entries of a map to it, one store per entry in turn. -/
def forwardParams : List (String × ParamValue) → CompoundDataMap → List (String × ParamValue)
  | ps, [] => ps
  | ps, (k, v) :: rest => forwardParams (setParam ps k (ParamValue.Converted v)) rest

/-- The calls that act on the top attribute state alone. -/
def isAttributeCall : Cmd → Bool
  | Cmd.setAttribute _ _ => true
  | Cmd.shader _ _ _ => true
  | _ => false

/-- The number a list of decimal digit characters stands for. -/
def digitsValue (cs : List Char) : Nat :=
  cs.foldl (fun acc c => 10 * acc + (c.toNat - 48)) 0

/-- The parameter values of the driver node that `display` creates: its name, the file
name when the driver declares a "filename" parameter, then the forwarded parameters. -/
def driverParams (w : World) (name type : String) (k : Nat) (parameters : CompoundDataMap) :
    List (String × ParamValue) :=
  forwardParams
    (if entryHasParameter w type "filename" then
      setParam [("name", ParamValue.Str (displayNodeName k))] "filename" (ParamValue.Str name)
    else [("name", ParamValue.Str (displayNodeName k))])
    parameters

/-- The world after `camera( name, parameters )` has run with `t` at the top of the
transform stack: one new camera node carrying the transform, and the options node with
its "camera", "xres" and "yres" set. -/
def cameraWorld (_name : String) (parameters : CompoundDataMap) (t : M44f) (w : World) :
    World :=
  { w with
    nodes := w.nodes ++ [{ entry := "persp_camera", params :=
      (setParam [] "matrix" (ParamValue.Matrix t)) }]
    options := { w.options with params :=
      (setParam
        (setParam
          (setParam w.options.params "camera" (ParamValue.Ptr (some w.nodes.length)))
          "xres" (ParamValue.Int
            (match parameters.memberV2i "resolution" with | some v => v.1 | none => 640)))
        "yres" (ParamValue.Int
          (match parameters.memberV2i "resolution" with | some v => v.2 | none => 480))) } }

/-- The world after the camera and outputs part of `worldBegin` has run with `t` at the
top of the transform stack. -/
def finishedWorld (r : RendererImplementation) (t : M44f) (w : World) : World :=
  optionsSet "outputs"
    (ParamValue.StrArray
      (setOutputs r.m_outputDescriptions (AiArrayAllocate r.m_outputDescriptions.length)))
    (if (optionsGetPtr "camera" w).isNone then
      cameraWorld "ieCoreArnold:defaultCamera" [] t w
    else w)

/-- Arnold `AiNodeGetInt( AiUniverseGetOptions(), name )`, when an integer was set. -/
def optionsGetInt (name : String) (w : World) : Option Int :=
  match w.options.params.lookup name with
  | some (ParamValue.Int v) => some v
  | _ => none

/-- Arnold `AiNodeGetArray( AiUniverseGetOptions(), name )`, when a string array was set. -/
def optionsGetStrArray (name : String) (w : World) : Option (List (Option String)) :=
  match w.options.params.lookup name with
  | some (ParamValue.StrArray a) => some a
  | _ => none

/-- Arnold `AiNodeGet...( node, name )`: the value last stored on the node under the name. -/
def nodeParam (node : AtNode) (name : String) (w : World) : Option ParamValue :=
  (w.nodes[node]?).bind (fun nd => nd.params.lookup name)

/-- The node that `mesh` leaves in the universe: the converted mesh, stamped by `addShape`
with the transform `t` and the shader `s`. -/
def meshNode (vertsPerFace vertIds : List Int) (t : M44f) (s : Option AtNode) : Node :=
  { entry := "polymesh"
    params := setParam
      (setParam
        [("nsides", ParamValue.IntArray vertsPerFace), ("vidxs", ParamValue.IntArray vertIds)]
        "matrix" (ParamValue.Matrix t))
      "shader" (ParamValue.Ptr s) }

/-- The calls that hand a node to `addShape`. -/
def emitsShape : Cmd → Bool
  | Cmd.curves _ _ _ => true
  | Cmd.sphere _ _ _ _ _ => true
  | Cmd.mesh _ _ _ _ => true
  | Cmd.procedural _ _ => true
  | _ => false

/-- The shape a call emits when issued in world `w`: the node it creates, which takes the
next free handle; no shape for the other calls. -/
def emittedBy (c : Cmd) (w : World) : List AtNode :=
  if emitsShape c then [w.nodes.length] else []

/-- The shapes a sequence of calls emits, in the order of the calls, when run against
renderer `r` in world `w`. -/
def emittedShapes (boxTransform : Box3f → M44f → Box3f) :
    List Cmd → RendererImplementation → World → List AtNode
  | [], _, _ => []
  | c :: cs, r, w =>
    match step boxTransform c r w with
    | none => []
    | some p => emittedBy c w ++ emittedShapes boxTransform cs p.1 p.2

/-- `Frame w0 w`: world `w` keeps every node and every descriptor of `w0` as it is, new
ones coming after them, and knows the same node entries. -/
structure Frame (w0 w : World) : Prop where
  nodes : w0.nodes <+: w.nodes
  procData : w0.procData <+: w.procData
  entries : w.nodeEntries = w0.nodeEntries

/-- The node that `procedural` leaves in the universe: the bound, the loader, the pointer
to the descriptor, and the stamp of `addShape`. -/
def proceduralNode (bound : Box3f) (descriptor : Nat) (t : M44f) (s : Option AtNode) : Node :=
  { entry := "procedural"
    params := setParam
      (setParam
        (setParam
          (setParam
            (setParam (setParam [] "min" (ParamValue.Pnt bound.min))
              "max" (ParamValue.Pnt bound.max))
            "funcptr" (ParamValue.FuncPtr "procLoader"))
          "userptr" (ParamValue.UserPtr descriptor))
        "matrix" (ParamValue.Matrix t))
      "shader" (ParamValue.Ptr s) }

/-- The renderer that the copy constructor makes from a renderer whose stack tops are `t`
and `a`. -/
def childRenderer (t : M44f) (a : AttributeState) : RendererImplementation :=
  { m_mode := Mode.Procedural
    m_assFileName := ""
    m_defaultFilter := none
    m_transformStack := [t]
    m_attributeStack := [a]
    m_shapes := []
    m_outputDescriptions := [] }

/-- The warnings `sphere` logs, in order: one for each of zMin, zMax and thetaMax that is
not the value of a whole sphere. -/
def sphereWarnings (zMin zMax thetaMax : ℚ) : List Message :=
  (if zMin ≠ -1 then
    [{ level := Level.Warning, context := "IECoreArnold::RendererImplementation::sphere",
       text := "zMin not supported" }] else []) ++
  (if zMax ≠ 1 then
    [{ level := Level.Warning, context := "IECoreArnold::RendererImplementation::sphere",
       text := "zMax not supported" }] else []) ++
  (if thetaMax ≠ 360 then
    [{ level := Level.Warning, context := "IECoreArnold::RendererImplementation::sphere",
       text := "thetaMax not supported" }] else [])

/-- The node that `sphere` leaves in the universe: the radius and the stamp of `addShape`. -/
def sphereNode (radius : ℚ) (t : M44f) (s : Option AtNode) : Node :=
  { entry := "sphere"
    params := setParam
      (setParam (setParam [] "radius" (ParamValue.Flt radius)) "matrix" (ParamValue.Matrix t))
      "shader" (ParamValue.Ptr s) }

/-- The world with the messages `ms` put in front of its log. -/
def prependMsgs (ms : List Message) (w : World) : World :=
  { w with msgs := ms ++ w.msgs }

/-- A result of a call, with the messages `ms` put in front of the log of its world. -/
def withPrepended (ms : List Message) (p : RendererImplementation × World) :
    RendererImplementation × World :=
  (p.1, prependMsgs ms p.2)

/-- The scene of a world: the world without its message log. -/
def scene (w : World) : World :=
  { w with msgs := [] }

/-- A result of a call, with the log left out of its world. -/
def sceneOf (p : RendererImplementation × World) : RendererImplementation × World :=
  (p.1, scene p.2)

/-! ## Example sessions -/

/-- A universe for the examples: the node entries of a plain Arnold installation that the
renderer asks for, with the parameters declared by each. -/
def demoWorld : World :=
  { nodeEntries :=
      [("options", ["AA_samples", "xres", "yres", "camera", "outputs"]),
       ("gaussian_filter", ["name", "width"]),
       ("utility", ["name"]),
       ("standard", ["name", "Kd"]),
       ("polymesh", ["name", "nsides", "vidxs", "matrix", "shader"]),
       ("curves", ["name", "num_points", "matrix", "shader"]),
       ("sphere", ["name", "radius", "matrix", "shader"]),
       ("persp_camera", ["name", "matrix", "fov"]),
       ("procedural", ["name", "min", "max", "funcptr", "userptr", "matrix", "shader"]),
       ("driver_exr", ["name", "filename"])]
    options := { entry := "options", params := [] }
    nodes := []
    procData := []
    msgs := []
    actions := [] }

/-- The renderer made by `RendererImplementation()` in `demoWorld`: the default filter is
node 0 and the default shader node 1. -/
def demoRenderer : RendererImplementation :=
  { m_mode := Mode.Render
    m_assFileName := ""
    m_defaultFilter := some 0
    m_transformStack := [(1 : M44f)]
    m_attributeStack := [{ surfaceShader := some 1, attributes := [] }]
    m_shapes := []
    m_outputDescriptions := [] }

/-- The world left by `RendererImplementation()` in `demoWorld`. -/
def demoStart : World :=
  { demoWorld with
    nodes := [{ entry := "gaussian_filter",
                params := [("name", ParamValue.Str "ieCoreArnold:defaultFilter")] },
              { entry := "utility", params := [] }] }

/-- A scene with two sibling procedurals declared under different attribute states: the
first inside an attribute scope with the "standard" surface shader, the second after the
scope was closed; the first generator emits one mesh, the second a mesh and curves. -/
def demoScene : List Cmd :=
  [Cmd.attributeBegin,
   Cmd.shader "surface" "standard" [],
   Cmd.procedural { min := (0, 0, 0), max := (1, 1, 1) } [Cmd.mesh [3] [0, 1, 2] "linear" []],
   Cmd.attributeEnd,
   Cmd.procedural { min := (0, 0, 0), max := (2, 2, 2) }
     [Cmd.transformBegin, Cmd.mesh [4] [0, 1, 2, 3] "linear" [], Cmd.transformEnd,
      Cmd.curves false [4] []]]

/-- The shader handles stamped on the shapes that a descriptor reports, in order. -/
def harvestedShaders (userPtr : Nat) (w : World) : List (Option ParamValue) :=
  match w.procData[userPtr]? with
  | none => []
  | some data => data.renderer.m_shapes.map (fun n => nodeParam n "shader" w)

/-! # Theorems -/

/-! ## Transform stack guard -/

theorem transformBegin_cons (r : RendererImplementation) (w : World) (t : M44f)
    (rest : List M44f) (hs : r.m_transformStack = t :: rest) :
    transformBegin r w = some ({ r with m_transformStack := t :: t :: rest }, w) := by
  simp [transformBegin, hs]

theorem transformEnd_cons_cons (r : RendererImplementation) (w : World) (a b : M44f)
    (rest : List M44f) (hs : r.m_transformStack = a :: b :: rest) :
    transformEnd r w = some ({ r with m_transformStack := b :: rest }, w) := by
  simp [transformEnd, hs]

theorem transformEnd_guard (r : RendererImplementation) (w : World)
    (hs : r.m_transformStack.length ≤ 1) :
    transformEnd r w = some (r, msg Level.Warning
      "IECoreArnold::RendererImplementation::transformEnd"
      "No matching transformBegin() call." w) := by
  simp [transformEnd, hs]

theorem setTransform_cons (m : M44f) (r : RendererImplementation) (w : World) (t : M44f)
    (rest : List M44f) (hs : r.m_transformStack = t :: rest) :
    setTransform m r w = some ({ r with m_transformStack := m :: rest }, w) := by
  simp [setTransform, hs]

theorem concatTransform_cons (m : M44f) (r : RendererImplementation) (w : World) (t : M44f)
    (rest : List M44f) (hs : r.m_transformStack = t :: rest) :
    concatTransform m r w = some ({ r with m_transformStack := (m * t) :: rest }, w) := by
  simp [concatTransform, hs]

theorem step_transformCall_nonempty (boxTransform : Box3f → M44f → Box3f) (c : Cmd)
    (hc : isTransformCall c = true) (r : RendererImplementation) (w : World)
    (h : r.m_transformStack ≠ []) :
    ∃ r1 w1, step boxTransform c r w = some (r1, w1) ∧ r1.m_transformStack ≠ [] := by
  obtain ⟨t, rest, hs⟩ := List.exists_cons_of_ne_nil h
  cases c <;> simp [isTransformCall] at hc
  · exact ⟨_, _, transformBegin_cons r w t rest hs, by simp⟩
  · cases rest with
    | nil => exact ⟨_, _, transformEnd_guard r w (by simp [hs]), h⟩
    | cons b rest2 => exact ⟨_, _, transformEnd_cons_cons r w t b rest2 hs, by simp⟩
  · exact ⟨_, _, setTransform_cons _ r w t rest hs, by simp⟩
  · exact ⟨_, _, concatTransform_cons _ r w t rest hs, by simp⟩

theorem run_transformCalls_nonempty (boxTransform : Box3f → M44f → Box3f) (cmds : List Cmd)
    (hc : ∀ c ∈ cmds, isTransformCall c = true) (r : RendererImplementation) (w : World)
    (h : r.m_transformStack ≠ []) :
    ∃ r1 w1, run boxTransform cmds r w = some (r1, w1) ∧ r1.m_transformStack ≠ [] := by
  induction cmds generalizing r w with
  | nil => exact ⟨r, w, rfl, h⟩
  | cons c cs ih =>
    obtain ⟨r1, w1, h1, hne⟩ :=
      step_transformCall_nonempty boxTransform c (hc c (List.mem_cons_self c cs)) r w h
    obtain ⟨r2, w2, h2, hne2⟩ :=
      ih (fun d hd => hc d (List.mem_cons_of_mem c hd)) r1 w1 hne
    exact ⟨r2, w2, by simp [run, h1, h2], hne2⟩

/-- C1. From a session whose transform stack holds one guard frame, every finite sequence
of transformBegin, transformEnd, setTransform and concatTransform calls runs to a state
with a non-empty transform stack; and transformEnd called on a stack of exactly one frame
leaves the renderer, hence the stack, unchanged and logs one warning. -/
theorem transformStack_guard (boxTransform : Box3f → M44f → Box3f) (cmds : List Cmd)
    (hc : ∀ c ∈ cmds, isTransformCall c = true) (r : RendererImplementation) (w : World)
    (h : r.m_transformStack.length = 1) :
    (∃ r1 w1, run boxTransform cmds r w = some (r1, w1) ∧ r1.m_transformStack ≠ []) ∧
    (∀ (r0 : RendererImplementation) (w0 : World), r0.m_transformStack.length = 1 →
      transformEnd r0 w0 = some (r0, { w0 with msgs := w0.msgs ++
        [{ level := Level.Warning
           context := "IECoreArnold::RendererImplementation::transformEnd"
           text := "No matching transformBegin() call." }] })) := by
  refine ⟨run_transformCalls_nonempty boxTransform cmds hc r w ?_, ?_⟩
  · intro hnil
    simp [hnil] at h
  · intro r0 w0 h0
    simp [transformEnd, h0, msg]

theorem create_demoWorld : create none demoWorld = some (demoRenderer, demoStart) := by
  simp [create, constructCommon, AiLoadPlugins, AiBegin, AiNode, realizeNode, AiNodeSet, demoWorld,
    AttributeState.default, blank, setParam, demoRenderer, demoStart]

theorem transformStack_guard_witness :
    (∃ r1 w1, run (fun b _ => b) [Cmd.transformBegin, Cmd.transformEnd, Cmd.transformEnd,
        Cmd.setTransform 0, Cmd.concatTransform 1] demoRenderer demoStart = some (r1, w1) ∧
      r1.m_transformStack ≠ []) ∧
    (∀ (r0 : RendererImplementation) (w0 : World), r0.m_transformStack.length = 1 →
      transformEnd r0 w0 = some (r0, { w0 with msgs := w0.msgs ++
        [{ level := Level.Warning
           context := "IECoreArnold::RendererImplementation::transformEnd"
           text := "No matching transformBegin() call." }] })) :=
  transformStack_guard (fun b _ => b) _ (by simp [isTransformCall]) demoRenderer demoStart rfl

/-! ## Stores on nodes -/

theorem lookup_setParam_self (ps : List (String × ParamValue)) (name : String)
    (v : ParamValue) : (setParam ps name v).lookup name = some v := by
  induction ps with
  | nil => simp [setParam, List.lookup]
  | cons kv rest ih =>
    obtain ⟨k, old⟩ := kv
    by_cases hk : k = name
    · subst hk
      simp [setParam, List.lookup]
    · have hk2 : (name == k) = false := by
        simpa using fun h => hk h.symm
      simp [setParam, hk, List.lookup, hk2, ih]

theorem lookup_setParam_ne (ps : List (String × ParamValue)) (name other : String)
    (v : ParamValue) (h : other ≠ name) :
    (setParam ps name v).lookup other = ps.lookup other := by
  induction ps with
  | nil =>
    have h2 : (other == name) = false := by simpa using h
    simp [setParam, List.lookup, h2]
  | cons kv rest ih =>
    obtain ⟨k, old⟩ := kv
    by_cases hk : k = name
    · subst hk
      have h2 : (other == k) = false := by simpa using h
      simp [setParam, List.lookup, h2]
    · by_cases ho : other = k
      · subst ho
        simp [setParam, hk, List.lookup]
      · have h2 : (other == k) = false := by simpa using ho
        simp [setParam, hk, List.lookup, h2, ih]

theorem AiNodeSet_last (name : String) (v : ParamValue) (w : World) (l : List Node)
    (nd : Node) (n : Nat) (hw : w.nodes = l ++ [nd]) (hn : n = l.length) :
    AiNodeSet (some n) name v w =
      some { w with nodes := l ++ [{ nd with params := setParam nd.params name v }] } := by
  subst hn
  simp [AiNodeSet, hw]

theorem setParameters_last (ps : CompoundDataMap) (w : World) (l : List Node) (nd : Node)
    (n : Nat) (hw : w.nodes = l ++ [nd]) (hn : n = l.length) :
    ToArnoldConverter.setParameters (some n) ps w =
      some { w with nodes := l ++ [{ nd with params := forwardParams nd.params ps }] } := by
  induction ps generalizing w nd with
  | nil =>
    cases w
    simp_all [ToArnoldConverter.setParameters, forwardParams]
  | cons kv rest ih =>
    obtain ⟨k, v⟩ := kv
    simp only [ToArnoldConverter.setParameters, ToArnoldConverter.setParameter]
    rw [AiNodeSet_last k _ w l nd n hw hn]
    simp only [Option.some_bind]
    rw [ih _ { nd with params := setParam nd.params k (ParamValue.Converted v) } rfl]
    simp [forwardParams]

theorem copyOf_eq (a : AttributeState) : AttributeState.copyOf a = a := by
  cases a with
  | mk s attrs =>
    simp only [AttributeState.copyOf, Data.copy]
    congr 1
    induction attrs with
    | nil => rfl
    | cons kv rest ih => simp [ih]

/-! ## Attribute stack -/

theorem attributeBegin_cons (r : RendererImplementation) (w : World) (t : M44f)
    (ts : List M44f) (a : AttributeState) (as : List AttributeState)
    (ht : r.m_transformStack = t :: ts) (ha : r.m_attributeStack = a :: as) :
    attributeBegin r w = some ({ r with m_transformStack := t :: t :: ts
                                        m_attributeStack := a :: a :: as }, w) := by
  simp [attributeBegin, transformBegin_cons r w t ts ht, ha, copyOf_eq]

theorem attributeEnd_cons (r : RendererImplementation) (w : World) (a : AttributeState)
    (as : List AttributeState) (ha : r.m_attributeStack = a :: as) :
    attributeEnd r w = transformEnd { r with m_attributeStack := as } w := by
  simp [attributeEnd, ha]

theorem setAttribute_cons (name : String) (value : Data) (r : RendererImplementation)
    (w : World) (a : AttributeState) (as : List AttributeState)
    (ha : r.m_attributeStack = a :: as) :
    setAttribute name value r w = some ({ r with m_attributeStack :=
      { a with attributes := a.attributes.assign name value } :: as }, w) := by
  simp [setAttribute, ha, Data.copy]

theorem shader_surface_created (name : String) (parameters : CompoundDataMap)
    (r : RendererImplementation) (w : World) (a : AttributeState) (as : List AttributeState)
    (ha : r.m_attributeStack = a :: as) (hk : (w.nodeEntries.lookup name).isSome = true) :
    shader "surface" name parameters r w =
      some ({ r with m_attributeStack := { a with surfaceShader := some w.nodes.length } :: as },
        { w with nodes := w.nodes ++
          [{ entry := name, params := forwardParams [] parameters }] }) := by
  simp only [shader, AiNode, hk, realizeNode, if_true]
  rw [setParameters_last parameters _ w.nodes { entry := name, params := [] } w.nodes.length
    rfl rfl]
  simp [ha]

theorem shader_surface_refused (name : String) (parameters : CompoundDataMap)
    (r : RendererImplementation) (w : World)
    (hk : (w.nodeEntries.lookup name).isSome = false) :
    shader "surface" name parameters r w =
      some (r, msg Level.Warning "IECoreArnold::RendererImplementation::shader"
        ("Couldn't load shader \"" ++ name ++ "\"") w) := by
  simp [shader, AiNode, hk]

theorem shader_unsupported (type name : String) (parameters : CompoundDataMap)
    (r : RendererImplementation) (w : World) (ht : type ≠ "surface") :
    shader type name parameters r w =
      some (r, msg Level.Warning "IECoreArnold::RendererImplementation::shader"
        ("Unsupported shader type \"" ++ type ++ "\"") w) := by
  simp [shader, ht]

theorem step_attributeCall (boxTransform : Box3f → M44f → Box3f) (c : Cmd)
    (hc : isAttributeCall c = true) (r : RendererImplementation) (w : World)
    (a : AttributeState) (as : List AttributeState) (ha : r.m_attributeStack = a :: as) :
    ∃ r1 w1 a1, step boxTransform c r w = some (r1, w1) ∧
      r1.m_attributeStack = a1 :: as ∧ r1.m_transformStack = r.m_transformStack := by
  cases c <;> simp [isAttributeCall] at hc
  case setAttribute name value =>
    exact ⟨_, _, _, setAttribute_cons name value r w a as ha, rfl, rfl⟩
  case shader type name parameters =>
    by_cases ht : type = "surface"
    · subst ht
      cases hk : (w.nodeEntries.lookup name).isSome
      · exact ⟨_, _, a, shader_surface_refused name parameters r w hk, ha, rfl⟩
      · exact ⟨_, _, _, shader_surface_created name parameters r w a as ha hk, rfl, rfl⟩
    · exact ⟨_, _, a, shader_unsupported type name parameters r w ht, ha, rfl⟩

theorem run_attributeCalls (boxTransform : Box3f → M44f → Box3f) (cmds : List Cmd)
    (hc : ∀ c ∈ cmds, isAttributeCall c = true) (r : RendererImplementation) (w : World)
    (a : AttributeState) (as : List AttributeState) (ha : r.m_attributeStack = a :: as) :
    ∃ r1 w1 a1, run boxTransform cmds r w = some (r1, w1) ∧
      r1.m_attributeStack = a1 :: as ∧ r1.m_transformStack = r.m_transformStack := by
  induction cmds generalizing r w a with
  | nil => exact ⟨r, w, a, rfl, ha, rfl⟩
  | cons c cs ih =>
    obtain ⟨r1, w1, a1, h1, ha1, ht1⟩ :=
      step_attributeCall boxTransform c (hc c (List.mem_cons_self c cs)) r w a as ha
    obtain ⟨r2, w2, a2, h2, ha2, ht2⟩ :=
      ih (fun d hd => hc d (List.mem_cons_of_mem c hd)) r1 w1 a1 ha1
    exact ⟨r2, w2, a2, by simp [run, h1, h2], ha2, by rw [ht2, ht1]⟩

theorem run_append (boxTransform : Box3f → M44f → Box3f) (xs ys : List Cmd)
    (r : RendererImplementation) (w : World) :
    run boxTransform (xs ++ ys) r w =
      (run boxTransform xs r w).bind (fun p => run boxTransform ys p.1 p.2) := by
  induction xs generalizing r w with
  | nil => simp [run]
  | cons c cs ih =>
    simp only [List.cons_append, run]
    cases step boxTransform c r w with
    | none => simp
    | some p => simp [ih]

/-- C2, the code at the failing input: on the freshly constructed session, whose attribute
stack holds the guard state alone, attributeEnd pops that state. The attribute stack is
left empty, so getAttribute and a following attributeBegin are undefined, while the
transform stack is kept by the guard of transformEnd, which logs its warning. -/
theorem attributeEnd_pops_guard_state :
    ∃ r1 w1, attributeEnd demoRenderer demoStart = some (r1, w1) ∧
      r1.m_attributeStack = [] ∧
      r1.m_transformStack = demoRenderer.m_transformStack ∧
      w1 = msg Level.Warning "IECoreArnold::RendererImplementation::transformEnd"
        "No matching transformBegin() call." demoStart ∧
      getAttribute "name" r1 = none ∧
      attributeBegin r1 w1 = none ∧
      attributeEnd r1 w1 = none := by
  refine ⟨{ demoRenderer with m_attributeStack := [] }, _, ?_, rfl, rfl, rfl, rfl, ?_, rfl⟩
  · rw [attributeEnd_cons demoRenderer demoStart _ [] rfl]
    exact transformEnd_guard _ _ (by simp [demoRenderer])
  · simp [attributeBegin, transformBegin, demoRenderer]

theorem attributeScope_restores (boxTransform : Box3f → M44f → Box3f) (body : List Cmd)
    (hbody : ∀ c ∈ body, isAttributeCall c = true) (r : RendererImplementation) (w : World)
    (t : M44f) (ts : List M44f) (a : AttributeState) (as : List AttributeState)
    (hts : r.m_transformStack = t :: ts) (has : r.m_attributeStack = a :: as) :
    ∃ r3 w3, run boxTransform (Cmd.attributeBegin :: body ++ [Cmd.attributeEnd]) r w =
        some (r3, w3) ∧
      r3.m_attributeStack = a :: as ∧ r3.m_transformStack = t :: ts := by
  have hbegin := attributeBegin_cons r w t ts a as hts has
  obtain ⟨r2, w2, a2, h2, ha2, ht2⟩ :=
    run_attributeCalls boxTransform body hbody
      { r with m_transformStack := t :: t :: ts, m_attributeStack := a :: a :: as } w a
      (a :: as) rfl
  have hend : attributeEnd r2 w2 =
      some ({ r2 with m_attributeStack := a :: as, m_transformStack := t :: ts }, w2) := by
    rw [attributeEnd_cons r2 w2 a2 (a :: as) ha2]
    exact transformEnd_cons_cons _ w2 t t ts ht2
  refine ⟨{ r2 with m_attributeStack := a :: as, m_transformStack := t :: ts }, w2,
    ?_, rfl, rfl⟩
  show run boxTransform (Cmd.attributeBegin :: (body ++ [Cmd.attributeEnd])) r w = _
  rw [run]
  show (attributeBegin r w).bind _ = _
  rw [hbegin, Option.some_bind, run_append, h2]
  simp [run, step, hend]

/-- C3. In a session whose two stacks are non-empty: (1) attributeBegin succeeds and
getAttribute returns afterwards what it returned before; (2) attributeBegin, then any
calls of setAttribute and shader among which setAttribute( n, value ), then attributeEnd,
run to a state whose attribute stack is the one from before attributeBegin, so that
getAttribute( n ) and the surface shader at the top are the ones from before. -/
theorem attribute_roundtrip (boxTransform : Box3f → M44f → Box3f)
    (r : RendererImplementation) (w : World) (n : String) (value : Data)
    (pre post : List Cmd) (hpre : ∀ c ∈ pre, isAttributeCall c = true)
    (hpost : ∀ c ∈ post, isAttributeCall c = true)
    (ht : r.m_transformStack ≠ []) (ha : r.m_attributeStack ≠ []) :
    (∃ r1 w1, attributeBegin r w = some (r1, w1) ∧ getAttribute n r1 = getAttribute n r) ∧
    (∃ r3 w3,
      run boxTransform
        (Cmd.attributeBegin :: (pre ++ Cmd.setAttribute n value :: post) ++ [Cmd.attributeEnd])
        r w = some (r3, w3) ∧
      r3.m_attributeStack = r.m_attributeStack ∧
      r3.m_transformStack = r.m_transformStack ∧
      getAttribute n r3 = getAttribute n r ∧
      r3.m_attributeStack.head?.map AttributeState.surfaceShader =
        r.m_attributeStack.head?.map AttributeState.surfaceShader) := by
  obtain ⟨t, ts, hts⟩ := List.exists_cons_of_ne_nil ht
  obtain ⟨a, as, has⟩ := List.exists_cons_of_ne_nil ha
  have hbegin := attributeBegin_cons r w t ts a as hts has
  refine ⟨⟨_, _, hbegin, by simp [getAttribute, has]⟩, ?_⟩
  have hbody : ∀ c ∈ pre ++ Cmd.setAttribute n value :: post, isAttributeCall c = true := by
    intro c hc
    rcases List.mem_append.mp hc with h | h
    · exact hpre c h
    · rcases List.mem_cons.mp h with h | h
      · subst h
        rfl
      · exact hpost c h
  obtain ⟨r3, w3, h3, ha3, ht3⟩ :=
    attributeScope_restores boxTransform _ hbody r w t ts a as hts has
  exact ⟨r3, w3, h3, by rw [ha3, has], by rw [ht3, hts], by simp [getAttribute, ha3, has],
    by rw [ha3, has]⟩

theorem attribute_roundtrip_witness :
    (∃ r1 w1, attributeBegin demoRenderer demoStart = some (r1, w1) ∧
      getAttribute "user:x" r1 = getAttribute "user:x" demoRenderer) ∧
    (∃ r3 w3,
      run (fun b _ => b)
        (Cmd.attributeBegin :: ([Cmd.shader "surface" "standard" []] ++
          Cmd.setAttribute "user:x" (Data.IntData 1) :: []) ++ [Cmd.attributeEnd])
        demoRenderer demoStart = some (r3, w3) ∧
      r3.m_attributeStack = demoRenderer.m_attributeStack ∧
      r3.m_transformStack = demoRenderer.m_transformStack ∧
      getAttribute "user:x" r3 = getAttribute "user:x" demoRenderer ∧
      r3.m_attributeStack.head?.map AttributeState.surfaceShader =
        demoRenderer.m_attributeStack.head?.map AttributeState.surfaceShader) :=
  attribute_roundtrip (fun b _ => b) demoRenderer demoStart "user:x" (Data.IntData 1)
    [Cmd.shader "surface" "standard" []] [] (by simp [isAttributeCall])
    (by simp) (by simp [demoRenderer]) (by simp [demoRenderer])

/-! ## Transform composition -/

/-- C4. On a transform stack with top frame T, concatTransform( A ) followed by
concatTransform( B ) ends in the same renderer and world as one concatTransform( B * A ):
the top frame is B * A * T, the frames below it and the depth of the stack are unchanged. -/
theorem concatTransform_compose (A B T : M44f) (rest : List M44f)
    (r : RendererImplementation) (w : World) (hs : r.m_transformStack = T :: rest) :
    ∃ r2, (concatTransform A r w).bind (fun p => concatTransform B p.1 p.2) = some (r2, w) ∧
      concatTransform (B * A) r w = some (r2, w) ∧
      r2.m_transformStack = (B * A * T) :: rest ∧
      r2.m_transformStack.tail = r.m_transformStack.tail ∧
      r2.m_transformStack.length = r.m_transformStack.length := by
  refine ⟨{ r with m_transformStack := (B * A * T) :: rest }, ?_, ?_, rfl, ?_, ?_⟩
  · rw [concatTransform_cons A r w T rest hs, Option.some_bind]
    rw [concatTransform_cons B _ w (A * T) rest rfl]
    simp [Matrix.mul_assoc]
  · rw [concatTransform_cons (B * A) r w T rest hs]
  · simp [hs]
  · simp [hs]

theorem concatTransform_compose_witness :
    ∃ r2, (concatTransform (1 + 1) demoRenderer demoStart).bind
        (fun p => concatTransform (1 + 1 + 1) p.1 p.2) = some (r2, demoStart) ∧
      concatTransform ((1 + 1 + 1) * (1 + 1)) demoRenderer demoStart = some (r2, demoStart) ∧
      r2.m_transformStack = ((1 + 1 + 1) * (1 + 1) * 1) :: [] ∧
      r2.m_transformStack.tail = demoRenderer.m_transformStack.tail ∧
      r2.m_transformStack.length = demoRenderer.m_transformStack.length :=
  concatTransform_compose (1 + 1) (1 + 1 + 1) 1 [] demoRenderer demoStart rfl

/-! ## Decimal numbering of the driver nodes -/

theorem digitChar_value (k : Nat) (h : k < 10) : (Nat.digitChar k).toNat - 48 = k := by
  interval_cases k <;> rfl

theorem digitsValue_append (l : List Char) (c : Char) :
    digitsValue (l ++ [c]) = 10 * digitsValue l + (c.toNat - 48) := by
  simp [digitsValue, List.foldl_append]

theorem toDigitsCore_decimal (fuel n : Nat) (ds : List Char) (h : n < fuel) :
    ∃ l, Nat.toDigitsCore 10 fuel n ds = l ++ ds ∧ digitsValue l = n := by
  induction fuel generalizing n ds with
  | zero => omega
  | succ fuel ih =>
    simp only [Nat.toDigitsCore]
    by_cases h0 : n / 10 = 0
    · refine ⟨[Nat.digitChar (n % 10)], by simp [h0], ?_⟩
      have hn : n % 10 = n := Nat.mod_eq_of_lt (by omega)
      have hd := digitChar_value (n % 10) (Nat.mod_lt n (by decide))
      simp only [digitsValue, List.foldl_cons, List.foldl_nil, Nat.mul_zero, Nat.zero_add, hd]
      exact hn
    · obtain ⟨l, hl, hv⟩ := ih (n / 10) (Nat.digitChar (n % 10) :: ds) (by omega)
      refine ⟨l ++ [Nat.digitChar (n % 10)], by simp [h0, hl], ?_⟩
      rw [digitsValue_append, hv, digitChar_value (n % 10) (Nat.mod_lt n (by decide))]
      omega

theorem digitsValue_repr (n : Nat) : digitsValue (Nat.repr n).data = n := by
  obtain ⟨l, hl, hv⟩ := toDigitsCore_decimal (n + 1) n [] (Nat.lt_succ_self n)
  simp [Nat.repr, Nat.toDigits, hl, List.asString, hv]

theorem displayNodeName_injective : Function.Injective displayNodeName := by
  intro a b h
  have h1 := congrArg String.data h
  simp only [displayNodeName, String.data_append, List.append_cancel_left_eq] at h1
  have h2 := congrArg digitsValue h1
  simpa [digitsValue_repr] using h2

/-! ## Output declaration -/

theorem lookup_forwardParams (base : List (String × ParamValue)) (ps : CompoundDataMap)
    (key : String) (h : ps.lookup key = none) :
    (forwardParams base ps).lookup key = base.lookup key := by
  induction ps generalizing base with
  | nil => rfl
  | cons kv rest ih =>
    obtain ⟨k, v⟩ := kv
    have hk : key ≠ k := by
      intro hkk
      subst hkk
      simp [List.lookup] at h
    have hb : (key == k) = false := by simpa using hk
    have hrest : rest.lookup key = none := by simpa [List.lookup, hb] using h
    rw [forwardParams, ih _ hrest, lookup_setParam_ne _ _ _ _ hk]

theorem AiNodeGetName_of_lt (f : AtNode) (w : World) (h : f < w.nodes.length) :
    ∃ s, AiNodeGetName (some f) w = some s := by
  simp only [AiNodeGetName, List.getElem?_eq_getElem h]
  split <;> exact ⟨_, rfl⟩

theorem AiNodeGetName_append (f : AtNode) (w : World) (extra : List Node)
    (h : f < w.nodes.length) :
    AiNodeGetName (some f) { w with nodes := w.nodes ++ extra } = AiNodeGetName (some f) w := by
  simp [AiNodeGetName, List.getElem?_append_left h]

theorem display_created (name type data : String) (parameters : CompoundDataMap)
    (r : RendererImplementation) (w : World) (f : AtNode) (filterName : String)
    (hk : (w.nodeEntries.lookup type).isSome = true) (hf : r.m_defaultFilter = some f)
    (hlt : f < w.nodes.length) (hname : AiNodeGetName (some f) w = some filterName) :
    display name type data parameters r w =
      some ({ r with m_outputDescriptions := r.m_outputDescriptions ++
          [displayData data ++ " " ++ filterName ++ " " ++
            displayNodeName r.m_outputDescriptions.length] },
        { w with nodes := w.nodes ++ [{ entry := type, params :=
            (driverParams w name type r.m_outputDescriptions.length parameters) }] }) := by
  simp only [display, AiNode, hk, realizeNode, if_true]
  rw [AiNodeSet_last "name" _ _ w.nodes { entry := type, params := [] } w.nodes.length rfl rfl]
  simp only [Option.some_bind]
  have hhas : ∀ ps : List (String × ParamValue),
      nodeHasParameter { w with nodes := w.nodes ++ [{ entry := type, params := ps }] }
        w.nodes.length "filename" = entryHasParameter w type "filename" := by
    intro ps
    simp [nodeHasParameter, entryHasParameter]
  rw [hhas]
  cases hfile : entryHasParameter w type "filename"
  · simp only [Bool.false_eq_true, if_false, Option.some_bind]
    rw [setParameters_last parameters _ w.nodes _ w.nodes.length rfl rfl]
    simp only [Option.some_bind, hf]
    rw [AiNodeGetName_append f w _ hlt, hname]
    simp [driverParams, hfile, setParam]
  · simp only [if_true]
    rw [AiNodeSet_last "filename" _ _ w.nodes _ w.nodes.length rfl rfl]
    simp only [Option.some_bind]
    rw [setParameters_last parameters _ w.nodes _ w.nodes.length rfl rfl]
    simp only [Option.some_bind, hf]
    rw [AiNodeGetName_append f w _ hlt, hname]
    simp [driverParams, hfile, setParam]

/-- C5. When Arnold creates the driver node (its type is a known node entry) in a session
whose default filter is a node of the universe, and k output descriptions are accumulated,
display appends exactly one description at the end of the list, equal to
"<sel> <default filter name> ieCoreArnold:display<k>", where <sel> is "RGB RGB" for data
"rgb", "RGBA RGBA" for "rgba" and data itself otherwise; the driver is the new node, named
ieCoreArnold:display<k> unless the forwarded parameters hold a "name" of their own; and
different ordinals give different driver node names. -/
theorem display_appends_description (name type data : String) (parameters : CompoundDataMap)
    (r : RendererImplementation) (w : World) (f : AtNode)
    (hk : (AiNode type w).1.isSome = true) (hf : r.m_defaultFilter = some f)
    (hlt : f < w.nodes.length) :
    ∃ filterName w1,
      AiNodeGetName r.m_defaultFilter w = some filterName ∧
      display name type data parameters r w =
        some ({ r with m_outputDescriptions := r.m_outputDescriptions ++
          [(if data = "rgb" then "RGB RGB" else if data = "rgba" then "RGBA RGBA" else data)
            ++ " " ++ filterName ++ " " ++
            ("ieCoreArnold:display" ++ Nat.repr r.m_outputDescriptions.length)] }, w1) ∧
      (AiNode type w).1 = some w.nodes.length ∧
      (parameters.lookup "name" = none →
        AiNodeGetName (some w.nodes.length) w1 =
          some ("ieCoreArnold:display" ++ Nat.repr r.m_outputDescriptions.length)) ∧
      (∀ i j : Nat, i ≠ j →
        "ieCoreArnold:display" ++ Nat.repr i ≠ "ieCoreArnold:display" ++ Nat.repr j) := by
  have hk2 : (w.nodeEntries.lookup type).isSome = true := by
    cases h : (w.nodeEntries.lookup type).isSome
    · simp [AiNode, h] at hk
    · rfl
  obtain ⟨filterName, hname⟩ := AiNodeGetName_of_lt f w hlt
  refine ⟨filterName, _, by rw [hf, hname],
    display_created name type data parameters r w f filterName hk2 hf hlt hname, ?_, ?_, ?_⟩
  · simp [AiNode, hk2, realizeNode]
  · intro hnone
    have hl : (driverParams w name type r.m_outputDescriptions.length parameters).lookup "name"
        = some (ParamValue.Str (displayNodeName r.m_outputDescriptions.length)) := by
      rw [driverParams, lookup_forwardParams _ _ _ hnone]
      split
      · rw [lookup_setParam_ne _ _ _ _ (by decide)]
        rfl
      · rfl
    simp [AiNodeGetName, hl, displayNodeName]
  · intro i j hij h
    exact hij (displayNodeName_injective h)

theorem display_appends_description_witness :
    ∃ filterName w1,
      AiNodeGetName demoRenderer.m_defaultFilter demoStart = some filterName ∧
      display "beauty.exr" "driver_exr" "rgb" [] demoRenderer demoStart =
        some ({ demoRenderer with m_outputDescriptions := demoRenderer.m_outputDescriptions ++
          [(if "rgb" = "rgb" then "RGB RGB" else if "rgb" = "rgba" then "RGBA RGBA" else "rgb")
            ++ " " ++ filterName ++ " " ++
            ("ieCoreArnold:display" ++ Nat.repr demoRenderer.m_outputDescriptions.length)] },
          w1) ∧
      (AiNode "driver_exr" demoStart).1 = some demoStart.nodes.length ∧
      ((([] : CompoundDataMap).lookup "name") = none →
        AiNodeGetName (some demoStart.nodes.length) w1 =
          some ("ieCoreArnold:display" ++ Nat.repr demoRenderer.m_outputDescriptions.length)) ∧
      (∀ i j : Nat, i ≠ j →
        "ieCoreArnold:display" ++ Nat.repr i ≠ "ieCoreArnold:display" ++ Nat.repr j) :=
  display_appends_description "beauty.exr" "driver_exr" "rgb" [] demoRenderer demoStart 0
    (by simp [AiNode, demoStart, demoWorld]) rfl (by simp [demoStart])

/-! ## Camera and world begin -/

theorem camera_cons (name : String) (parameters : CompoundDataMap)
    (r : RendererImplementation) (w : World) (t : M44f) (ts : List M44f)
    (hs : r.m_transformStack = t :: ts) :
    camera name parameters r w = some (r, cameraWorld name parameters t w) := by
  simp only [camera, ToArnoldCameraConverter.convert, realizeNode, applyTransformToNode, hs]
  rw [AiNodeSet_last "matrix" _ _ w.nodes
    { entry := "persp_camera", params := [] } w.nodes.length
    (by simp [optionsSet]) rfl]
  simp only [Option.some_bind, optionsSet, cameraWorld]
  rfl

theorem popToGuard_cons (t : M44f) (ts : List M44f) : ∃ x, popToGuard (t :: ts) = [x] := by
  induction ts generalizing t with
  | nil => exact ⟨t, rfl⟩
  | cons b rest ih =>
    obtain ⟨x, hx⟩ := ih b
    exact ⟨x, by rw [popToGuard, hx]⟩

theorem worldBegin_closed (r : RendererImplementation) (w : World) (t : M44f)
    (hs : r.m_transformStack = [t]) :
    worldBegin r w = some (r, finishedWorld r t w) := by
  simp only [worldBegin, hs, List.length_singleton, gt_iff_lt, lt_self_iff_false, if_false,
    Option.some_bind]
  cases hc : (optionsGetPtr "camera" w).isNone
  · simp [finishedWorld, hc]
  · simp only [if_true]
    rw [camera_cons _ _ r w t [] hs]
    simp [finishedWorld, hc]

theorem worldBegin_open (r : RendererImplementation) (w : World) (t t2 : M44f)
    (ts : List M44f) (hs : r.m_transformStack = t :: t2 :: ts) :
    worldBegin r w = some ({ r with m_transformStack := [(1 : M44f)] },
      finishedWorld r 1 (msg Level.Warning "IECoreArnold::RendererImplementation::worldBegin"
        "Missing transformEnd() call detected." w)) := by
  obtain ⟨x, hx⟩ := popToGuard_cons t (t2 :: ts)
  have hlen : (t :: t2 :: ts).length > 1 := by simp
  simp only [worldBegin, hs, hlen, if_true, hx, Option.some_bind]
  cases hc : (optionsGetPtr "camera"
      (msg Level.Warning "IECoreArnold::RendererImplementation::worldBegin"
        "Missing transformEnd() call detected." w)).isNone
  · simp [finishedWorld, hc]
  · simp only [if_true]
    rw [camera_cons _ _ _ _ 1 [] rfl]
    simp [finishedWorld, hc]

theorem setOutputs_cons (d : String) (rest : List String) (x : Option String)
    (tail : List (Option String)) :
    setOutputs (d :: rest) (x :: tail) = some ((d :: rest).getLast (by simp)) :: tail := by
  induction rest generalizing d x with
  | nil => simp [setOutputs, AiArraySetStr]
  | cons e rest ih =>
    rw [setOutputs]
    simp only [AiArraySetStr, List.set_cons_zero]
    rw [ih e (some d)]
    simp

theorem outputs_finishedWorld (r : RendererImplementation) (t : M44f) (w : World) :
    optionsGetStrArray "outputs" (finishedWorld r t w) =
      some (setOutputs r.m_outputDescriptions
        (AiArrayAllocate r.m_outputDescriptions.length)) := by
  simp [optionsGetStrArray, finishedWorld, optionsSet, lookup_setParam_self]

/-- C6, the code at the failing input: after two successful display calls on the freshly
constructed session the descriptions are those of display0 and display1, in that order,
and worldBegin sets "outputs" to an array of length two whose element 0 is the second
description and whose element 1 was never set; the first description is in no element. -/
theorem worldBegin_sets_outputs_at_index_zero :
    ∃ r2 w2 r3 w3,
      run (fun b _ => b)
        [Cmd.display "beauty.exr" "driver_exr" "rgb" [],
         Cmd.display "alpha.exr" "driver_exr" "rgba" []] demoRenderer demoStart
        = some (r2, w2) ∧
      r2.m_outputDescriptions =
        ["RGB RGB ieCoreArnold:defaultFilter ieCoreArnold:display0",
         "RGBA RGBA ieCoreArnold:defaultFilter ieCoreArnold:display1"] ∧
      worldBegin r2 w2 = some (r3, w3) ∧
      optionsGetStrArray "outputs" w3 =
        some [some "RGBA RGBA ieCoreArnold:defaultFilter ieCoreArnold:display1", none] := by
  exact ⟨_, _, _, _, rfl, rfl, rfl, rfl⟩

theorem msgs_finishedWorld (r : RendererImplementation) (t : M44f) (w : World) :
    (finishedWorld r t w).msgs = w.msgs := by
  simp only [finishedWorld, optionsSet]
  split <;> rfl

/-- C9. In a session whose transform stack is non-empty, worldBegin succeeds and leaves a
transform stack of exactly one frame. If the stack held more than one frame, the frame
left is the identity and the warning "Missing transformEnd() call detected." is added to
the log; if it held exactly one frame, the stack is unchanged and nothing is logged. -/
theorem worldBegin_scope_recovery (r : RendererImplementation) (w : World)
    (h : r.m_transformStack ≠ []) :
    ∃ r1 w1, worldBegin r w = some (r1, w1) ∧
      r1.m_transformStack.length = 1 ∧
      (1 < r.m_transformStack.length →
        r1.m_transformStack = [(1 : M44f)] ∧
        w1.msgs = w.msgs ++
          [{ level := Level.Warning,
             context := "IECoreArnold::RendererImplementation::worldBegin",
             text := "Missing transformEnd() call detected." }]) ∧
      (r.m_transformStack.length = 1 →
        r1.m_transformStack = r.m_transformStack ∧ w1.msgs = w.msgs) := by
  obtain ⟨t, ts, hs⟩ := List.exists_cons_of_ne_nil h
  cases ts with
  | nil =>
    refine ⟨_, _, worldBegin_closed r w t hs, by simp [hs], ?_, ?_⟩
    · intro hlt
      simp [hs] at hlt
    · intro _
      exact ⟨rfl, msgs_finishedWorld r t w⟩
  | cons t2 ts =>
    refine ⟨_, _, worldBegin_open r w t t2 ts hs, rfl, ?_, ?_⟩
    · intro _
      exact ⟨rfl, by rw [msgs_finishedWorld]; rfl⟩
    · intro hone
      simp [hs] at hone

theorem worldBegin_scope_recovery_witness :
    ∃ r1 w1, worldBegin { demoRenderer with m_transformStack := [0, 1 + 1, 1] } demoStart
        = some (r1, w1) ∧
      r1.m_transformStack.length = 1 ∧
      (1 < ({ demoRenderer with m_transformStack := [0, 1 + 1, 1] } :
          RendererImplementation).m_transformStack.length →
        r1.m_transformStack = [(1 : M44f)] ∧
        w1.msgs = demoStart.msgs ++
          [{ level := Level.Warning,
             context := "IECoreArnold::RendererImplementation::worldBegin",
             text := "Missing transformEnd() call detected." }]) ∧
      (({ demoRenderer with m_transformStack := [0, 1 + 1, 1] } :
          RendererImplementation).m_transformStack.length = 1 →
        r1.m_transformStack =
          ({ demoRenderer with m_transformStack := [0, 1 + 1, 1] } :
            RendererImplementation).m_transformStack ∧ w1.msgs = demoStart.msgs) :=
  worldBegin_scope_recovery { demoRenderer with m_transformStack := [0, 1 + 1, 1] } demoStart
    (by simp)

theorem options_cameraWorld (name : String) (parameters : CompoundDataMap) (t : M44f)
    (w : World) :
    optionsGetPtr "camera" (cameraWorld name parameters t w) = some w.nodes.length ∧
    optionsGetInt "xres" (cameraWorld name parameters t w) =
      some (match parameters.memberV2i "resolution" with | some v => v.1 | none => 640) ∧
    optionsGetInt "yres" (cameraWorld name parameters t w) =
      some (match parameters.memberV2i "resolution" with | some v => v.2 | none => 480) := by
  refine ⟨?_, ?_, ?_⟩
  · simp only [optionsGetPtr, cameraWorld]
    rw [lookup_setParam_ne _ _ _ _ (by decide), lookup_setParam_ne _ _ _ _ (by decide),
      lookup_setParam_self]
  · simp only [optionsGetInt, cameraWorld]
    rw [lookup_setParam_ne _ _ _ _ (by decide), lookup_setParam_self]
  · simp only [optionsGetInt, cameraWorld]
    rw [lookup_setParam_self]

theorem options_finishedWorld (r : RendererImplementation) (t : M44f) (w : World)
    (key : String) (hkey : key ≠ "outputs") :
    (finishedWorld r t w).options.params.lookup key =
      (if (optionsGetPtr "camera" w).isNone then
        cameraWorld "ieCoreArnold:defaultCamera" [] t w
      else w).options.params.lookup key := by
  simp only [finishedWorld, optionsSet]
  rw [lookup_setParam_ne _ _ _ _ hkey]

theorem finishedWorld_default_camera (r : RendererImplementation) (t : M44f) (w : World)
    (hc : optionsGetPtr "camera" w = none) :
    optionsGetPtr "camera" (finishedWorld r t w) = some w.nodes.length ∧
    optionsGetInt "xres" (finishedWorld r t w) = some 640 ∧
    optionsGetInt "yres" (finishedWorld r t w) = some 480 := by
  have hx := options_finishedWorld r t w "xres" (by decide)
  have hy := options_finishedWorld r t w "yres" (by decide)
  have hp := options_finishedWorld r t w "camera" (by decide)
  simp only [hc, Option.isNone_none, if_true] at hx hy hp
  obtain ⟨h1, h2, h3⟩ := options_cameraWorld "ieCoreArnold:defaultCamera" [] t w
  refine ⟨?_, ?_, ?_⟩
  · rw [← h1]
    simp only [optionsGetPtr, hp]
  · rw [show (some 640 : Option Int) = some (match CompoundDataMap.memberV2i []
      "resolution" with | some v => v.1 | none => 640) from rfl, ← h2]
    simp only [optionsGetInt, hx]
  · rw [show (some 480 : Option Int) = some (match CompoundDataMap.memberV2i []
      "resolution" with | some v => v.2 | none => 480) from rfl, ← h3]
    simp only [optionsGetInt, hy]

theorem finishedWorld_keeps_camera (r : RendererImplementation) (t : M44f) (w : World)
    (c : AtNode) (hc : optionsGetPtr "camera" w = some c) :
    optionsGetInt "xres" (finishedWorld r t w) = optionsGetInt "xres" w ∧
    optionsGetInt "yres" (finishedWorld r t w) = optionsGetInt "yres" w := by
  have hx := options_finishedWorld r t w "xres" (by decide)
  have hy := options_finishedWorld r t w "yres" (by decide)
  simp only [hc, Option.isNone_some, Bool.false_eq_true, if_false] at hx hy
  exact ⟨by simp only [optionsGetInt, hx], by simp only [optionsGetInt, hy]⟩

/-- C10. In a session whose transform stack is non-empty: (1) camera succeeds, the new
"persp_camera" node becomes the "camera" of the options node, and "xres", "yres" are set
to the (x, y) of the V2iData entry "resolution" of the parameters, or to (640, 480) when
the parameters have no "resolution"; (2) worldBegin with no camera set on the options
declares one and records (640, 480); (3) worldBegin after a camera call with resolution
(x, y), such as (800, 600), leaves (x, y) recorded. -/
theorem camera_resolution (name : String) (parameters : CompoundDataMap)
    (r : RendererImplementation) (w : World) (h : r.m_transformStack ≠ []) :
    (∃ w1, camera name parameters r w = some (r, w1) ∧
      optionsGetPtr "camera" w1 = some w.nodes.length ∧
      (w1.nodes[w.nodes.length]?).map Node.entry = some "persp_camera" ∧
      (∀ x y : Int, parameters.lookup "resolution" = some (Data.V2iData x y) →
        optionsGetInt "xres" w1 = some x ∧ optionsGetInt "yres" w1 = some y) ∧
      (parameters.lookup "resolution" = none →
        optionsGetInt "xres" w1 = some 640 ∧ optionsGetInt "yres" w1 = some 480)) ∧
    (optionsGetPtr "camera" w = none →
      ∃ r1 w1, worldBegin r w = some (r1, w1) ∧
        (optionsGetPtr "camera" w1).isSome = true ∧
        optionsGetInt "xres" w1 = some 640 ∧ optionsGetInt "yres" w1 = some 480) ∧
    (∀ x y : Int, parameters.lookup "resolution" = some (Data.V2iData x y) →
      ∃ w1 r2 w2, camera name parameters r w = some (r, w1) ∧
        worldBegin r w1 = some (r2, w2) ∧
        optionsGetInt "xres" w2 = some x ∧ optionsGetInt "yres" w2 = some y) := by
  obtain ⟨t, ts, hs⟩ := List.exists_cons_of_ne_nil h
  have hcam := camera_cons name parameters r w t ts hs
  obtain ⟨hp, hx, hy⟩ := options_cameraWorld name parameters t w
  have hres : ∀ x y : Int, parameters.lookup "resolution" = some (Data.V2iData x y) →
      optionsGetInt "xres" (cameraWorld name parameters t w) = some x ∧
      optionsGetInt "yres" (cameraWorld name parameters t w) = some y := by
    intro x y hxy
    rw [hx, hy]
    simp [CompoundDataMap.memberV2i, hxy]
  refine ⟨⟨_, hcam, hp, by simp [cameraWorld], hres, ?_⟩, ?_, ?_⟩
  · intro hnone
    rw [hx, hy]
    simp [CompoundDataMap.memberV2i, hnone]
  · intro hc
    cases ts with
    | nil =>
      obtain ⟨h1, h2, h3⟩ := finishedWorld_default_camera r t w hc
      exact ⟨_, _, worldBegin_closed r w t hs, by rw [h1]; rfl, h2, h3⟩
    | cons t2 ts =>
      obtain ⟨h1, h2, h3⟩ := finishedWorld_default_camera r 1
        (msg Level.Warning "IECoreArnold::RendererImplementation::worldBegin"
          "Missing transformEnd() call detected." w) hc
      exact ⟨_, _, worldBegin_open r w t t2 ts hs, by rw [h1]; rfl, h2, h3⟩
  · intro x y hxy
    obtain ⟨hx1, hy1⟩ := hres x y hxy
    cases ts with
    | nil =>
      obtain ⟨h2, h3⟩ := finishedWorld_keeps_camera r t _ _ hp
      exact ⟨_, _, _, hcam, worldBegin_closed r _ t hs, by rw [h2, hx1], by rw [h3, hy1]⟩
    | cons t2 ts =>
      obtain ⟨h2, h3⟩ := finishedWorld_keeps_camera r 1
        (msg Level.Warning "IECoreArnold::RendererImplementation::worldBegin"
          "Missing transformEnd() call detected." (cameraWorld name parameters t w)) _ hp
      refine ⟨_, _, _, hcam, worldBegin_open r _ t t2 ts hs, ?_, ?_⟩
      · rw [h2]
        exact hx1
      · rw [h3]
        exact hy1

theorem camera_resolution_witness :
    (∃ w1, camera "shot" [("resolution", Data.V2iData 800 600)] demoRenderer demoStart
        = some (demoRenderer, w1) ∧
      optionsGetPtr "camera" w1 = some demoStart.nodes.length ∧
      (w1.nodes[demoStart.nodes.length]?).map Node.entry = some "persp_camera" ∧
      (∀ x y : Int, List.lookup "resolution" [("resolution", Data.V2iData 800 600)]
          = some (Data.V2iData x y) →
        optionsGetInt "xres" w1 = some x ∧ optionsGetInt "yres" w1 = some y) ∧
      (List.lookup "resolution" [("resolution", Data.V2iData 800 600)] = none →
        optionsGetInt "xres" w1 = some 640 ∧ optionsGetInt "yres" w1 = some 480)) ∧
    (optionsGetPtr "camera" demoStart = none →
      ∃ r1 w1, worldBegin demoRenderer demoStart = some (r1, w1) ∧
        (optionsGetPtr "camera" w1).isSome = true ∧
        optionsGetInt "xres" w1 = some 640 ∧ optionsGetInt "yres" w1 = some 480) ∧
    (∀ x y : Int, List.lookup "resolution" [("resolution", Data.V2iData 800 600)]
        = some (Data.V2iData x y) →
      ∃ w1 r2 w2, camera "shot" [("resolution", Data.V2iData 800 600)] demoRenderer demoStart
          = some (demoRenderer, w1) ∧
        worldBegin demoRenderer w1 = some (r2, w2) ∧
        optionsGetInt "xres" w2 = some x ∧ optionsGetInt "yres" w2 = some y) :=
  camera_resolution "shot" [("resolution", Data.V2iData 800 600)] demoRenderer demoStart
    (by simp [demoRenderer])

/-! ## Shape emission -/

theorem AiNodeSet_of_lt (n : AtNode) (name : String) (v : ParamValue) (w : World)
    (h : n < w.nodes.length) :
    ∃ w1, AiNodeSet (some n) name v w = some w1 ∧
      nodeParam n name w1 = some v ∧
      (∀ other, other ≠ name → nodeParam n other w1 = nodeParam n other w) ∧
      (∀ m, m ≠ n → w1.nodes[m]? = w.nodes[m]?) ∧
      w1.nodes.length = w.nodes.length ∧
      w1.nodeEntries = w.nodeEntries ∧ w1.options = w.options ∧
      w1.procData = w.procData ∧ w1.msgs = w.msgs ∧ w1.actions = w.actions := by
  refine ⟨{ w with nodes := (w.nodes.set n
      { entry := w.nodes[n].entry, params := setParam w.nodes[n].params name v }) },
    by simp only [AiNodeSet, List.getElem?_eq_getElem h], ?_, ?_, ?_, ?_,
    rfl, rfl, rfl, rfl, rfl⟩
  · simp [nodeParam, List.getElem?_set, h, lookup_setParam_self]
  · intro other ho
    simp [nodeParam, List.getElem?_set, h, lookup_setParam_ne _ _ _ _ ho]
  · intro m hm
    simp [List.getElem?_set, Ne.symm hm]
  · simp

theorem addShape_of_lt (n : AtNode) (r : RendererImplementation) (w : World) (t : M44f)
    (ts : List M44f) (a : AttributeState) (as : List AttributeState)
    (hn : n < w.nodes.length) (ht : r.m_transformStack = t :: ts)
    (ha : r.m_attributeStack = a :: as) :
    ∃ w1, addShape (some n) r w = some ({ r with m_shapes := r.m_shapes ++ [n] }, w1) ∧
      nodeParam n "matrix" w1 = some (ParamValue.Matrix t) ∧
      nodeParam n "shader" w1 = some (ParamValue.Ptr a.surfaceShader) ∧
      (∀ m, m ≠ n → w1.nodes[m]? = w.nodes[m]?) ∧
      w1.nodes.length = w.nodes.length ∧
      w1.nodeEntries = w.nodeEntries ∧ w1.options = w.options ∧
      w1.procData = w.procData ∧ w1.msgs = w.msgs ∧ w1.actions = w.actions := by
  obtain ⟨w1, h1, hp1, _, hm1, hl1, e1, o1, p1, g1, c1⟩ :=
    AiNodeSet_of_lt n "matrix" (ParamValue.Matrix (Matrix.of (fun i j => t i j))) w hn
  obtain ⟨w2, h2, hp2, ho2, hm2, hl2, e2, o2, p2, g2, c2⟩ :=
    AiNodeSet_of_lt n "shader" (ParamValue.Ptr a.surfaceShader) w1 (by rw [hl1]; exact hn)
  refine ⟨w2, ?_, ?_, hp2, ?_, by rw [hl2, hl1], by rw [e2, e1], by rw [o2, o1],
    by rw [p2, p1], by rw [g2, g1], by rw [c2, c1]⟩
  · simp only [addShape, applyTransformToNode, ht, h1, Option.some_bind, ha, h2]
  · rw [ho2 "matrix" (by decide), hp1]
    rfl
  · intro m hm
    rw [hm2 m hm, hm1 m hm]

theorem mesh_cons (vertsPerFace vertIds : List Int) (interpolation : String)
    (primVars : CompoundDataMap) (r : RendererImplementation) (w : World) (t : M44f)
    (ts : List M44f) (a : AttributeState) (as : List AttributeState)
    (ht : r.m_transformStack = t :: ts) (ha : r.m_attributeStack = a :: as) :
    mesh vertsPerFace vertIds interpolation primVars r w =
      some ({ r with m_shapes := r.m_shapes ++ [w.nodes.length] },
        { w with nodes := w.nodes ++ [meshNode vertsPerFace vertIds t a.surfaceShader] }) := by
  simp only [mesh, ToArnoldMeshConverter.convert, realizeNode, addShape, applyTransformToNode,
    ht, ha]
  rw [AiNodeSet_last "matrix" _ _ w.nodes
    { entry := "polymesh", params := [("nsides", ParamValue.IntArray vertsPerFace),
      ("vidxs", ParamValue.IntArray vertIds)] } w.nodes.length rfl rfl]
  simp only [Option.some_bind]
  rw [AiNodeSet_last "shader" _ _ w.nodes _ w.nodes.length rfl rfl]
  simp only [Option.some_bind, meshNode]
  rfl

theorem meshNode_params (vertsPerFace vertIds : List Int) (t : M44f) (s : Option AtNode) :
    (meshNode vertsPerFace vertIds t s).params.lookup "shader" = some (ParamValue.Ptr s) ∧
    (meshNode vertsPerFace vertIds t s).params.lookup "matrix" = some (ParamValue.Matrix t) ∧
    (meshNode vertsPerFace vertIds t s).params.lookup "nsides" =
      some (ParamValue.IntArray vertsPerFace) := by
  refine ⟨?_, ?_, ?_⟩
  · simp only [meshNode]
    rw [lookup_setParam_self]
  · simp only [meshNode]
    rw [lookup_setParam_ne _ _ _ _ (by decide), lookup_setParam_self]
  · simp only [meshNode]
    rw [lookup_setParam_ne _ _ _ _ (by decide), lookup_setParam_ne _ _ _ _ (by decide)]
    rfl

theorem nodeParam_appended (w : World) (extra : List Node) (k : Nat) (name : String) :
    nodeParam (w.nodes.length + k) name { w with nodes := w.nodes ++ extra } =
      (extra[k]?).bind (fun nd => nd.params.lookup name) := by
  simp [nodeParam, List.getElem?_append_right]

/-- C8. With t at the top of the transform stack and a at the top of the attribute stack:
(1) addShape of a node of the universe appends it at the end of `m_shapes`, sets its
"matrix" to t and its "shader" to the surface shader of a, and changes nothing else of the
renderer, so both stacks are unchanged; (2) attributeBegin; shader( "surface", s ) with s
created by Arnold; mesh m1; attributeEnd; mesh m2 leaves the two mesh nodes, m1 before m2,
at the end of `m_shapes`, m1 with the new shader node as "shader" and m2 with the surface
shader of a, both with "matrix" t, and both stacks as before attributeBegin. -/
theorem addShape_stamps_transform_and_shader (boxTransform : Box3f → M44f → Box3f)
    (r : RendererImplementation) (w : World) (t : M44f) (ts : List M44f)
    (a : AttributeState) (as : List AttributeState)
    (ht : r.m_transformStack = t :: ts) (ha : r.m_attributeStack = a :: as)
    (s : String) (sparams : CompoundDataMap) (hs : (AiNode s w).1.isSome = true)
    (v1 i1 v2 i2 : List Int) (interp1 interp2 : String) (pv1 pv2 : CompoundDataMap) :
    (∀ n, n < w.nodes.length →
      ∃ w1, addShape (some n) r w = some ({ r with m_shapes := r.m_shapes ++ [n] }, w1) ∧
        nodeParam n "matrix" w1 = some (ParamValue.Matrix t) ∧
        nodeParam n "shader" w1 = some (ParamValue.Ptr a.surfaceShader)) ∧
    (∃ r5 w5,
      run boxTransform
        [Cmd.attributeBegin, Cmd.shader "surface" s sparams, Cmd.mesh v1 i1 interp1 pv1,
         Cmd.attributeEnd, Cmd.mesh v2 i2 interp2 pv2] r w = some (r5, w5) ∧
      (AiNode s w).1 = some w.nodes.length ∧
      r5.m_shapes = r.m_shapes ++ [w.nodes.length + 1, w.nodes.length + 2] ∧
      nodeParam (w.nodes.length + 1) "nsides" w5 = some (ParamValue.IntArray v1) ∧
      nodeParam (w.nodes.length + 2) "nsides" w5 = some (ParamValue.IntArray v2) ∧
      nodeParam (w.nodes.length + 1) "shader" w5 = some (ParamValue.Ptr (some w.nodes.length)) ∧
      nodeParam (w.nodes.length + 2) "shader" w5 = some (ParamValue.Ptr a.surfaceShader) ∧
      nodeParam (w.nodes.length + 1) "matrix" w5 = some (ParamValue.Matrix t) ∧
      nodeParam (w.nodes.length + 2) "matrix" w5 = some (ParamValue.Matrix t) ∧
      r5.m_transformStack = r.m_transformStack ∧
      r5.m_attributeStack = r.m_attributeStack) := by
  have hk : (w.nodeEntries.lookup s).isSome = true := by
    cases h : (w.nodeEntries.lookup s).isSome
    · simp [AiNode, h] at hs
    · rfl
  refine ⟨?_, ?_⟩
  · intro n hn
    obtain ⟨w1, h1, hm, hsh, _⟩ := addShape_of_lt n r w t ts a as hn ht ha
    exact ⟨w1, h1, hm, hsh⟩
  · have h1 := attributeBegin_cons r w t ts a as ht ha
    have h2 := shader_surface_created s sparams
      { r with m_transformStack := t :: t :: ts, m_attributeStack := a :: a :: as } w a
      (a :: as) rfl hk
    have h3 := mesh_cons v1 i1 interp1 pv1
      { r with m_transformStack := t :: t :: ts
               m_attributeStack := { a with surfaceShader := some w.nodes.length } :: a :: as }
      { w with nodes := w.nodes ++ [{ entry := s, params := forwardParams [] sparams }] }
      t (t :: ts) { a with surfaceShader := some w.nodes.length } (a :: as) rfl rfl
    have h4 : attributeEnd
        { r with m_transformStack := t :: t :: ts
                 m_attributeStack := { a with surfaceShader := some w.nodes.length } :: a :: as
                 m_shapes := r.m_shapes ++ [w.nodes.length + 1] }
        { w with nodes := w.nodes ++ [{ entry := s, params := forwardParams [] sparams }] ++
          [meshNode v1 i1 t (some w.nodes.length)] } =
        some ({ r with m_transformStack := t :: ts, m_attributeStack := a :: as
                       m_shapes := r.m_shapes ++ [w.nodes.length + 1] },
          { w with nodes := w.nodes ++ [{ entry := s, params := forwardParams [] sparams }] ++
            [meshNode v1 i1 t (some w.nodes.length)] }) := by
      rw [attributeEnd_cons _ _ { a with surfaceShader := some w.nodes.length } (a :: as) rfl]
      exact transformEnd_cons_cons _ _ t t ts rfl
    have h5 := mesh_cons v2 i2 interp2 pv2
      { r with m_transformStack := t :: ts, m_attributeStack := a :: as
               m_shapes := r.m_shapes ++ [w.nodes.length + 1] }
      { w with nodes := w.nodes ++ [{ entry := s, params := forwardParams [] sparams }] ++
          [meshNode v1 i1 t (some w.nodes.length)] }
      t ts a as rfl rfl
    simp only [List.length_append, List.length_singleton, List.append_assoc,
      List.singleton_append] at h3 h4 h5
    obtain ⟨p1, p2, p3⟩ := meshNode_params v1 i1 t (some w.nodes.length)
    obtain ⟨q1, q2, q3⟩ := meshNode_params v2 i2 t a.surfaceShader
    refine ⟨{ r with m_transformStack := t :: ts, m_attributeStack := a :: as
                     m_shapes := r.m_shapes ++ [w.nodes.length + 1] ++ [w.nodes.length + 1 + 1] },
      { w with nodes := w.nodes ++ [{ entry := s, params := forwardParams [] sparams },
          meshNode v1 i1 t (some w.nodes.length), meshNode v2 i2 t a.surfaceShader] },
      ?_, ?_, ?_, ?_, ?_, ?_, ?_, ?_, ?_, ?_, ?_⟩
    · simp only [run, step, h1, h2, h3, h4, h5, Option.some_bind, List.append_assoc,
        List.singleton_append]
      rfl
    · simp [AiNode, hk, realizeNode]
    · simp
    · rw [nodeParam_appended]
      exact p3
    · rw [nodeParam_appended]
      exact q3
    · rw [nodeParam_appended]
      exact p1
    · rw [nodeParam_appended]
      exact q1
    · rw [nodeParam_appended]
      exact p2
    · rw [nodeParam_appended]
      exact q2
    · simp [ht]
    · simp [ha]

theorem addShape_stamps_transform_and_shader_witness :
    (∀ n, n < demoStart.nodes.length →
      ∃ w1, addShape (some n) demoRenderer demoStart =
          some ({ demoRenderer with m_shapes := demoRenderer.m_shapes ++ [n] }, w1) ∧
        nodeParam n "matrix" w1 = some (ParamValue.Matrix 1) ∧
        nodeParam n "shader" w1 = some (ParamValue.Ptr (some 1))) ∧
    (∃ r5 w5,
      run (fun b _ => b)
        [Cmd.attributeBegin, Cmd.shader "surface" "standard" [("Kd", Data.FloatData 1)],
         Cmd.mesh [3] [0, 1, 2] "linear" [], Cmd.attributeEnd,
         Cmd.mesh [4] [0, 1, 2, 3] "linear" []] demoRenderer demoStart = some (r5, w5) ∧
      (AiNode "standard" demoStart).1 = some demoStart.nodes.length ∧
      r5.m_shapes = demoRenderer.m_shapes ++
        [demoStart.nodes.length + 1, demoStart.nodes.length + 2] ∧
      nodeParam (demoStart.nodes.length + 1) "nsides" w5 = some (ParamValue.IntArray [3]) ∧
      nodeParam (demoStart.nodes.length + 2) "nsides" w5 = some (ParamValue.IntArray [4]) ∧
      nodeParam (demoStart.nodes.length + 1) "shader" w5 =
        some (ParamValue.Ptr (some demoStart.nodes.length)) ∧
      nodeParam (demoStart.nodes.length + 2) "shader" w5 = some (ParamValue.Ptr (some 1)) ∧
      nodeParam (demoStart.nodes.length + 1) "matrix" w5 = some (ParamValue.Matrix 1) ∧
      nodeParam (demoStart.nodes.length + 2) "matrix" w5 = some (ParamValue.Matrix 1) ∧
      r5.m_transformStack = demoRenderer.m_transformStack ∧
      r5.m_attributeStack = demoRenderer.m_attributeStack) :=
  addShape_stamps_transform_and_shader (fun b _ => b) demoRenderer demoStart 1 []
    { surfaceShader := some 1, attributes := [] } [] rfl rfl "standard"
    [("Kd", Data.FloatData 1)] (by simp [AiNode, demoStart, demoWorld])
    [3] [0, 1, 2] [4] [0, 1, 2, 3] "linear" "linear" [] []

/-! ## What a call leaves of the world -/

theorem Frame.refl (w : World) : Frame w w :=
  ⟨List.prefix_refl _, List.prefix_refl _, rfl⟩

theorem Frame.trans {w0 w1 w2 : World} (h1 : Frame w0 w1) (h2 : Frame w1 w2) : Frame w0 w2 :=
  ⟨h1.nodes.trans h2.nodes, h1.procData.trans h2.procData, by rw [h2.entries, h1.entries]⟩

theorem Frame.of_eq {w0 w w1 : World} (h : Frame w0 w) (hn : w1.nodes = w.nodes)
    (hp : w1.procData = w.procData) (he : w1.nodeEntries = w.nodeEntries) : Frame w0 w1 :=
  ⟨by rw [hn]; exact h.nodes, by rw [hp]; exact h.procData, by rw [he, h.entries]⟩

theorem Frame.length_le {w0 w : World} (h : Frame w0 w) : w0.nodes.length ≤ w.nodes.length :=
  h.nodes.length_le

theorem Frame.msg {w0 w : World} (h : Frame w0 w) (l : Level) (c t : String) :
    Frame w0 (msg l c t w) :=
  h.of_eq rfl rfl rfl

theorem Frame.optionsSet {w0 w : World} (h : Frame w0 w) (name : String) (v : ParamValue) :
    Frame w0 (optionsSet name v w) :=
  h.of_eq rfl rfl rfl

theorem Frame.realizeNode {w0 w : World} (h : Frame w0 w) (entry : String)
    (ps : List (String × ParamValue)) : Frame w0 (realizeNode entry ps w).2 :=
  ⟨h.nodes.trans (List.prefix_append _ _), h.procData, h.entries⟩

theorem prefix_set_of_le {α : Type} (base l : List α) (n : Nat) (x : α) (h : base <+: l)
    (hn : base.length ≤ n) : base <+: l.set n x := by
  obtain ⟨t, rfl⟩ := h
  rw [List.set_append_right _ _ hn]
  exact List.prefix_append _ _

theorem Frame.AiNodeSet {w0 w w1 : World} (h : Frame w0 w) (n : AtNode) (name : String)
    (v : ParamValue) (hn : w0.nodes.length ≤ n) (hs : AiNodeSet (some n) name v w = some w1) :
    Frame w0 w1 ∧ w1.nodes.length = w.nodes.length := by
  simp only [IECoreArnold.AiNodeSet] at hs
  cases hnd : w.nodes[n]? with
  | none => simp [hnd] at hs
  | some nd =>
    simp only [hnd, Option.some.injEq] at hs
    subst hs
    exact ⟨⟨prefix_set_of_le _ _ _ _ h.nodes hn, h.procData, h.entries⟩, by simp⟩

theorem Frame.setParameters {w0 w w1 : World} (h : Frame w0 w) (n : AtNode)
    (ps : CompoundDataMap) (hn : w0.nodes.length ≤ n)
    (hs : ToArnoldConverter.setParameters (some n) ps w = some w1) :
    Frame w0 w1 ∧ w1.nodes.length = w.nodes.length := by
  induction ps generalizing w with
  | nil =>
    simp only [ToArnoldConverter.setParameters, Option.some.injEq] at hs
    subst hs
    exact ⟨h, rfl⟩
  | cons kv rest ih =>
    obtain ⟨k, v⟩ := kv
    simp only [ToArnoldConverter.setParameters, ToArnoldConverter.setParameter] at hs
    cases h1 : IECoreArnold.AiNodeSet (some n) k (ParamValue.Converted v) w with
    | none => simp [h1] at hs
    | some w2 =>
      simp only [h1, Option.some_bind] at hs
      obtain ⟨f2, l2⟩ := h.AiNodeSet n k _ hn h1
      obtain ⟨f3, l3⟩ := ih f2 hs
      exact ⟨f3, by rw [l3, l2]⟩

theorem Frame.addShape {w0 w w1 : World} (h : Frame w0 w) (shape : Option AtNode)
    (r r1 : RendererImplementation) (hn : ∀ n, shape = some n → w0.nodes.length ≤ n)
    (hs : addShape shape r w = some (r1, w1)) :
    Frame w0 w1 ∧ ∃ n, shape = some n ∧ r1 = { r with m_shapes := r.m_shapes ++ [n] } := by
  cases shape with
  | none =>
    simp only [IECoreArnold.RendererImplementation.addShape, applyTransformToNode] at hs
    cases hst : r.m_transformStack <;> simp [hst, IECoreArnold.AiNodeSet] at hs
  | some n =>
    simp only [IECoreArnold.RendererImplementation.addShape, applyTransformToNode] at hs
    cases hst : r.m_transformStack with
    | nil => simp [hst] at hs
    | cons t ts =>
      simp only [hst] at hs
      cases h1 : IECoreArnold.AiNodeSet (some n) "matrix"
          (ParamValue.Matrix (Matrix.of fun i j => t i j)) w with
      | none => simp [h1] at hs
      | some w2 =>
        simp only [h1, Option.some_bind] at hs
        cases hat : r.m_attributeStack with
        | nil => simp [hat] at hs
        | cons a as =>
          simp only [hat] at hs
          cases h2 : IECoreArnold.AiNodeSet (some n) "shader"
              (ParamValue.Ptr a.surfaceShader) w2 with
          | none => simp [h2] at hs
          | some w3 =>
            simp only [h2, Option.some_bind, Option.some.injEq, Prod.mk.injEq] at hs
            obtain ⟨hr, hw⟩ := hs
            subst hw
            obtain ⟨f2, _⟩ := h.AiNodeSet n _ _ (hn n rfl) h1
            obtain ⟨f3, _⟩ := f2.AiNodeSet n _ _ (hn n rfl) h2
            exact ⟨f3, n, rfl, hr.symm⟩

theorem AiNode_frame {w0 w : World} (h : Frame w0 w) (name : String) :
    Frame w0 (AiNode name w).2 ∧
    (∀ n, (AiNode name w).1 = some n → n = w.nodes.length) ∧
    (AiNode name w).2.nodeEntries = w.nodeEntries := by
  unfold AiNode
  split
  · exact ⟨h.realizeNode name [], fun n hn => by simpa [realizeNode] using hn.symm, rfl⟩
  · exact ⟨h, fun n hn => by simp at hn, rfl⟩

theorem curves_effect (periodic : Bool) (numVertices : List Int) (primVars : CompoundDataMap)
    (r r1 : RendererImplementation) (w w1 : World)
    (h : curves periodic numVertices primVars r w = some (r1, w1)) :
    r1.m_shapes = r.m_shapes ++ [w.nodes.length] ∧ Frame w w1 := by
  simp only [curves, ToArnoldCurvesConverter.convert] at h
  obtain ⟨f, n, hn, hr⟩ := ((Frame.refl w).realizeNode "curves" _).addShape _ r r1
    (fun n hn => by cases hn; exact Nat.le_refl _) h
  simp only [realizeNode, Option.some.injEq] at hn
  subst hn hr
  exact ⟨rfl, f⟩

theorem mesh_effect (vertsPerFace vertIds : List Int) (interpolation : String)
    (primVars : CompoundDataMap) (r r1 : RendererImplementation) (w w1 : World)
    (h : mesh vertsPerFace vertIds interpolation primVars r w = some (r1, w1)) :
    r1.m_shapes = r.m_shapes ++ [w.nodes.length] ∧ Frame w w1 := by
  simp only [mesh, ToArnoldMeshConverter.convert] at h
  obtain ⟨f, n, hn, hr⟩ := ((Frame.refl w).realizeNode "polymesh" _).addShape _ r r1
    (fun n hn => by cases hn; exact Nat.le_refl _) h
  simp only [realizeNode, Option.some.injEq] at hn
  subst hn hr
  exact ⟨rfl, f⟩

theorem sphere_effect (radius zMin zMax thetaMax : ℚ) (primVars : CompoundDataMap)
    (r r1 : RendererImplementation) (w w1 : World)
    (h : sphere radius zMin zMax thetaMax primVars r w = some (r1, w1)) :
    r1.m_shapes = r.m_shapes ++ [w.nodes.length] ∧ Frame w w1 := by
  simp only [sphere] at h
  generalize hw3 : (if thetaMax ≠ 360 then
      msg Level.Warning "IECoreArnold::RendererImplementation::sphere" "thetaMax not supported"
        (if zMax ≠ 1 then
          msg Level.Warning "IECoreArnold::RendererImplementation::sphere" "zMax not supported"
            (if zMin ≠ -1 then
              msg Level.Warning "IECoreArnold::RendererImplementation::sphere"
                "zMin not supported" w
            else w)
        else (if zMin ≠ -1 then
              msg Level.Warning "IECoreArnold::RendererImplementation::sphere"
                "zMin not supported" w
            else w))
    else (if zMax ≠ 1 then
          msg Level.Warning "IECoreArnold::RendererImplementation::sphere" "zMax not supported"
            (if zMin ≠ -1 then
              msg Level.Warning "IECoreArnold::RendererImplementation::sphere"
                "zMin not supported" w
            else w)
        else (if zMin ≠ -1 then
              msg Level.Warning "IECoreArnold::RendererImplementation::sphere"
                "zMin not supported" w
            else w))) = w3 at h
  have f3 : Frame w w3 ∧ w3.nodes.length = w.nodes.length := by
    subst hw3
    split <;> split <;> split <;> exact ⟨Frame.of_eq (Frame.refl w) rfl rfl rfl, rfl⟩
  obtain ⟨fa, hna, _⟩ := AiNode_frame f3.1 "sphere"
  cases hs : (AiNode "sphere" w3).1 with
  | none => simp [hs, AiNodeSet] at h
  | some n =>
    have hn := hna n hs
    rw [hs] at h
    cases h4 : AiNodeSet (some n) "radius" (ParamValue.Flt radius) (AiNode "sphere" w3).2 with
    | none => simp [h4] at h
    | some w4 =>
      simp only [h4, Option.some_bind] at h
      have hle : w.nodes.length ≤ n := by rw [hn, f3.2]
      obtain ⟨f4, _⟩ := fa.AiNodeSet n _ _ hle h4
      obtain ⟨f5, m, hm, hr⟩ := f4.addShape _ r r1 (fun k hk => by
        cases hk
        exact hle) h
      cases hm
      subst hr
      exact ⟨by simp only [hn, f3.2], f5⟩

theorem shader_effect (type name : String) (parameters : CompoundDataMap)
    (r r1 : RendererImplementation) (w w1 : World)
    (h : shader type name parameters r w = some (r1, w1)) :
    r1.m_shapes = r.m_shapes ∧ Frame w w1 := by
  simp only [shader] at h
  split at h
  · obtain ⟨fa, hna, _⟩ := AiNode_frame (Frame.refl w) name
    cases hs : (AiNode name w).1 with
    | none =>
      have hp : AiNode name w = (none, (AiNode name w).2) := by rw [← hs]
      rw [hp] at h
      simp only [Option.some.injEq, Prod.mk.injEq] at h
      obtain ⟨hr, hw⟩ := h
      subst hr hw
      exact ⟨rfl, fa.msg _ _ _⟩
    | some n =>
      have hp : AiNode name w = (some n, (AiNode name w).2) := by rw [← hs]
      rw [hp] at h
      simp only at h
      cases h2 : ToArnoldConverter.setParameters (some n) parameters (AiNode name w).2 with
      | none => simp [h2] at h
      | some w2 =>
        simp only [h2, Option.some_bind] at h
        obtain ⟨f2, _⟩ := fa.setParameters n parameters (by rw [hna n hs]) h2
        cases hat : r.m_attributeStack with
        | nil => simp [hat] at h
        | cons a as =>
          simp only [hat, Option.some.injEq, Prod.mk.injEq] at h
          obtain ⟨hr, hw⟩ := h
          subst hr hw
          exact ⟨rfl, f2⟩
  · simp only [Option.some.injEq, Prod.mk.injEq] at h
    obtain ⟨hr, hw⟩ := h
    subst hr hw
    exact ⟨rfl, (Frame.refl w).msg _ _ _⟩

theorem camera_effect (name : String) (parameters : CompoundDataMap)
    (r r1 : RendererImplementation) (w w1 : World)
    (h : camera name parameters r w = some (r1, w1)) :
    r1 = r ∧ Frame w w1 := by
  cases hst : r.m_transformStack with
  | nil => simp [camera, applyTransformToNode, hst] at h
  | cons t ts =>
    rw [camera_cons name parameters r w t ts hst] at h
    simp only [Option.some.injEq, Prod.mk.injEq] at h
    obtain ⟨hr, hw⟩ := h
    subst hr hw
    exact ⟨rfl, ⟨List.prefix_append _ _, List.prefix_refl _, rfl⟩⟩

theorem worldBegin_effect (r r1 : RendererImplementation) (w w1 : World)
    (h : worldBegin r w = some (r1, w1)) :
    r1.m_shapes = r.m_shapes ∧ Frame w w1 := by
  have hfin : ∀ (r0 : RendererImplementation) (t : M44f) (w0 : World),
      Frame w0 (finishedWorld r0 t w0) := by
    intro r0 t w0
    refine Frame.optionsSet ?_ _ _
    split
    · exact ⟨List.prefix_append _ _, List.prefix_refl _, rfl⟩
    · exact Frame.refl w0
  cases hst : r.m_transformStack with
  | nil =>
    simp only [worldBegin, hst, List.length_nil, gt_iff_lt, Nat.not_lt_zero, if_false,
      Option.some_bind] at h
    split at h
    · simp [camera, applyTransformToNode, hst] at h
    · simp only [Option.some_bind, Option.some.injEq, Prod.mk.injEq] at h
      obtain ⟨hr, hw⟩ := h
      subst hr hw
      exact ⟨rfl, (Frame.refl w).optionsSet _ _⟩
  | cons t ts =>
    cases ts with
    | nil =>
      rw [worldBegin_closed r w t hst] at h
      simp only [Option.some.injEq, Prod.mk.injEq] at h
      obtain ⟨hr, hw⟩ := h
      subst hr hw
      exact ⟨rfl, hfin _ _ _⟩
    | cons t2 ts =>
      rw [worldBegin_open r w t t2 ts hst] at h
      simp only [Option.some.injEq, Prod.mk.injEq] at h
      obtain ⟨hr, hw⟩ := h
      subst hr hw
      exact ⟨rfl, ((Frame.refl w).msg _ _ _).trans (hfin _ _ _)⟩

theorem display_effect (name type data : String) (parameters : CompoundDataMap)
    (r r1 : RendererImplementation) (w w1 : World)
    (h : display name type data parameters r w = some (r1, w1)) :
    r1.m_shapes = r.m_shapes ∧ Frame w w1 := by
  simp only [display] at h
  obtain ⟨fa, hna, _⟩ := AiNode_frame (Frame.refl w) type
  cases hs : (AiNode type w).1 with
  | none =>
    have hp : AiNode type w = (none, (AiNode type w).2) := by rw [← hs]
    rw [hp] at h
    simp only [Option.some.injEq, Prod.mk.injEq] at h
    obtain ⟨hr, hw⟩ := h
    subst hr hw
    exact ⟨rfl, fa.msg _ _ _⟩
  | some n =>
    have hp : AiNode type w = (some n, (AiNode type w).2) := by rw [← hs]
    rw [hp] at h
    simp only at h
    have hle : w.nodes.length ≤ n := by rw [hna n hs]
    cases h1 : AiNodeSet (some n) "name"
        (ParamValue.Str (displayNodeName r.m_outputDescriptions.length)) (AiNode type w).2 with
    | none => simp [h1] at h
    | some w2 =>
      simp only [h1, Option.some_bind] at h
      obtain ⟨f2, _⟩ := fa.AiNodeSet n _ _ hle h1
      cases h3 : (if nodeHasParameter w2 n "filename" = true then
          AiNodeSet (some n) "filename" (ParamValue.Str name) w2 else some w2) with
      | none => simp [h3] at h
      | some w3 =>
        simp only [h3, Option.some_bind] at h
        have f3 : Frame w w3 := by
          split at h3
          · exact (f2.AiNodeSet n _ _ hle h3).1
          · simp only [Option.some.injEq] at h3
            subst h3
            exact f2
        cases h4 : ToArnoldConverter.setParameters (some n) parameters w3 with
        | none => simp [h4] at h
        | some w4 =>
          simp only [h4, Option.some_bind] at h
          obtain ⟨f4, _⟩ := f3.setParameters n parameters hle h4
          cases h5 : AiNodeGetName r.m_defaultFilter w4 with
          | none => simp [h5] at h
          | some fname =>
            simp only [h5, Option.some_bind, Option.some.injEq, Prod.mk.injEq] at h
            obtain ⟨hr, hw⟩ := h
            subst hr hw
            exact ⟨rfl, f4⟩

/-! ## Procedurals -/

theorem createCopy_cons (r : RendererImplementation) (t : M44f) (ts : List M44f)
    (a : AttributeState) (as : List AttributeState) (ht : r.m_transformStack = t :: ts)
    (ha : r.m_attributeStack = a :: as) : createCopy r = some (childRenderer t a) := by
  simp [createCopy, ht, ha, copyOf_eq, childRenderer, blank]

theorem procedural_cons (boxTransform : Box3f → M44f → Box3f) (proc : Procedural)
    (r : RendererImplementation) (w : World) (t : M44f) (ts : List M44f)
    (a : AttributeState) (as : List AttributeState) (ht : r.m_transformStack = t :: ts)
    (ha : r.m_attributeStack = a :: as)
    (hk : (w.nodeEntries.lookup "procedural").isSome = true) :
    procedural boxTransform proc r w =
      some ({ r with m_shapes := r.m_shapes ++ [w.nodes.length] },
        { w with
          nodes := w.nodes ++ [proceduralNode (boxTransform proc.bound t) w.procData.length t
            a.surfaceShader]
          procData := w.procData ++
            [{ procedural := some proc, renderer := childRenderer t a }] }) := by
  simp only [procedural, ht, AiNode, hk, if_true, realizeNode]
  rw [AiNodeSet_last "min" _ _ w.nodes { entry := "procedural", params := [] } w.nodes.length
    rfl rfl]
  simp only [Option.some_bind]
  rw [AiNodeSet_last "max" _ _ w.nodes _ w.nodes.length rfl rfl]
  simp only [Option.some_bind]
  rw [AiNodeSet_last "funcptr" _ _ w.nodes _ w.nodes.length rfl rfl]
  simp only [Option.some_bind, createCopy_cons r t ts a as ht ha]
  rw [AiNodeSet_last "userptr" _ _ w.nodes _ w.nodes.length rfl rfl]
  simp only [Option.some_bind, addShape, applyTransformToNode, ht, ha]
  rw [AiNodeSet_last "matrix" _ _ w.nodes _ w.nodes.length rfl rfl]
  simp only [Option.some_bind]
  rw [AiNodeSet_last "shader" _ _ w.nodes _ w.nodes.length rfl rfl]
  simp only [Option.some_bind, proceduralNode]
  rfl

theorem procedural_effect (boxTransform : Box3f → M44f → Box3f) (proc : Procedural)
    (r r1 : RendererImplementation) (w w1 : World)
    (h : procedural boxTransform proc r w = some (r1, w1)) :
    r1.m_shapes = r.m_shapes ++ [w.nodes.length] ∧ Frame w w1 := by
  cases hst : r.m_transformStack with
  | nil => simp [procedural, hst] at h
  | cons t ts =>
    cases hk : (w.nodeEntries.lookup "procedural").isSome with
    | false => simp [procedural, hst, AiNode, hk, AiNodeSet] at h
    | true =>
      cases hat : r.m_attributeStack with
      | nil =>
        simp only [procedural, hst, AiNode, hk, if_true, realizeNode] at h
        rw [AiNodeSet_last "min" _ _ w.nodes { entry := "procedural", params := [] }
          w.nodes.length rfl rfl] at h
        simp only [Option.some_bind] at h
        rw [AiNodeSet_last "max" _ _ w.nodes _ w.nodes.length rfl rfl] at h
        simp only [Option.some_bind] at h
        rw [AiNodeSet_last "funcptr" _ _ w.nodes _ w.nodes.length rfl rfl] at h
        simp [createCopy, hst, hat] at h
      | cons a as =>
        rw [procedural_cons boxTransform proc r w t ts a as hst hat hk] at h
        simp only [Option.some.injEq, Prod.mk.injEq] at h
        obtain ⟨hr, hw⟩ := h
        subst hr hw
        exact ⟨rfl, ⟨List.prefix_append _ _, List.prefix_append _ _, rfl⟩⟩

theorem attributeBegin_effect (r r1 : RendererImplementation) (w w1 : World)
    (h : attributeBegin r w = some (r1, w1)) : r1.m_shapes = r.m_shapes ∧ w1 = w := by
  cases hst : r.m_transformStack with
  | nil => simp [attributeBegin, transformBegin, hst] at h
  | cons t ts =>
    cases hat : r.m_attributeStack with
    | nil => simp [attributeBegin, transformBegin, hst, hat] at h
    | cons a as =>
      rw [attributeBegin_cons r w t ts a as hst hat] at h
      simp only [Option.some.injEq, Prod.mk.injEq] at h
      obtain ⟨hr, hw⟩ := h
      subst hr hw
      exact ⟨rfl, rfl⟩

theorem transformEnd_effect (r r1 : RendererImplementation) (w w1 : World)
    (h : transformEnd r w = some (r1, w1)) :
    r1.m_shapes = r.m_shapes ∧ r1.m_attributeStack = r.m_attributeStack ∧ Frame w w1 := by
  simp only [transformEnd] at h
  split at h
  · simp only [Option.some.injEq, Prod.mk.injEq] at h
    obtain ⟨hr, hw⟩ := h
    subst hr hw
    exact ⟨rfl, rfl, (Frame.refl w).msg _ _ _⟩
  · simp only [Option.some.injEq, Prod.mk.injEq] at h
    obtain ⟨hr, hw⟩ := h
    subst hr hw
    exact ⟨rfl, rfl, Frame.refl w⟩

theorem attributeEnd_effect (r r1 : RendererImplementation) (w w1 : World)
    (h : attributeEnd r w = some (r1, w1)) : r1.m_shapes = r.m_shapes ∧ Frame w w1 := by
  cases hat : r.m_attributeStack with
  | nil => simp [attributeEnd, hat] at h
  | cons a as =>
    rw [attributeEnd_cons r w a as hat] at h
    obtain ⟨hs, _, hf⟩ := transformEnd_effect _ _ _ _ h
    exact ⟨hs, hf⟩

theorem setOption_effect (name : String) (value : Data) (r r1 : RendererImplementation)
    (w w1 : World) (h : setOption name value r w = some (r1, w1)) :
    r1 = r ∧ Frame w w1 := by
  simp only [setOption] at h
  split at h
  · split at h
    · simp only [Option.some.injEq, Prod.mk.injEq] at h
      obtain ⟨hr, hw⟩ := h
      subst hr hw
      exact ⟨rfl, (Frame.refl w).optionsSet _ _⟩
    · simp only [Option.some.injEq, Prod.mk.injEq] at h
      obtain ⟨hr, hw⟩ := h
      subst hr hw
      exact ⟨rfl, (Frame.refl w).msg _ _ _⟩
  · split at h
    · simp only [Option.some.injEq, Prod.mk.injEq] at h
      obtain ⟨hr, hw⟩ := h
      subst hr hw
      exact ⟨rfl, (Frame.refl w).optionsSet _ _⟩
    · split at h
      · simp only [Option.some.injEq, Prod.mk.injEq] at h
        obtain ⟨hr, hw⟩ := h
        subst hr hw
        exact ⟨rfl, Frame.refl w⟩
      · simp only [Option.some.injEq, Prod.mk.injEq] at h
        obtain ⟨hr, hw⟩ := h
        subst hr hw
        exact ⟨rfl, (Frame.refl w).msg _ _ _⟩

theorem worldEnd_effect (r r1 : RendererImplementation) (w w1 : World)
    (h : worldEnd r w = some (r1, w1)) : r1 = r ∧ Frame w w1 := by
  simp only [worldEnd] at h
  split at h
  · simp only [Option.some.injEq, Prod.mk.injEq] at h
    obtain ⟨hr, hw⟩ := h
    subst hr hw
    exact ⟨rfl, (Frame.refl w).of_eq rfl rfl rfl⟩
  · split at h
    · simp only [Option.some.injEq, Prod.mk.injEq] at h
      obtain ⟨hr, hw⟩ := h
      subst hr hw
      exact ⟨rfl, (Frame.refl w).of_eq rfl rfl rfl⟩
    · simp only [Option.some.injEq, Prod.mk.injEq] at h
      obtain ⟨hr, hw⟩ := h
      subst hr hw
      exact ⟨rfl, Frame.refl w⟩

theorem notImplemented_effect (context : String) (r r1 : RendererImplementation)
    (w w1 : World) (h : notImplemented context r w = some (r1, w1)) :
    r1 = r ∧ Frame w w1 := by
  simp only [notImplemented, Option.some.injEq, Prod.mk.injEq] at h
  obtain ⟨hr, hw⟩ := h
  subst hr hw
  exact ⟨rfl, (Frame.refl w).msg _ _ _⟩

theorem step_effect (boxTransform : Box3f → M44f → Box3f) (c : Cmd)
    (r r1 : RendererImplementation) (w w1 : World)
    (h : step boxTransform c r w = some (r1, w1)) :
    r1.m_shapes = r.m_shapes ++ emittedBy c w ∧ Frame w w1 := by
  cases c
  case curves periodic numVertices primVars =>
    exact curves_effect periodic numVertices primVars r r1 w w1 h
  case sphere radius zMin zMax thetaMax primVars =>
    exact sphere_effect radius zMin zMax thetaMax primVars r r1 w w1 h
  case mesh vertsPerFace vertIds interpolation primVars =>
    exact mesh_effect vertsPerFace vertIds interpolation primVars r r1 w w1 h
  case procedural bound render =>
    exact procedural_effect boxTransform _ r r1 w w1 h
  case setOption name value =>
    obtain ⟨hr, hf⟩ := setOption_effect name value r r1 w w1 h
    exact ⟨by simp [hr, emittedBy, emitsShape], hf⟩
  case camera name parameters =>
    obtain ⟨hr, hf⟩ := camera_effect name parameters r r1 w w1 h
    exact ⟨by simp [hr, emittedBy, emitsShape], hf⟩
  case display name type data parameters =>
    obtain ⟨hr, hf⟩ := display_effect name type data parameters r r1 w w1 h
    exact ⟨by simp [hr, emittedBy, emitsShape], hf⟩
  case worldBegin =>
    obtain ⟨hr, hf⟩ := worldBegin_effect r r1 w w1 h
    exact ⟨by simp [hr, emittedBy, emitsShape], hf⟩
  case worldEnd =>
    obtain ⟨hr, hf⟩ := worldEnd_effect r r1 w w1 h
    exact ⟨by simp [hr, emittedBy, emitsShape], hf⟩
  case transformEnd =>
    obtain ⟨hr, _, hf⟩ := transformEnd_effect r r1 w w1 h
    exact ⟨by simp [hr, emittedBy, emitsShape], hf⟩
  case attributeBegin =>
    obtain ⟨hr, hf⟩ := attributeBegin_effect r r1 w w1 h
    exact ⟨by simp [hr, emittedBy, emitsShape], by rw [hf]; exact Frame.refl w⟩
  case attributeEnd =>
    obtain ⟨hr, hf⟩ := attributeEnd_effect r r1 w w1 h
    exact ⟨by simp [hr, emittedBy, emitsShape], hf⟩
  case shader type name parameters =>
    obtain ⟨hr, hf⟩ := shader_effect type name parameters r r1 w w1 h
    exact ⟨by simp [hr, emittedBy, emitsShape], hf⟩
  case transformBegin =>
    cases hst : r.m_transformStack with
    | nil => simp [step, transformBegin, hst] at h
    | cons t ts =>
      have h2 := transformBegin_cons r w t ts hst
      simp only [step, h2, Option.some.injEq, Prod.mk.injEq] at h
      obtain ⟨hr, hw⟩ := h
      subst hr hw
      exact ⟨by simp [emittedBy, emitsShape], Frame.refl w⟩
  case setTransform m =>
    cases hst : r.m_transformStack with
    | nil => simp [step, setTransform, hst] at h
    | cons t ts =>
      have h2 := setTransform_cons m r w t ts hst
      simp only [step, h2, Option.some.injEq, Prod.mk.injEq] at h
      obtain ⟨hr, hw⟩ := h
      subst hr hw
      exact ⟨by simp [emittedBy, emitsShape], Frame.refl w⟩
  case concatTransform m =>
    cases hst : r.m_transformStack with
    | nil => simp [step, concatTransform, hst] at h
    | cons t ts =>
      have h2 := concatTransform_cons m r w t ts hst
      simp only [step, h2, Option.some.injEq, Prod.mk.injEq] at h
      obtain ⟨hr, hw⟩ := h
      subst hr hw
      exact ⟨by simp [emittedBy, emitsShape], Frame.refl w⟩
  case setAttribute name value =>
    cases hat : r.m_attributeStack with
    | nil => simp [step, setAttribute, hat] at h
    | cons a as =>
      have h2 := setAttribute_cons name value r w a as hat
      simp only [step, h2, Option.some.injEq, Prod.mk.injEq] at h
      obtain ⟨hr, hw⟩ := h
      subst hr hw
      exact ⟨by simp [emittedBy, emitsShape], Frame.refl w⟩
  all_goals
    have h2 : r1 = r ∧ Frame w w1 := by
      exact notImplemented_effect _ r r1 w w1 h
    exact ⟨by simp [h2.1, emittedBy, emitsShape], h2.2⟩

theorem run_effect (boxTransform : Box3f → M44f → Box3f) (cmds : List Cmd)
    (r r1 : RendererImplementation) (w w1 : World)
    (h : run boxTransform cmds r w = some (r1, w1)) :
    r1.m_shapes = r.m_shapes ++ emittedShapes boxTransform cmds r w ∧
    (emittedShapes boxTransform cmds r w).length = (cmds.filter emitsShape).length ∧
    Frame w w1 := by
  induction cmds generalizing r w with
  | nil =>
    simp only [run, Option.some.injEq, Prod.mk.injEq] at h
    obtain ⟨hr, hw⟩ := h
    subst hr hw
    exact ⟨by simp [emittedShapes], by simp [emittedShapes], Frame.refl w⟩
  | cons c cs ih =>
    simp only [run] at h
    cases hstep : step boxTransform c r w with
    | none => simp [hstep] at h
    | some p =>
      obtain ⟨r2, w2⟩ := p
      simp only [hstep, Option.some_bind] at h
      obtain ⟨hs1, hf1⟩ := step_effect boxTransform c r r2 w w2 hstep
      obtain ⟨hs2, hl2, hf2⟩ := ih r2 w2 h
      refine ⟨?_, ?_, hf1.trans hf2⟩
      · simp only [emittedShapes, hstep]
        rw [hs2, hs1, List.append_assoc]
      · simp only [emittedShapes, hstep, List.length_append, hl2]
        cases hc : emitsShape c <;> simp [emittedBy, hc, List.filter, Nat.add_comm]

theorem prefix_getElem? {α : Type} (base l : List α) (n : Nat) (h : base <+: l)
    (hn : n < base.length) : l[n]? = base[n]? := by
  obtain ⟨t, rfl⟩ := h
  exact List.getElem?_append_left hn

theorem userPtrOf_frame {w0 w : World} (h : Frame w0 w) (node : AtNode) (ptr : Nat)
    (hp : userPtrOf node w0 = some ptr) : userPtrOf node w = some ptr := by
  have hlt : node < w0.nodes.length := by
    by_contra hge
    have : w0.nodes[node]? = none := List.getElem?_eq_none (Nat.le_of_not_lt hge)
    simp [userPtrOf, this] at hp
  simp only [userPtrOf, prefix_getElem? _ _ _ h.nodes hlt]
  exact hp

theorem procInit_of_run (boxTransform : Box3f → M44f → Box3f) (node : AtNode) (w : World)
    (ptr : Nat) (data : ProceduralData) (gen : Procedural) (r3 : RendererImplementation)
    (w3 : World) (hp : userPtrOf node w = some ptr) (hd : w.procData[ptr]? = some data)
    (hg : data.procedural = some gen)
    (hr : run boxTransform gen.render data.renderer w = some (r3, w3)) :
    procInit boxTransform node w = some (ptr, { w3 with procData :=
      (w3.procData.set ptr { procedural := none, renderer := r3 }) }) := by
  simp [procInit, hp, hd, hg, hr]

theorem procInit_inv (boxTransform : Box3f → M44f → Box3f) (node : AtNode) (w w4 : World)
    (ptr : Nat) (h : procInit boxTransform node w = some (ptr, w4)) :
    ∃ data gen r3 w3, userPtrOf node w = some ptr ∧ w.procData[ptr]? = some data ∧
      data.procedural = some gen ∧
      run boxTransform gen.render data.renderer w = some (r3, w3) := by
  simp only [procInit] at h
  cases hp : userPtrOf node w with
  | none => simp [hp] at h
  | some p =>
    simp only [hp, Option.some_bind] at h
    cases hd : w.procData[p]? with
    | none => simp [hd] at h
    | some data =>
      simp only [hd, Option.some_bind] at h
      cases hg : data.procedural with
      | none => simp [hg] at h
      | some gen =>
        simp only [hg, Option.some_bind] at h
        cases hr : run boxTransform gen.render data.renderer w with
        | none => simp [hr] at h
        | some q =>
          obtain ⟨r3, w3⟩ := q
          simp only [hr, Option.some_bind, Option.some.injEq, Prod.mk.injEq] at h
          obtain ⟨hpp, _⟩ := h
          subst hpp
          exact ⟨data, gen, r3, w3, rfl, hd, hg, hr⟩

theorem procInit_harvest (boxTransform : Box3f → M44f → Box3f) (node : AtNode) (w : World)
    (ptr : Nat) (data : ProceduralData) (gen : Procedural) (r3 : RendererImplementation)
    (w3 : World) (hp : userPtrOf node w = some ptr) (hd : w.procData[ptr]? = some data)
    (hg : data.procedural = some gen)
    (hr : run boxTransform gen.render data.renderer w = some (r3, w3)) :
    ∃ w4, procInit boxTransform node w = some (ptr, w4) ∧
      procNumNodes ptr w4 =
        some (data.renderer.m_shapes.length + (gen.render.filter emitsShape).length) ∧
      (∀ i : Nat, procGetNode ptr i w4 =
        (data.renderer.m_shapes ++
          emittedShapes boxTransform gen.render data.renderer w)[i]?) ∧
      (∀ d, d ≠ ptr → d < w.procData.length → w4.procData[d]? = w.procData[d]?) ∧
      (∀ n, n < w.nodes.length → w4.nodes[n]? = w.nodes[n]?) ∧
      w.procData.length ≤ w4.procData.length := by
  obtain ⟨hs, hl, hf⟩ := run_effect boxTransform gen.render data.renderer r3 w w3 hr
  have hlt : ptr < w.procData.length := by
    by_contra hge
    have : w.procData[ptr]? = none := List.getElem?_eq_none (Nat.le_of_not_lt hge)
    rw [this] at hd
    exact Option.noConfusion hd
  have hlt3 : ptr < w3.procData.length := Nat.lt_of_lt_of_le hlt hf.procData.length_le
  refine ⟨_, procInit_of_run boxTransform node w ptr data gen r3 w3 hp hd hg hr,
    ?_, ?_, ?_, ?_, ?_⟩
  · simp [procNumNodes, List.getElem?_set, hlt3, hs, hl]
  · intro i
    simp [procGetNode, List.getElem?_set, hlt3, hs]
  · intro d hd1 hd2
    simp only [List.getElem?_set, Ne.symm hd1, if_false]
    exact prefix_getElem? _ _ _ hf.procData hd2
  · intro n hn
    exact prefix_getElem? _ _ _ hf.nodes hn
  · simp only [List.length_set]
    exact hf.procData.length_le

theorem procNumNodes_of_getElem? (ptr : Nat) (w w1 : World)
    (h : w1.procData[ptr]? = w.procData[ptr]?) :
    procNumNodes ptr w1 = procNumNodes ptr w ∧
    ∀ i, procGetNode ptr i w1 = procGetNode ptr i w := by
  simp [procNumNodes, procGetNode, h]

theorem procInit_two (boxTransform : Box3f → M44f → Box3f) (w w4 w5 : World)
    (n1 n2 : AtNode) (p1 p2 : Nat) (d1 d2 : ProceduralData)
    (h1 : w.procData[p1]? = some d1) (h2 : w.procData[p2]? = some d2) (hne : p1 ≠ p2)
    (e1 : procInit boxTransform n1 w = some (p1, w4))
    (e2 : procInit boxTransform n2 w4 = some (p2, w5)) :
    ∃ g1 g2, d1.procedural = some g1 ∧ d2.procedural = some g2 ∧
      procNumNodes p1 w5 =
        some (d1.renderer.m_shapes.length + (g1.render.filter emitsShape).length) ∧
      procNumNodes p2 w5 =
        some (d2.renderer.m_shapes.length + (g2.render.filter emitsShape).length) ∧
      (∀ i, procGetNode p1 i w5 = procGetNode p1 i w4) := by
  have hlt : ∀ (p : Nat) (d : ProceduralData) (w0 : World), w0.procData[p]? = some d →
      p < w0.procData.length := by
    intro p d w0 hd
    by_contra hge
    have : w0.procData[p]? = none := List.getElem?_eq_none (Nat.le_of_not_lt hge)
    rw [this] at hd
    exact Option.noConfusion hd
  obtain ⟨a1, g1, r3, w3, hp1, ha1, hg1, hr1⟩ := procInit_inv boxTransform n1 w w4 p1 e1
  obtain ⟨x4, hx4, hnum1, _, hfr1, _, hle1⟩ :=
    procInit_harvest boxTransform n1 w p1 a1 g1 r3 w3 hp1 ha1 hg1 hr1
  have hw4 : x4 = w4 := by
    rw [e1] at hx4
    simp only [Option.some.injEq, Prod.mk.injEq, true_and] at hx4
    exact hx4.symm
  subst hw4
  have had : a1 = d1 := by
    rw [h1] at ha1
    exact (Option.some.inj ha1).symm
  subst had
  obtain ⟨a2, g2, r6, w6, hp2, ha2, hg2, hr2⟩ := procInit_inv boxTransform n2 x4 w5 p2 e2
  obtain ⟨x5, hx5, hnum2, _, hfr2, _, _⟩ :=
    procInit_harvest boxTransform n2 x4 p2 a2 g2 r6 w6 hp2 ha2 hg2 hr2
  have hw5 : x5 = w5 := by
    rw [e2] at hx5
    simp only [Option.some.injEq, Prod.mk.injEq, true_and] at hx5
    exact hx5.symm
  subst hw5
  have had2 : a2 = d2 := by
    rw [hfr1 p2 (Ne.symm hne) (hlt p2 d2 w h2), h2] at ha2
    exact (Option.some.inj ha2).symm
  subst had2
  have hkeep := hfr2 p1 hne (Nat.lt_of_lt_of_le (hlt p1 a1 w h1) hle1)
  obtain ⟨k1, k2⟩ := procNumNodes_of_getElem? p1 x4 x5 hkeep
  exact ⟨g1, g2, hg1, hg2, by rw [k1, hnum1], hnum2, k2⟩

/-- C7. With t and a at the tops of the parent's stacks and "procedural" a node entry of
Arnold: (1) procedural( proc ) succeeds, emits the new procedural node as a shape of the
parent, whose stacks it leaves as they are, and allocates one descriptor holding proc and
a child renderer with no shape and the one-entry stacks [t] and [a]; (2) for every
descriptor of any world whose generator is still there and whose render calls run to an
end against the child, procInit succeeds, procNumNodes is then the number of shapes the
child held before plus the number of shape-emitting calls of the generator, procGetNode( i )
is the i-th of the child's shapes followed by the nodes those calls created, in order, and
every other descriptor and every node that existed is as before; (3) for two descriptors
expanded one after the other, in whichever order, each reports the count of its own
generator, and the second expansion leaves the nodes of the first as they were. The two
queries read the world and return no new one. -/
theorem procedural_isolation_and_harvest (boxTransform : Box3f → M44f → Box3f)
    (r : RendererImplementation) (w : World) (t : M44f) (ts : List M44f)
    (a : AttributeState) (as : List AttributeState) (proc : Procedural)
    (ht : r.m_transformStack = t :: ts) (ha : r.m_attributeStack = a :: as)
    (hk : (AiNode "procedural" w).1.isSome = true) :
    (∃ w1, procedural boxTransform proc r w =
        some ({ r with m_shapes := r.m_shapes ++ [w.nodes.length] }, w1) ∧
      userPtrOf w.nodes.length w1 = some w.procData.length ∧
      w1.procData = w.procData ++ [{ procedural := some proc, renderer :=
        { m_mode := Mode.Procedural, m_assFileName := "", m_defaultFilter := none,
          m_transformStack := [t], m_attributeStack := [a], m_shapes := [],
          m_outputDescriptions := [] } }] ∧
      (∀ n, n < w.nodes.length → w1.nodes[n]? = w.nodes[n]?)) ∧
    (∀ (w2 : World) (node : AtNode) (ptr : Nat) (data : ProceduralData) (gen : Procedural)
      (r3 : RendererImplementation) (w3 : World),
      userPtrOf node w2 = some ptr → w2.procData[ptr]? = some data →
      data.procedural = some gen →
      run boxTransform gen.render data.renderer w2 = some (r3, w3) →
      ∃ w4, procInit boxTransform node w2 = some (ptr, w4) ∧
        procNumNodes ptr w4 =
          some (data.renderer.m_shapes.length + (gen.render.filter emitsShape).length) ∧
        (∀ i : Nat, procGetNode ptr i w4 =
          (data.renderer.m_shapes ++
            emittedShapes boxTransform gen.render data.renderer w2)[i]?) ∧
        (∀ d, d ≠ ptr → d < w2.procData.length → w4.procData[d]? = w2.procData[d]?) ∧
        (∀ n, n < w2.nodes.length → w4.nodes[n]? = w2.nodes[n]?)) ∧
    (∀ (w2 w4 w5 : World) (n1 n2 : AtNode) (p1 p2 : Nat) (d1 d2 : ProceduralData),
      w2.procData[p1]? = some d1 → w2.procData[p2]? = some d2 → p1 ≠ p2 →
      procInit boxTransform n1 w2 = some (p1, w4) →
      procInit boxTransform n2 w4 = some (p2, w5) →
      ∃ g1 g2, d1.procedural = some g1 ∧ d2.procedural = some g2 ∧
        procNumNodes p1 w5 =
          some (d1.renderer.m_shapes.length + (g1.render.filter emitsShape).length) ∧
        procNumNodes p2 w5 =
          some (d2.renderer.m_shapes.length + (g2.render.filter emitsShape).length) ∧
        (∀ i, procGetNode p1 i w5 = procGetNode p1 i w4)) := by
  have hk2 : (w.nodeEntries.lookup "procedural").isSome = true := by
    cases h : (w.nodeEntries.lookup "procedural").isSome
    · simp [AiNode, h] at hk
    · rfl
  refine ⟨⟨_, procedural_cons boxTransform proc r w t ts a as ht ha hk2, ?_, rfl, ?_⟩, ?_, ?_⟩
  · simp only [userPtrOf, List.getElem?_concat_length, proceduralNode]
    rw [lookup_setParam_ne _ _ _ _ (by decide), lookup_setParam_ne _ _ _ _ (by decide),
      lookup_setParam_self]
  · intro n hn
    exact List.getElem?_append_left hn
  · intro w2 node ptr data gen r3 w3 hp hd hg hr
    obtain ⟨w4, e, h1, h2, h3, h4, _⟩ :=
      procInit_harvest boxTransform node w2 ptr data gen r3 w3 hp hd hg hr
    exact ⟨w4, e, h1, h2, h3, h4⟩
  · intro w2 w4 w5 n1 n2 p1 p2 d1 d2 h1 h2 hne e1 e2
    exact procInit_two boxTransform w2 w4 w5 n1 n2 p1 p2 d1 d2 h1 h2 hne e1 e2

theorem procedural_isolation_and_harvest_witness :
    ((run (fun b _ => b) demoScene demoRenderer demoStart).bind (fun p =>
      (procInit (fun b _ => b) 3 p.2).bind (fun q1 =>
      (procInit (fun b _ => b) 4 q1.2).bind (fun q2 =>
        some (p.1.m_shapes, q1.1, q2.1, procNumNodes 0 q2.2, procNumNodes 1 q2.2,
          procGetNode 0 0 q2.2, procGetNode 1 0 q2.2, procGetNode 1 1 q2.2,
          harvestedShaders 0 q2.2, harvestedShaders 1 q2.2))))
      = some ([3, 4], 0, 1, some 1, some 2, some 5, some 6, some 7,
          [some (ParamValue.Ptr (some 2))],
          [some (ParamValue.Ptr (some 1)), some (ParamValue.Ptr (some 1))])) ∧
    ((run (fun b _ => b) demoScene demoRenderer demoStart).bind (fun p =>
      (procInit (fun b _ => b) 4 p.2).bind (fun q1 =>
      (procInit (fun b _ => b) 3 q1.2).bind (fun q2 =>
        some (procNumNodes 0 q2.2, procNumNodes 1 q2.2,
          procGetNode 0 0 q2.2, procGetNode 1 0 q2.2, procGetNode 1 1 q2.2,
          harvestedShaders 0 q2.2, harvestedShaders 1 q2.2))))
      = some (some 1, some 2, some 7, some 5, some 6,
          [some (ParamValue.Ptr (some 2))],
          [some (ParamValue.Ptr (some 1)), some (ParamValue.Ptr (some 1))])) ∧
    ((∃ w1, procedural (fun b _ => b)
          { bound := { min := (0, 0, 0), max := (1, 1, 1) }, render := [Cmd.worldEnd] }
          demoRenderer demoStart =
        some ({ demoRenderer with m_shapes := demoRenderer.m_shapes ++ [demoStart.nodes.length] },
          w1) ∧
      userPtrOf demoStart.nodes.length w1 = some demoStart.procData.length ∧
      w1.procData = demoStart.procData ++
        [{ procedural := some { bound := { min := (0, 0, 0), max := (1, 1, 1) },
                                render := [Cmd.worldEnd] },
           renderer :=
        { m_mode := Mode.Procedural, m_assFileName := "", m_defaultFilter := none,
          m_transformStack := [1],
          m_attributeStack := [{ surfaceShader := some 1, attributes := [] }], m_shapes := [],
          m_outputDescriptions := [] } }] ∧
      (∀ n, n < demoStart.nodes.length → w1.nodes[n]? = demoStart.nodes[n]?)) ∧
    (∀ (w2 : World) (node : AtNode) (ptr : Nat) (data : ProceduralData) (gen : Procedural)
      (r3 : RendererImplementation) (w3 : World),
      userPtrOf node w2 = some ptr → w2.procData[ptr]? = some data →
      data.procedural = some gen →
      run (fun b _ => b) gen.render data.renderer w2 = some (r3, w3) →
      ∃ w4, procInit (fun b _ => b) node w2 = some (ptr, w4) ∧
        procNumNodes ptr w4 =
          some (data.renderer.m_shapes.length + (gen.render.filter emitsShape).length) ∧
        (∀ i : Nat, procGetNode ptr i w4 =
          (data.renderer.m_shapes ++
            emittedShapes (fun b _ => b) gen.render data.renderer w2)[i]?) ∧
        (∀ d, d ≠ ptr → d < w2.procData.length → w4.procData[d]? = w2.procData[d]?) ∧
        (∀ n, n < w2.nodes.length → w4.nodes[n]? = w2.nodes[n]?)) ∧
    (∀ (w2 w4 w5 : World) (n1 n2 : AtNode) (p1 p2 : Nat) (d1 d2 : ProceduralData),
      w2.procData[p1]? = some d1 → w2.procData[p2]? = some d2 → p1 ≠ p2 →
      procInit (fun b _ => b) n1 w2 = some (p1, w4) →
      procInit (fun b _ => b) n2 w4 = some (p2, w5) →
      ∃ g1 g2, d1.procedural = some g1 ∧ d2.procedural = some g2 ∧
        procNumNodes p1 w5 =
          some (d1.renderer.m_shapes.length + (g1.render.filter emitsShape).length) ∧
        procNumNodes p2 w5 =
          some (d2.renderer.m_shapes.length + (g2.render.filter emitsShape).length) ∧
        (∀ i, procGetNode p1 i w5 = procGetNode p1 i w4))) :=
  ⟨rfl, rfl,
    procedural_isolation_and_harvest (fun b _ => b) demoRenderer demoStart 1 []
      { surfaceShader := some 1, attributes := [] } []
      { bound := { min := (0, 0, 0), max := (1, 1, 1) }, render := [Cmd.worldEnd] } rfl rfl
      (by simp [AiNode, demoStart, demoWorld])⟩

/-! ## Constructed sessions -/

theorem constructCommon_stacks (mode : Mode)
    (pluginEntries : Option (List (String × List String))) (r0 r : RendererImplementation)
    (w w1 : World) (hmode : mode ≠ Mode.Procedural) (ht : r0.m_transformStack = [])
    (ha : r0.m_attributeStack = [])
    (h : constructCommon mode pluginEntries r0 w = some (r, w1)) :
    r.m_transformStack = [(1 : M44f)] ∧ r.m_attributeStack.length = 1 ∧
    r.m_shapes = r0.m_shapes ∧ r.m_outputDescriptions = r0.m_outputDescriptions := by
  simp only [constructCommon, ne_eq, hmode, not_false_eq_true, if_true] at h
  cases hset : AiNodeSet (AiNode "gaussian_filter" (AiLoadPlugins pluginEntries (AiBegin w))).1
      "name" (ParamValue.Str "ieCoreArnold:defaultFilter")
      (AiNode "gaussian_filter" (AiLoadPlugins pluginEntries (AiBegin w))).2 with
  | none => simp [hset] at h
  | some w2 =>
    simp only [hset, Option.some_bind, Option.some.injEq, Prod.mk.injEq] at h
    obtain ⟨hr, _⟩ := h
    subst hr
    simp [ht, ha]

theorem create_stacks (pluginEntries : Option (List (String × List String)))
    (r : RendererImplementation) (w w1 : World) (h : create pluginEntries w = some (r, w1)) :
    r.m_transformStack = [(1 : M44f)] ∧ r.m_attributeStack.length = 1 ∧
    r.m_shapes = [] ∧ r.m_outputDescriptions = [] :=
  constructCommon_stacks Mode.Render pluginEntries _ r w w1 (by decide) rfl rfl h

theorem createAssGen_stacks (assFileName : String)
    (pluginEntries : Option (List (String × List String)))
    (r : RendererImplementation) (w w1 : World)
    (h : createAssGen assFileName pluginEntries w = some (r, w1)) :
    r.m_transformStack = [(1 : M44f)] ∧ r.m_attributeStack.length = 1 ∧
    r.m_shapes = [] ∧ r.m_outputDescriptions = [] :=
  constructCommon_stacks Mode.AssGen pluginEntries _ r w w1 (by decide) rfl rfl h

theorem createCopy_stacks (other r : RendererImplementation) (h : createCopy other = some r) :
    r.m_transformStack.length = 1 ∧ r.m_attributeStack.length = 1 ∧ r.m_shapes = [] := by
  simp only [createCopy] at h
  split at h
  · simp only [Option.some.injEq] at h
    subst h
    exact ⟨rfl, rfl, rfl⟩
  · exact Option.noConfusion h

/-! ## The transform stack is never empty -/

theorem addShape_renderer (shape : Option AtNode) (r r1 : RendererImplementation)
    (w w1 : World) (h : addShape shape r w = some (r1, w1)) :
    ∃ n, shape = some n ∧ r1 = { r with m_shapes := r.m_shapes ++ [n] } := by
  simp only [addShape] at h
  cases h1 : applyTransformToNode shape r w with
  | none => simp [h1] at h
  | some w2 =>
    simp only [h1, Option.some_bind] at h
    cases hat : r.m_attributeStack with
    | nil => simp [hat] at h
    | cons a as =>
      simp only [hat] at h
      cases h2 : AiNodeSet shape "shader" (ParamValue.Ptr a.surfaceShader) w2 with
      | none => simp [h2] at h
      | some w3 =>
        simp only [h2, Option.some_bind] at h
        cases shape with
        | none => exact Option.noConfusion h
        | some n =>
          simp only [Option.some.injEq, Prod.mk.injEq] at h
          exact ⟨n, rfl, h.1.symm⟩

theorem step_transformStack_ne_nil (boxTransform : Box3f → M44f → Box3f) (c : Cmd)
    (r r1 : RendererImplementation) (w w1 : World)
    (h : step boxTransform c r w = some (r1, w1)) (hne : r.m_transformStack ≠ []) :
    r1.m_transformStack ≠ [] := by
  obtain ⟨t, ts, hst⟩ := List.exists_cons_of_ne_nil hne
  have keep : r1.m_transformStack = r.m_transformStack → r1.m_transformStack ≠ [] := by
    intro he
    rw [he]
    exact hne
  cases c
  case curves periodic numVertices primVars =>
    obtain ⟨n, _, hr⟩ := addShape_renderer _ r r1 _ w1 h
    exact keep (by rw [hr])
  case mesh vertsPerFace vertIds interpolation primVars =>
    obtain ⟨n, _, hr⟩ := addShape_renderer _ r r1 _ w1 h
    exact keep (by rw [hr])
  case sphere radius zMin zMax thetaMax primVars =>
    simp only [step, sphere] at h
    generalize (if thetaMax ≠ 360 then
        msg Level.Warning "IECoreArnold::RendererImplementation::sphere"
          "thetaMax not supported"
          (if zMax ≠ 1 then
            msg Level.Warning "IECoreArnold::RendererImplementation::sphere"
              "zMax not supported"
              (if zMin ≠ -1 then
                msg Level.Warning "IECoreArnold::RendererImplementation::sphere"
                  "zMin not supported" w
              else w)
          else (if zMin ≠ -1 then
                msg Level.Warning "IECoreArnold::RendererImplementation::sphere"
                  "zMin not supported" w
              else w))
      else (if zMax ≠ 1 then
            msg Level.Warning "IECoreArnold::RendererImplementation::sphere"
              "zMax not supported"
              (if zMin ≠ -1 then
                msg Level.Warning "IECoreArnold::RendererImplementation::sphere"
                  "zMin not supported" w
              else w)
          else (if zMin ≠ -1 then
                msg Level.Warning "IECoreArnold::RendererImplementation::sphere"
                  "zMin not supported" w
              else w))) = w3 at h
    cases h4 : AiNodeSet (AiNode "sphere" w3).1 "radius" (ParamValue.Flt radius)
        (AiNode "sphere" w3).2 with
    | none => simp [h4] at h
    | some w4 =>
      simp only [h4, Option.some_bind] at h
      obtain ⟨n, _, hr⟩ := addShape_renderer _ r r1 _ w1 h
      exact keep (by rw [hr])
  case procedural bound render =>
    obtain ⟨hs, _⟩ := procedural_effect boxTransform _ r r1 w w1 h
    cases hk : (w.nodeEntries.lookup "procedural").isSome with
    | false => simp [step, procedural, hst, AiNode, hk, AiNodeSet] at h
    | true =>
      cases hat : r.m_attributeStack with
      | nil =>
        simp only [step, procedural, hst, AiNode, hk, if_true, realizeNode] at h
        rw [AiNodeSet_last "min" _ _ w.nodes { entry := "procedural", params := [] }
          w.nodes.length rfl rfl] at h
        simp only [Option.some_bind] at h
        rw [AiNodeSet_last "max" _ _ w.nodes _ w.nodes.length rfl rfl] at h
        simp only [Option.some_bind] at h
        rw [AiNodeSet_last "funcptr" _ _ w.nodes _ w.nodes.length rfl rfl] at h
        simp [createCopy, hst, hat] at h
      | cons a as =>
        have h2 := procedural_cons boxTransform { bound := bound, render := render } r w t ts
          a as hst hat hk
        simp only [step, h2, Option.some.injEq, Prod.mk.injEq] at h
        exact keep (by rw [← h.1])
  case setOption name value =>
    exact keep (by rw [(setOption_effect name value r r1 w w1 h).1])
  case camera name parameters =>
    exact keep (by rw [(camera_effect name parameters r r1 w w1 h).1])
  case worldEnd =>
    exact keep (by rw [(worldEnd_effect r r1 w w1 h).1])
  case display name type data parameters =>
    simp only [step, display] at h
    cases hs : (AiNode type w).1 with
    | none =>
      have hp : AiNode type w = (none, (AiNode type w).2) := by rw [← hs]
      rw [hp] at h
      simp only [Option.some.injEq, Prod.mk.injEq] at h
      exact keep (by rw [← h.1])
    | some n =>
      have hp : AiNode type w = (some n, (AiNode type w).2) := by rw [← hs]
      rw [hp] at h
      simp only at h
      cases h1 : AiNodeSet (some n) "name"
          (ParamValue.Str (displayNodeName r.m_outputDescriptions.length)) (AiNode type w).2 with
      | none => simp [h1] at h
      | some w2 =>
        simp only [h1, Option.some_bind] at h
        cases h3 : (if nodeHasParameter w2 n "filename" = true then
            AiNodeSet (some n) "filename" (ParamValue.Str name) w2 else some w2) with
        | none => simp [h3] at h
        | some w3 =>
          simp only [h3, Option.some_bind] at h
          cases h4 : ToArnoldConverter.setParameters (some n) parameters w3 with
          | none => simp [h4] at h
          | some w4 =>
            simp only [h4, Option.some_bind] at h
            cases h5 : AiNodeGetName r.m_defaultFilter w4 with
            | none => simp [h5] at h
            | some fname =>
              simp only [h5, Option.some_bind, Option.some.injEq, Prod.mk.injEq] at h
              exact keep (by rw [← h.1])
  case worldBegin =>
    cases ts with
    | nil =>
      rw [show step boxTransform Cmd.worldBegin r w = worldBegin r w from rfl,
        worldBegin_closed r w t hst] at h
      simp only [Option.some.injEq, Prod.mk.injEq] at h
      exact keep (by rw [← h.1])
    | cons t2 ts =>
      rw [show step boxTransform Cmd.worldBegin r w = worldBegin r w from rfl,
        worldBegin_open r w t t2 ts hst] at h
      simp only [Option.some.injEq, Prod.mk.injEq] at h
      rw [← h.1]
      exact List.cons_ne_nil _ _
  case transformBegin =>
    have h2 := transformBegin_cons r w t ts hst
    simp only [step, h2, Option.some.injEq, Prod.mk.injEq] at h
    rw [← h.1]
    exact List.cons_ne_nil _ _
  case transformEnd =>
    cases ts with
    | nil =>
      have h2 := transformEnd_guard r w (by simp [hst])
      simp only [step, h2, Option.some.injEq, Prod.mk.injEq] at h
      exact keep (by rw [← h.1])
    | cons t2 ts =>
      have h2 := transformEnd_cons_cons r w t t2 ts hst
      simp only [step, h2, Option.some.injEq, Prod.mk.injEq] at h
      rw [← h.1]
      exact List.cons_ne_nil _ _
  case setTransform m =>
    have h2 := setTransform_cons m r w t ts hst
    simp only [step, h2, Option.some.injEq, Prod.mk.injEq] at h
    rw [← h.1]
    exact List.cons_ne_nil _ _
  case concatTransform m =>
    have h2 := concatTransform_cons m r w t ts hst
    simp only [step, h2, Option.some.injEq, Prod.mk.injEq] at h
    rw [← h.1]
    exact List.cons_ne_nil _ _
  case attributeBegin =>
    cases hat : r.m_attributeStack with
    | nil => simp [step, attributeBegin, transformBegin, hst, hat] at h
    | cons a as =>
      have h2 := attributeBegin_cons r w t ts a as hst hat
      simp only [step, h2, Option.some.injEq, Prod.mk.injEq] at h
      rw [← h.1]
      exact List.cons_ne_nil _ _
  case attributeEnd =>
    cases hat : r.m_attributeStack with
    | nil => simp [step, attributeEnd, hat] at h
    | cons a as =>
      have h2 := attributeEnd_cons r w a as hat
      cases ts with
      | nil =>
        have h3 := transformEnd_guard { r with m_attributeStack := as } w (by simp [hst])
        simp only [step, h2, h3, Option.some.injEq, Prod.mk.injEq] at h
        rw [← h.1]
        exact hne
      | cons t2 ts =>
        have h3 := transformEnd_cons_cons { r with m_attributeStack := as } w t t2 ts hst
        simp only [step, h2, h3, Option.some.injEq, Prod.mk.injEq] at h
        rw [← h.1]
        exact List.cons_ne_nil _ _
  case setAttribute name value =>
    cases hat : r.m_attributeStack with
    | nil => simp [step, setAttribute, hat] at h
    | cons a as =>
      have h2 := setAttribute_cons name value r w a as hat
      simp only [step, h2, Option.some.injEq, Prod.mk.injEq] at h
      exact keep (by rw [← h.1])
  case shader type name parameters =>
    by_cases hty : type = "surface"
    · subst hty
      cases hk : (w.nodeEntries.lookup name).isSome with
      | false =>
        have h2 := shader_surface_refused name parameters r w hk
        simp only [step, h2, Option.some.injEq, Prod.mk.injEq] at h
        exact keep (by rw [← h.1])
      | true =>
        cases hat : r.m_attributeStack with
        | nil =>
          simp only [step, shader, AiNode, hk, realizeNode, if_true] at h
          rw [setParameters_last parameters _ w.nodes { entry := name, params := [] }
            w.nodes.length rfl rfl] at h
          simp [hat] at h
        | cons a as =>
          have h2 := shader_surface_created name parameters r w a as hat hk
          simp only [step, h2, Option.some.injEq, Prod.mk.injEq] at h
          exact keep (by rw [← h.1])
    · have h2 := shader_unsupported type name parameters r w hty
      simp only [step, h2, Option.some.injEq, Prod.mk.injEq] at h
      exact keep (by rw [← h.1])
  all_goals
    exact keep (by rw [(notImplemented_effect _ r r1 w w1 h).1])

theorem run_transformStack_ne_nil (boxTransform : Box3f → M44f → Box3f) (cmds : List Cmd)
    (r r1 : RendererImplementation) (w w1 : World)
    (h : run boxTransform cmds r w = some (r1, w1)) (hne : r.m_transformStack ≠ []) :
    r1.m_transformStack ≠ [] := by
  induction cmds generalizing r w with
  | nil =>
    simp only [run, Option.some.injEq, Prod.mk.injEq] at h
    rw [← h.1]
    exact hne
  | cons c cs ih =>
    simp only [run] at h
    cases hstep : step boxTransform c r w with
    | none => simp [hstep] at h
    | some p =>
      obtain ⟨r2, w2⟩ := p
      simp only [hstep, Option.some_bind] at h
      exact ih r2 w2 h (step_transformStack_ne_nil boxTransform c r r2 w w2 hstep hne)

/-! ## What the two unguarded paths do in general -/

theorem attributeEnd_single (r : RendererImplementation) (w : World) (a : AttributeState)
    (ha : r.m_attributeStack = [a]) :
    ∃ r1 w1, attributeEnd r w = some (r1, w1) ∧ r1.m_attributeStack = [] := by
  rw [attributeEnd_cons r w a [] ha]
  cases hr : transformEnd { r with m_attributeStack := [] } w with
  | none =>
    simp only [transformEnd] at hr
    split at hr <;> exact Option.noConfusion hr
  | some p =>
    obtain ⟨r1, w1⟩ := p
    obtain ⟨_, hat, _⟩ := transformEnd_effect _ r1 w w1 hr
    exact ⟨r1, w1, rfl, hat⟩

theorem worldBegin_outputs (r : RendererImplementation) (w : World)
    (h : r.m_transformStack ≠ []) :
    ∃ r1 w1, worldBegin r w = some (r1, w1) ∧
      r1.m_outputDescriptions = r.m_outputDescriptions ∧
      optionsGetStrArray "outputs" w1 =
        some (setOutputs r.m_outputDescriptions
          (List.replicate r.m_outputDescriptions.length none)) ∧
      (∀ (d : String) (rest : List String), r.m_outputDescriptions = d :: rest →
        optionsGetStrArray "outputs" w1 =
          some (some ((d :: rest).getLast (by simp)) :: List.replicate rest.length none)) := by
  obtain ⟨t, ts, hs⟩ := List.exists_cons_of_ne_nil h
  have hcons : ∀ (d : String) (rest : List String), r.m_outputDescriptions = d :: rest →
      setOutputs r.m_outputDescriptions (List.replicate r.m_outputDescriptions.length none) =
        some ((d :: rest).getLast (by simp)) :: List.replicate rest.length none := by
    intro d rest hd
    rw [hd]
    exact setOutputs_cons d rest none (List.replicate rest.length none)
  cases ts with
  | nil =>
    refine ⟨_, _, worldBegin_closed r w t hs, rfl, outputs_finishedWorld r t w, ?_⟩
    intro d rest hd
    rw [outputs_finishedWorld r t w]
    exact congrArg some (hcons d rest hd)
  | cons t2 ts =>
    refine ⟨_, _, worldBegin_open r w t t2 ts hs, rfl, outputs_finishedWorld r 1 _, ?_⟩
    intro d rest hd
    rw [outputs_finishedWorld r 1 _]
    exact congrArg some (hcons d rest hd)

/-! ## Option routing -/

theorem startsWith_iff (p name : String) :
    p.toList.isPrefixOf name.toList = true ↔ ∃ rest : String, name = p ++ rest := by
  rw [List.isPrefixOf_iff_prefix]
  constructor
  · rintro ⟨t, ht⟩
    exact ⟨String.mk t, String.ext (by simpa using ht.symm)⟩
  · rintro ⟨rest, rfl⟩
    exact ⟨rest.toList, by simp⟩

theorem drop_three_ai (rest : String) :
    String.mk (("ai:" ++ rest).toList.drop 3) = rest := by
  apply String.ext
  show (("ai:" ++ rest).data.drop 3) = rest.data
  rw [String.data_append]
  rfl

theorem colon_mem_of_startsWith (p name : String) (hp : ':' ∈ p.toList)
    (h : p.toList.isPrefixOf name.toList = true) : name.toList.contains ':' = true := by
  obtain ⟨rest, rfl⟩ := (startsWith_iff p name).mp h
  simp only [List.contains_iff_exists_mem_beq]
  exact ⟨':', List.mem_append_left _ hp, by simp⟩

theorem not_ai_of_user (name : String) (h : "user:".toList.isPrefixOf name.toList = true) :
    "ai:".toList.isPrefixOf name.toList = false := by
  obtain ⟨rest, rfl⟩ := (startsWith_iff "user:" name).mp h
  rfl

theorem options_setOptionsParameter (key : String) (value : Data) (w : World) :
    (ToArnoldConverter.setOptionsParameter key value w).options.params.lookup key =
      some (ParamValue.Converted value) ∧
    (∀ other, other ≠ key →
      (ToArnoldConverter.setOptionsParameter key value w).options.params.lookup other =
        w.options.params.lookup other) ∧
    (ToArnoldConverter.setOptionsParameter key value w).msgs = w.msgs ∧
    (ToArnoldConverter.setOptionsParameter key value w).nodes = w.nodes := by
  refine ⟨?_, ?_, rfl, rfl⟩
  · simp only [ToArnoldConverter.setOptionsParameter, optionsSet]
    rw [lookup_setParam_self]
  · intro other ho
    simp only [ToArnoldConverter.setOptionsParameter, optionsSet]
    rw [lookup_setParam_ne _ _ _ _ ho]

/-- C11. For every name and value, setOption leaves the renderer as it is and: (1) when
name is "ai:" followed by rest and the options node entry declares a parameter rest, the
value is stored on the options node under rest, the other option values are kept and
nothing is logged; when the entry declares no such parameter, the world is unchanged but
for one "Unknown option" warning; (2) when name starts with "user:", the value is stored
under the whole name, the other option values are kept and nothing is logged; (3) when
name starts with neither and holds a ':', the world is unchanged; (4) when name holds
no ':', the world is unchanged but for one "Unknown option" warning. -/
theorem setOption_routing (name : String) (value : Data) (r : RendererImplementation)
    (w : World) :
    (∀ rest : String, name = "ai:" ++ rest →
      (entryHasParameter w w.options.entry rest = true →
        ∃ w1, setOption name value r w = some (r, w1) ∧
          w1.options.params.lookup rest = some (ParamValue.Converted value) ∧
          (∀ other, other ≠ rest →
            w1.options.params.lookup other = w.options.params.lookup other) ∧
          w1.msgs = w.msgs ∧ w1.nodes = w.nodes) ∧
      (entryHasParameter w w.options.entry rest = false →
        setOption name value r w = some (r, { w with msgs := w.msgs ++
          [{ level := Level.Warning,
             context := "IECoreArnold::RendererImplementation::setOption",
             text := "Unknown option \"" ++ name ++ "\"." }] }))) ∧
    (∀ rest : String, name = "user:" ++ rest →
      ∃ w1, setOption name value r w = some (r, w1) ∧
        w1.options.params.lookup name = some (ParamValue.Converted value) ∧
        (∀ other, other ≠ name →
          w1.options.params.lookup other = w.options.params.lookup other) ∧
        w1.msgs = w.msgs ∧ w1.nodes = w.nodes) ∧
    ((∀ rest : String, name ≠ "ai:" ++ rest) → (∀ rest : String, name ≠ "user:" ++ rest) →
      ':' ∈ name.toList → setOption name value r w = some (r, w)) ∧
    (':' ∉ name.toList →
      setOption name value r w = some (r, { w with msgs := w.msgs ++
        [{ level := Level.Warning,
           context := "IECoreArnold::RendererImplementation::setOption",
           text := "Unknown option \"" ++ name ++ "\"." }] })) := by
  refine ⟨?_, ?_, ?_, ?_⟩
  · intro rest hname
    have hai : "ai:".toList.isPrefixOf name.toList = true :=
      (startsWith_iff "ai:" name).mpr ⟨rest, hname⟩
    have hdrop : String.mk (name.toList.drop 3) = rest := by
      rw [hname]
      exact drop_three_ai rest
    constructor
    · intro hhas
      obtain ⟨h1, h2, h3, h4⟩ := options_setOptionsParameter rest value w
      refine ⟨_, ?_, h1, h2, h3, h4⟩
      simp only [setOption, hai, if_true, hdrop, hhas]
    · intro hhas
      simp only [setOption, hai, if_true, hdrop, hhas, Bool.false_eq_true, if_false, msg]
  · intro rest hname
    have huser : "user:".toList.isPrefixOf name.toList = true :=
      (startsWith_iff "user:" name).mpr ⟨rest, hname⟩
    have hai := not_ai_of_user name huser
    obtain ⟨h1, h2, h3, h4⟩ := options_setOptionsParameter name value w
    refine ⟨_, ?_, h1, h2, h3, h4⟩
    simp only [setOption, hai, Bool.false_eq_true, if_false, huser, if_true]
  · intro hnai hnuser hcolon
    have hai : "ai:".toList.isPrefixOf name.toList = false := by
      cases h : "ai:".toList.isPrefixOf name.toList
      · rfl
      · obtain ⟨rest, hr⟩ := (startsWith_iff "ai:" name).mp h
        exact absurd hr (hnai rest)
    have huser : "user:".toList.isPrefixOf name.toList = false := by
      cases h : "user:".toList.isPrefixOf name.toList
      · rfl
      · obtain ⟨rest, hr⟩ := (startsWith_iff "user:" name).mp h
        exact absurd hr (hnuser rest)
    have hc : name.toList.contains ':' = true := by
      simp only [List.contains_iff_exists_mem_beq]
      exact ⟨':', hcolon, by simp⟩
    simp only [setOption, hai, huser, Bool.false_eq_true, if_false, hc, if_true]
  · intro hcolon
    have hc : name.toList.contains ':' = false := by
      cases h : name.toList.contains ':'
      · rfl
      · simp only [List.contains_iff_exists_mem_beq] at h
        obtain ⟨c, hmem, hbeq⟩ := h
        have : ':' = c := by simpa using hbeq
        subst this
        exact absurd hmem hcolon
    have hai : "ai:".toList.isPrefixOf name.toList = false := by
      cases h : "ai:".toList.isPrefixOf name.toList
      · rfl
      · have := colon_mem_of_startsWith "ai:" name (by decide) h
        rw [hc] at this
        exact Bool.noConfusion this
    have huser : "user:".toList.isPrefixOf name.toList = false := by
      cases h : "user:".toList.isPrefixOf name.toList
      · rfl
      · have := colon_mem_of_startsWith "user:" name (by decide) h
        rw [hc] at this
        exact Bool.noConfusion this
    simp only [setOption, hai, huser, Bool.false_eq_true, if_false, hc, msg]

theorem setOption_routing_witness :
    (∃ w1, setOption "ai:AA_samples" (Data.IntData 4) demoRenderer demoStart =
        some (demoRenderer, w1) ∧
      w1.options.params.lookup "AA_samples" = some (ParamValue.Converted (Data.IntData 4)) ∧
      (∀ other, other ≠ "AA_samples" →
        w1.options.params.lookup other = demoStart.options.params.lookup other) ∧
      w1.msgs = demoStart.msgs ∧ w1.nodes = demoStart.nodes) ∧
    setOption "ai:no_such_parameter" (Data.IntData 4) demoRenderer demoStart =
      some (demoRenderer, { demoStart with msgs := demoStart.msgs ++
        [{ level := Level.Warning,
           context := "IECoreArnold::RendererImplementation::setOption",
           text := "Unknown option \"" ++ "ai:no_such_parameter" ++ "\"." }] }) ∧
    (∃ w1, setOption "user:shot" (Data.StringData "A12") demoRenderer demoStart =
        some (demoRenderer, w1) ∧
      w1.options.params.lookup "user:shot" =
        some (ParamValue.Converted (Data.StringData "A12")) ∧
      (∀ other, other ≠ "user:shot" →
        w1.options.params.lookup other = demoStart.options.params.lookup other) ∧
      w1.msgs = demoStart.msgs ∧ w1.nodes = demoStart.nodes) ∧
    setOption "ri:pixelSamples" (Data.V2iData 2 2) demoRenderer demoStart =
      some (demoRenderer, demoStart) ∧
    setOption "searchPath" (Data.StringData "/tmp") demoRenderer demoStart =
      some (demoRenderer, { demoStart with msgs := demoStart.msgs ++
        [{ level := Level.Warning,
           context := "IECoreArnold::RendererImplementation::setOption",
           text := "Unknown option \"" ++ "searchPath" ++ "\"." }] }) :=
  ⟨((setOption_routing "ai:AA_samples" (Data.IntData 4) demoRenderer demoStart).1
      "AA_samples" rfl).1 rfl,
   ((setOption_routing "ai:no_such_parameter" (Data.IntData 4) demoRenderer demoStart).1
      "no_such_parameter" rfl).2 rfl,
   (setOption_routing "user:shot" (Data.StringData "A12") demoRenderer demoStart).2.1
      "shot" rfl,
   (setOption_routing "ri:pixelSamples" (Data.V2iData 2 2) demoRenderer demoStart).2.2.1
      (fun rest h => by
        have := congrArg String.data h
        simp at this)
      (fun rest h => by
        have := congrArg String.data h
        simp at this)
      (by decide),
   (setOption_routing "searchPath" (Data.StringData "/tmp") demoRenderer demoStart).2.2.2
      (by decide)⟩

/-! ## Unsupported operations and sphere -/

theorem sphere_cons (radius zMin zMax thetaMax : ℚ) (primVars : CompoundDataMap)
    (r : RendererImplementation) (w : World) (t : M44f) (ts : List M44f)
    (a : AttributeState) (as : List AttributeState) (ht : r.m_transformStack = t :: ts)
    (ha : r.m_attributeStack = a :: as)
    (hk : (w.nodeEntries.lookup "sphere").isSome = true) :
    sphere radius zMin zMax thetaMax primVars r w =
      some ({ r with m_shapes := r.m_shapes ++ [w.nodes.length] },
        { w with
          nodes := w.nodes ++ [sphereNode radius t a.surfaceShader]
          msgs := w.msgs ++ sphereWarnings zMin zMax thetaMax }) := by
  have hw3 : (if thetaMax ≠ 360 then
      msg Level.Warning "IECoreArnold::RendererImplementation::sphere" "thetaMax not supported"
        (if zMax ≠ 1 then
          msg Level.Warning "IECoreArnold::RendererImplementation::sphere" "zMax not supported"
            (if zMin ≠ -1 then
              msg Level.Warning "IECoreArnold::RendererImplementation::sphere"
                "zMin not supported" w
            else w)
        else (if zMin ≠ -1 then
              msg Level.Warning "IECoreArnold::RendererImplementation::sphere"
                "zMin not supported" w
            else w))
    else (if zMax ≠ 1 then
          msg Level.Warning "IECoreArnold::RendererImplementation::sphere" "zMax not supported"
            (if zMin ≠ -1 then
              msg Level.Warning "IECoreArnold::RendererImplementation::sphere"
                "zMin not supported" w
            else w)
        else (if zMin ≠ -1 then
              msg Level.Warning "IECoreArnold::RendererImplementation::sphere"
                "zMin not supported" w
            else w))) = { w with msgs := w.msgs ++ sphereWarnings zMin zMax thetaMax } := by
    by_cases h1 : zMin = -1 <;> by_cases h2 : zMax = 1 <;> by_cases h3 : thetaMax = 360 <;>
      simp [h1, h2, h3, msg, sphereWarnings]
  simp only [sphere]
  rw [hw3]
  simp only [AiNode, hk, if_true, realizeNode]
  rw [AiNodeSet_last "radius" _ _ w.nodes { entry := "sphere", params := [] } w.nodes.length
    rfl rfl]
  simp only [Option.some_bind, addShape, applyTransformToNode, ht, ha]
  rw [AiNodeSet_last "matrix" _ _ w.nodes _ w.nodes.length rfl rfl]
  simp only [Option.some_bind]
  rw [AiNodeSet_last "shader" _ _ w.nodes _ w.nodes.length rfl rfl]
  simp only [Option.some_bind, sphereNode]
  rfl

/-- C12, the claim fails for sphere: on the freshly constructed session, a whole sphere of
radius 1 creates a node, which becomes the one shape of the registry, and logs nothing. -/
theorem sphere_creates_a_shape :
    ∃ r1 w1, sphere 1 (-1) 1 360 [] demoRenderer demoStart = some (r1, w1) ∧
      r1.m_shapes = [2] ∧ r1.m_shapes ≠ demoRenderer.m_shapes ∧
      w1.nodes.length = demoStart.nodes.length + 1 ∧
      (w1.nodes[2]?).map Node.entry = some "sphere" ∧
      w1.msgs = demoStart.msgs ∧ w1.msgs = [] := by
  have h := sphere_cons 1 (-1) 1 360 [] demoRenderer demoStart 1 []
    { surfaceShader := some 1, attributes := [] } [] rfl rfl
    (by simp [demoStart, demoWorld])
  have hw : sphereWarnings (-1) 1 360 = [] := by simp [sphereWarnings]
  rw [hw] at h
  exact ⟨_, _, h, rfl, by simp [demoRenderer, demoStart], by simp [demoStart],
    by simp [demoStart, sphereNode], by simp [demoStart], by simp [demoStart, demoWorld]⟩

/-- C12 as amended. For every session state and every argument, each of light,
illuminate, instanceBegin, instanceEnd, instance, points, disk, text, image, nurbs,
patchMesh, geometry, setTransform( name ), getTransform( name ), coordinateSystem,
motionBegin, motionEnd and command succeeds, leaves the transform stack, the attribute
stack, the shape registry and the output descriptions as they are, creates no node,
leaves the options node and the descriptors as they are, and logs exactly one message, a
warning; getTransform( name ) returns the identity. The sphere call is not one of them:
with both stacks non-empty and "sphere" a node entry of Arnold, it creates one "sphere"
node carrying the radius, appends it to the shape registry, leaves the stacks and the
output descriptions as they are, and logs one warning for each of zMin other than -1,
zMax other than 1 and thetaMax other than 360, and nothing else. -/
theorem unsupported_operations_warn_only (r : RendererImplementation) (w : World)
    (name handle font txt type coordSys : String) (parameters topology primVars : CompoundDataMap)
    (isOn : Bool) (times : List ℚ) (numPoints : Nat) (radius z zMin zMax thetaMax kerning : ℚ)
    (uOrder vOrder nu nv : Int) :
    (∀ res ∈ [light name handle parameters r w, illuminate handle isOn r w,
        instanceBegin name parameters r w, instanceEnd r w, instance_ name r w,
        points numPoints primVars r w, disk radius z thetaMax primVars r w,
        text font txt kerning primVars r w, image primVars r w,
        nurbs uOrder vOrder primVars r w, patchMesh nu nv primVars r w,
        geometry type topology primVars r w, setTransformNamed coordSys r w,
        some (r, (getTransformNamed coordSys r w).2), coordinateSystem name r w,
        motionBegin times r w, motionEnd r w, command name parameters r w],
      ∃ r1 w1 m, res = some (r1, w1) ∧
        r1.m_transformStack = r.m_transformStack ∧
        r1.m_attributeStack = r.m_attributeStack ∧
        r1.m_shapes = r.m_shapes ∧
        r1.m_outputDescriptions = r.m_outputDescriptions ∧
        w1.nodes = w.nodes ∧ w1.options = w.options ∧ w1.procData = w.procData ∧
        m.level = Level.Warning ∧ w1.msgs = w.msgs ++ [m]) ∧
    (getTransformNamed coordSys r w).1 = (1 : M44f) ∧
    (r.m_transformStack ≠ [] → r.m_attributeStack ≠ [] →
      (AiNode "sphere" w).1.isSome = true →
      ∃ r1 w1, sphere radius zMin zMax thetaMax primVars r w = some (r1, w1) ∧
        r1.m_shapes = r.m_shapes ++ [w.nodes.length] ∧
        r1.m_transformStack = r.m_transformStack ∧
        r1.m_attributeStack = r.m_attributeStack ∧
        r1.m_outputDescriptions = r.m_outputDescriptions ∧
        w1.nodes.length = w.nodes.length + 1 ∧
        (w1.nodes[w.nodes.length]?).map Node.entry = some "sphere" ∧
        nodeParam w.nodes.length "radius" w1 = some (ParamValue.Flt radius) ∧
        w1.msgs = w.msgs ++
          ((if zMin ≠ -1 then
            [{ level := Level.Warning,
               context := "IECoreArnold::RendererImplementation::sphere",
               text := "zMin not supported" }] else []) ++
          (if zMax ≠ 1 then
            [{ level := Level.Warning,
               context := "IECoreArnold::RendererImplementation::sphere",
               text := "zMax not supported" }] else []) ++
          (if thetaMax ≠ 360 then
            [{ level := Level.Warning,
               context := "IECoreArnold::RendererImplementation::sphere",
               text := "thetaMax not supported" }] else []))) := by
  refine ⟨?_, rfl, ?_⟩
  · intro res hres
    have key : ∀ context : String, ∃ r1 w1 m,
        some (r, msg Level.Warning context "Not implemented" w) = some (r1, w1) ∧
        r1.m_transformStack = r.m_transformStack ∧
        r1.m_attributeStack = r.m_attributeStack ∧
        r1.m_shapes = r.m_shapes ∧
        r1.m_outputDescriptions = r.m_outputDescriptions ∧
        w1.nodes = w.nodes ∧ w1.options = w.options ∧ w1.procData = w.procData ∧
        m.level = Level.Warning ∧ w1.msgs = w.msgs ++ [m] :=
      fun context => ⟨r, _, Message.mk Level.Warning context "Not implemented",
        rfl, rfl, rfl, rfl, rfl, rfl, rfl, rfl, rfl, rfl⟩
    simp only [List.mem_cons, List.mem_singleton, List.not_mem_nil, or_false] at hres
    rcases hres with h | h | h | h | h | h | h | h | h | h | h | h | h | h | h | h | h | h <;>
      (rw [h]; exact key _)
  · intro ht ha hk
    obtain ⟨t, ts, hts⟩ := List.exists_cons_of_ne_nil ht
    obtain ⟨a, as, has⟩ := List.exists_cons_of_ne_nil ha
    have hk2 : (w.nodeEntries.lookup "sphere").isSome = true := by
      cases h : (w.nodeEntries.lookup "sphere").isSome
      · simp [AiNode, h] at hk
      · rfl
    refine ⟨_, _, sphere_cons radius zMin zMax thetaMax primVars r w t ts a as hts has hk2,
      rfl, rfl, rfl, rfl, by simp, by simp [sphereNode], ?_, rfl⟩
    simp only [nodeParam, List.getElem?_concat_length, Option.some_bind, sphereNode]
    rw [lookup_setParam_ne _ _ _ _ (by decide), lookup_setParam_ne _ _ _ _ (by decide),
      lookup_setParam_self]

theorem unsupported_operations_warn_only_witness :
    (∃ r1 w1 m, light "pointlight" "key" [] demoRenderer demoStart = some (r1, w1) ∧
        r1.m_transformStack = demoRenderer.m_transformStack ∧
        r1.m_attributeStack = demoRenderer.m_attributeStack ∧
        r1.m_shapes = demoRenderer.m_shapes ∧
        r1.m_outputDescriptions = demoRenderer.m_outputDescriptions ∧
        w1.nodes = demoStart.nodes ∧ w1.options = demoStart.options ∧
        w1.procData = demoStart.procData ∧
        m.level = Level.Warning ∧ w1.msgs = demoStart.msgs ++ [m]) ∧
    (getTransformNamed "world" demoRenderer demoStart).1 = (1 : M44f) ∧
    (∃ r1 w1, sphere 2 0 1 360 [] demoRenderer demoStart = some (r1, w1) ∧
        r1.m_shapes = demoRenderer.m_shapes ++ [demoStart.nodes.length] ∧
        r1.m_transformStack = demoRenderer.m_transformStack ∧
        r1.m_attributeStack = demoRenderer.m_attributeStack ∧
        r1.m_outputDescriptions = demoRenderer.m_outputDescriptions ∧
        w1.nodes.length = demoStart.nodes.length + 1 ∧
        (w1.nodes[demoStart.nodes.length]?).map Node.entry = some "sphere" ∧
        nodeParam demoStart.nodes.length "radius" w1 = some (ParamValue.Flt 2) ∧
        w1.msgs = demoStart.msgs ++
          ((if (0 : ℚ) ≠ -1 then
            [{ level := Level.Warning,
               context := "IECoreArnold::RendererImplementation::sphere",
               text := "zMin not supported" }] else []) ++
          (if (1 : ℚ) ≠ 1 then
            [{ level := Level.Warning,
               context := "IECoreArnold::RendererImplementation::sphere",
               text := "zMax not supported" }] else []) ++
          (if (360 : ℚ) ≠ 360 then
            [{ level := Level.Warning,
               context := "IECoreArnold::RendererImplementation::sphere",
               text := "thetaMax not supported" }] else []))) :=
  ⟨(unsupported_operations_warn_only demoRenderer demoStart "pointlight" "key" "" "" "" "world"
      [] [] [] true [] 0 2 0 0 1 360 0 0 0 0 0).1 _ (List.mem_cons_self _ _),
   (unsupported_operations_warn_only demoRenderer demoStart "pointlight" "key" "" "" "" "world"
      [] [] [] true [] 0 2 0 0 1 360 0 0 0 0 0).2.1,
   (unsupported_operations_warn_only demoRenderer demoStart "pointlight" "key" "" "" "" "world"
      [] [] [] true [] 0 2 0 0 1 360 0 0 0 0 0).2.2
      (by simp [demoRenderer]) (by simp [demoRenderer])
      (by simp [AiNode, demoStart, demoWorld])⟩

/-! ## The message log is written and never read -/

theorem msg_prepended (ms : List Message) (l : Level) (c t : String) (w : World) :
    msg l c t (prependMsgs ms w) = prependMsgs ms (msg l c t w) := by
  simp [msg, prependMsgs, List.append_assoc]

theorem AiNode_prepended (ms : List Message) (name : String) (w : World) :
    AiNode name (prependMsgs ms w) = ((AiNode name w).1, prependMsgs ms (AiNode name w).2) := by
  unfold AiNode
  cases h : (w.nodeEntries.lookup name).isSome
  · simp only [prependMsgs, h, Bool.false_eq_true, if_false]
  · simp only [prependMsgs, h, if_true]
    rfl

theorem AiNodeSet_prepended (ms : List Message) (node : Option AtNode) (name : String)
    (v : ParamValue) (w : World) :
    AiNodeSet node name v (prependMsgs ms w) = (AiNodeSet node name v w).map (prependMsgs ms) := by
  cases node with
  | none => rfl
  | some n =>
    simp only [AiNodeSet, prependMsgs]
    cases w.nodes[n]? with
    | none => rfl
    | some nd => rfl

theorem setParameters_prepended (ms : List Message) (node : Option AtNode)
    (ps : CompoundDataMap) (w : World) :
    ToArnoldConverter.setParameters node ps (prependMsgs ms w) =
      (ToArnoldConverter.setParameters node ps w).map (prependMsgs ms) := by
  induction ps generalizing w with
  | nil => rfl
  | cons kv rest ih =>
    obtain ⟨k, v⟩ := kv
    simp only [ToArnoldConverter.setParameters, ToArnoldConverter.setParameter,
      AiNodeSet_prepended]
    cases AiNodeSet node k (ParamValue.Converted v) w with
    | none => rfl
    | some w1 => simp [ih]

theorem applyTransformToNode_prepended (ms : List Message) (node : Option AtNode)
    (r : RendererImplementation) (w : World) :
    applyTransformToNode node r (prependMsgs ms w) =
      (applyTransformToNode node r w).map (prependMsgs ms) := by
  simp only [applyTransformToNode]
  cases r.m_transformStack with
  | nil => rfl
  | cons t ts => exact AiNodeSet_prepended ms node _ _ w

theorem addShape_prepended (ms : List Message) (shape : Option AtNode)
    (r : RendererImplementation) (w : World) :
    addShape shape r (prependMsgs ms w) = (addShape shape r w).map (withPrepended ms) := by
  simp only [addShape, applyTransformToNode_prepended]
  cases applyTransformToNode shape r w with
  | none => rfl
  | some w1 =>
    simp only [Option.map_some', Option.some_bind]
    cases r.m_attributeStack with
    | nil => rfl
    | cons a as =>
      simp only [AiNodeSet_prepended]
      cases AiNodeSet shape "shader" (ParamValue.Ptr a.surfaceShader) w1 with
      | none => rfl
      | some w2 =>
        cases shape with
        | none => rfl
        | some n => rfl

theorem notImplemented_prepended (ms : List Message) (context : String)
    (r : RendererImplementation) (w : World) :
    notImplemented context r (prependMsgs ms w) =
      (notImplemented context r w).map (withPrepended ms) := by
  simp [notImplemented, msg_prepended, withPrepended]

theorem setOption_prepended (ms : List Message) (name : String) (value : Data)
    (r : RendererImplementation) (w : World) :
    setOption name value r (prependMsgs ms w) =
      (setOption name value r w).map (withPrepended ms) := by
  have he : ∀ key, entryHasParameter (prependMsgs ms w) (prependMsgs ms w).options.entry key =
      entryHasParameter w w.options.entry key := fun _ => rfl
  simp only [setOption, he, msg_prepended]
  split
  · split <;> rfl
  · split
    · rfl
    · split <;> rfl

theorem worldEnd_prepended (ms : List Message) (r : RendererImplementation) (w : World) :
    worldEnd r (prependMsgs ms w) = (worldEnd r w).map (withPrepended ms) := by
  simp only [worldEnd]
  split
  · rfl
  · split <;> rfl

theorem transformBegin_prepended (ms : List Message) (r : RendererImplementation)
    (w : World) :
    transformBegin r (prependMsgs ms w) = (transformBegin r w).map (withPrepended ms) := by
  simp only [transformBegin]
  cases r.m_transformStack <;> rfl

theorem transformEnd_prepended (ms : List Message) (r : RendererImplementation) (w : World) :
    transformEnd r (prependMsgs ms w) = (transformEnd r w).map (withPrepended ms) := by
  simp only [transformEnd, msg_prepended]
  split <;> rfl

theorem setTransform_prepended (ms : List Message) (m : M44f) (r : RendererImplementation)
    (w : World) :
    setTransform m r (prependMsgs ms w) = (setTransform m r w).map (withPrepended ms) := by
  simp only [setTransform]
  cases r.m_transformStack <;> rfl

theorem concatTransform_prepended (ms : List Message) (m : M44f)
    (r : RendererImplementation) (w : World) :
    concatTransform m r (prependMsgs ms w) =
      (concatTransform m r w).map (withPrepended ms) := by
  simp only [concatTransform]
  cases r.m_transformStack <;> rfl

theorem attributeBegin_prepended (ms : List Message) (r : RendererImplementation)
    (w : World) :
    attributeBegin r (prependMsgs ms w) = (attributeBegin r w).map (withPrepended ms) := by
  simp only [attributeBegin, transformBegin]
  cases r.m_transformStack with
  | nil => rfl
  | cons t ts =>
    simp only [Option.some_bind]
    cases r.m_attributeStack <;> rfl

theorem attributeEnd_prepended (ms : List Message) (r : RendererImplementation) (w : World) :
    attributeEnd r (prependMsgs ms w) = (attributeEnd r w).map (withPrepended ms) := by
  simp only [attributeEnd]
  cases r.m_attributeStack with
  | nil => rfl
  | cons a as => exact transformEnd_prepended ms _ w

theorem setAttribute_prepended (ms : List Message) (name : String) (value : Data)
    (r : RendererImplementation) (w : World) :
    setAttribute name value r (prependMsgs ms w) =
      (setAttribute name value r w).map (withPrepended ms) := by
  simp only [setAttribute]
  cases r.m_attributeStack <;> rfl

theorem shader_prepended (ms : List Message) (type name : String)
    (parameters : CompoundDataMap) (r : RendererImplementation) (w : World) :
    shader type name parameters r (prependMsgs ms w) =
      (shader type name parameters r w).map (withPrepended ms) := by
  simp only [shader, AiNode_prepended, msg_prepended]
  split
  · cases hs : (AiNode name w).1 with
    | none =>
      have hp : AiNode name w = (none, (AiNode name w).2) := by rw [← hs]
      rw [hp]
      simp only [msg_prepended]
      rfl
    | some n =>
      have hp : AiNode name w = (some n, (AiNode name w).2) := by rw [← hs]
      rw [hp]
      simp only [setParameters_prepended]
      cases ToArnoldConverter.setParameters (some n) parameters (AiNode name w).2 with
      | none => rfl
      | some w2 =>
        simp only [Option.map_some', Option.some_bind]
        cases r.m_attributeStack <;> rfl
  · rfl

theorem curves_prepended (ms : List Message) (periodic : Bool) (numVertices : List Int)
    (primVars : CompoundDataMap) (r : RendererImplementation) (w : World) :
    curves periodic numVertices primVars r (prependMsgs ms w) =
      (curves periodic numVertices primVars r w).map (withPrepended ms) := by
  show addShape (some w.nodes.length) r
      (prependMsgs ms (ToArnoldCurvesConverter.convert numVertices w).2) = _
  rw [addShape_prepended]
  rfl

theorem mesh_prepended (ms : List Message) (vertsPerFace vertIds : List Int)
    (interpolation : String) (primVars : CompoundDataMap) (r : RendererImplementation)
    (w : World) :
    mesh vertsPerFace vertIds interpolation primVars r (prependMsgs ms w) =
      (mesh vertsPerFace vertIds interpolation primVars r w).map (withPrepended ms) := by
  show addShape (some w.nodes.length) r
      (prependMsgs ms (ToArnoldMeshConverter.convert vertsPerFace vertIds w).2) = _
  rw [addShape_prepended]
  rfl

theorem camera_prepended (ms : List Message) (name : String) (parameters : CompoundDataMap)
    (r : RendererImplementation) (w : World) :
    camera name parameters r (prependMsgs ms w) =
      (camera name parameters r w).map (withPrepended ms) := by
  cases hst : r.m_transformStack with
  | nil => simp [camera, applyTransformToNode, hst]
  | cons t ts =>
    rw [camera_cons name parameters r w t ts hst,
      camera_cons name parameters r (prependMsgs ms w) t ts hst]
    rfl

theorem display_prepended (ms : List Message) (name type data : String)
    (parameters : CompoundDataMap) (r : RendererImplementation) (w : World) :
    display name type data parameters r (prependMsgs ms w) =
      (display name type data parameters r w).map (withPrepended ms) := by
  simp only [display, AiNode_prepended]
  cases hs : (AiNode type w).1 with
  | none =>
    have hp : AiNode type w = (none, (AiNode type w).2) := by rw [← hs]
    rw [hp]
    simp only [msg_prepended]
    rfl
  | some n =>
    have hp : AiNode type w = (some n, (AiNode type w).2) := by rw [← hs]
    rw [hp]
    simp only [AiNodeSet_prepended]
    cases AiNodeSet (some n) "name"
        (ParamValue.Str (displayNodeName r.m_outputDescriptions.length)) (AiNode type w).2 with
    | none => rfl
    | some w1 =>
      simp only [Option.map_some', Option.some_bind]
      have hhas : nodeHasParameter (prependMsgs ms w1) n "filename" =
          nodeHasParameter w1 n "filename" := rfl
      rw [hhas]
      have hfile : (if nodeHasParameter w1 n "filename" = true then
            AiNodeSet (some n) "filename" (ParamValue.Str name) (prependMsgs ms w1)
          else some (prependMsgs ms w1)) =
          (if nodeHasParameter w1 n "filename" = true then
            AiNodeSet (some n) "filename" (ParamValue.Str name) w1
          else some w1).map (prependMsgs ms) := by
        split
        · exact AiNodeSet_prepended ms _ _ _ w1
        · rfl
      rw [hfile]
      cases (if nodeHasParameter w1 n "filename" = true then
            AiNodeSet (some n) "filename" (ParamValue.Str name) w1
          else some w1) with
      | none => rfl
      | some w2 =>
        simp only [Option.map_some', Option.some_bind, setParameters_prepended]
        cases ToArnoldConverter.setParameters (some n) parameters w2 with
        | none => rfl
        | some w3 =>
          simp only [Option.map_some', Option.some_bind]
          have hname : AiNodeGetName r.m_defaultFilter (prependMsgs ms w3) =
              AiNodeGetName r.m_defaultFilter w3 := rfl
          rw [hname]
          cases AiNodeGetName r.m_defaultFilter w3 with
          | none => rfl
          | some fname => rfl

theorem finishedWorld_prepended (ms : List Message) (r : RendererImplementation) (t : M44f)
    (w : World) :
    finishedWorld r t (prependMsgs ms w) = prependMsgs ms (finishedWorld r t w) := by
  have hc : optionsGetPtr "camera" (prependMsgs ms w) = optionsGetPtr "camera" w := rfl
  simp only [finishedWorld, hc]
  split <;> rfl

theorem worldBegin_prepended (ms : List Message) (r : RendererImplementation) (w : World) :
    worldBegin r (prependMsgs ms w) = (worldBegin r w).map (withPrepended ms) := by
  cases hst : r.m_transformStack with
  | nil =>
    have hc : optionsGetPtr "camera" (prependMsgs ms w) = optionsGetPtr "camera" w := rfl
    simp only [worldBegin, hst, List.length_nil, gt_iff_lt, Nat.not_lt_zero, if_false,
      Option.some_bind, hc]
    split
    · simp [camera, applyTransformToNode, hst]
    · rfl
  | cons t ts =>
    cases ts with
    | nil =>
      rw [worldBegin_closed r w t hst, worldBegin_closed r (prependMsgs ms w) t hst,
        finishedWorld_prepended]
      rfl
    | cons t2 ts =>
      rw [worldBegin_open r w t t2 ts hst, worldBegin_open r (prependMsgs ms w) t t2 ts hst,
        msg_prepended, finishedWorld_prepended]
      rfl

theorem sphere_warned (zMin zMax thetaMax : ℚ) (w : World) :
    (if thetaMax ≠ 360 then
      msg Level.Warning "IECoreArnold::RendererImplementation::sphere" "thetaMax not supported"
        (if zMax ≠ 1 then
          msg Level.Warning "IECoreArnold::RendererImplementation::sphere" "zMax not supported"
            (if zMin ≠ -1 then
              msg Level.Warning "IECoreArnold::RendererImplementation::sphere"
                "zMin not supported" w
            else w)
        else (if zMin ≠ -1 then
              msg Level.Warning "IECoreArnold::RendererImplementation::sphere"
                "zMin not supported" w
            else w))
    else (if zMax ≠ 1 then
          msg Level.Warning "IECoreArnold::RendererImplementation::sphere" "zMax not supported"
            (if zMin ≠ -1 then
              msg Level.Warning "IECoreArnold::RendererImplementation::sphere"
                "zMin not supported" w
            else w)
        else (if zMin ≠ -1 then
              msg Level.Warning "IECoreArnold::RendererImplementation::sphere"
                "zMin not supported" w
            else w))) = { w with msgs := w.msgs ++ sphereWarnings zMin zMax thetaMax } := by
  by_cases h1 : zMin = -1 <;> by_cases h2 : zMax = 1 <;> by_cases h3 : thetaMax = 360 <;>
    simp [h1, h2, h3, msg, sphereWarnings]

theorem sphere_prepended (ms : List Message) (radius zMin zMax thetaMax : ℚ)
    (primVars : CompoundDataMap) (r : RendererImplementation) (w : World) :
    sphere radius zMin zMax thetaMax primVars r (prependMsgs ms w) =
      (sphere radius zMin zMax thetaMax primVars r w).map (withPrepended ms) := by
  simp only [sphere]
  rw [sphere_warned zMin zMax thetaMax w, sphere_warned zMin zMax thetaMax (prependMsgs ms w)]
  have hw : ({ prependMsgs ms w with
      msgs := (prependMsgs ms w).msgs ++ sphereWarnings zMin zMax thetaMax } : World) =
      prependMsgs ms { w with msgs := w.msgs ++ sphereWarnings zMin zMax thetaMax } := by
    simp [prependMsgs, List.append_assoc]
  rw [hw]
  generalize ({ w with msgs := w.msgs ++ sphereWarnings zMin zMax thetaMax } : World) = w3
  simp only [AiNode_prepended, AiNodeSet_prepended]
  cases AiNodeSet (AiNode "sphere" w3).1 "radius" (ParamValue.Flt radius)
      (AiNode "sphere" w3).2 with
  | none => rfl
  | some w4 =>
    simp only [Option.map_some', Option.some_bind]
    exact addShape_prepended ms _ r w4

theorem procedural_prepended (ms : List Message) (boxTransform : Box3f → M44f → Box3f)
    (proc : Procedural) (r : RendererImplementation) (w : World) :
    procedural boxTransform proc r (prependMsgs ms w) =
      (procedural boxTransform proc r w).map (withPrepended ms) := by
  simp only [procedural]
  cases r.m_transformStack with
  | nil => rfl
  | cons t ts =>
    simp only [AiNode_prepended, AiNodeSet_prepended]
    cases AiNodeSet (AiNode "procedural" w).1 "min"
        (ParamValue.Pnt (boxTransform proc.bound t).min) (AiNode "procedural" w).2 with
    | none => rfl
    | some w1 =>
      simp only [Option.map_some', Option.some_bind, AiNodeSet_prepended]
      cases AiNodeSet (AiNode "procedural" w).1 "max"
          (ParamValue.Pnt (boxTransform proc.bound t).max) w1 with
      | none => rfl
      | some w2 =>
        simp only [Option.map_some', Option.some_bind, AiNodeSet_prepended]
        cases AiNodeSet (AiNode "procedural" w).1 "funcptr"
            (ParamValue.FuncPtr "procLoader") w2 with
        | none => rfl
        | some w3 =>
          simp only [Option.map_some', Option.some_bind]
          cases createCopy r with
          | none => rfl
          | some child =>
            simp only [Option.some_bind]
            have hw4 : ({ prependMsgs ms w3 with procData := (prependMsgs ms w3).procData ++
                [{ procedural := some proc, renderer := child }] } : World) =
                prependMsgs ms { w3 with procData := w3.procData ++
                  [{ procedural := some proc, renderer := child }] } := rfl
            have hlen : (prependMsgs ms w3).procData.length = w3.procData.length := rfl
            rw [hw4, hlen, AiNodeSet_prepended]
            cases AiNodeSet (AiNode "procedural" w).1 "userptr"
                (ParamValue.UserPtr w3.procData.length)
                { w3 with procData := w3.procData ++
                  [{ procedural := some proc, renderer := child }] } with
            | none => rfl
            | some w5 =>
              simp only [Option.map_some', Option.some_bind]
              exact addShape_prepended ms _ r w5

theorem step_prepended (ms : List Message) (boxTransform : Box3f → M44f → Box3f) (c : Cmd)
    (r : RendererImplementation) (w : World) :
    step boxTransform c r (prependMsgs ms w) =
      (step boxTransform c r w).map (withPrepended ms) := by
  cases c
  case setOption name value => exact setOption_prepended ms name value r w
  case camera name parameters => exact camera_prepended ms name parameters r w
  case display name type data parameters =>
    exact display_prepended ms name type data parameters r w
  case worldBegin => exact worldBegin_prepended ms r w
  case worldEnd => exact worldEnd_prepended ms r w
  case transformBegin => exact transformBegin_prepended ms r w
  case transformEnd => exact transformEnd_prepended ms r w
  case setTransform m => exact setTransform_prepended ms m r w
  case concatTransform m => exact concatTransform_prepended ms m r w
  case attributeBegin => exact attributeBegin_prepended ms r w
  case attributeEnd => exact attributeEnd_prepended ms r w
  case setAttribute name value => exact setAttribute_prepended ms name value r w
  case shader type name parameters => exact shader_prepended ms type name parameters r w
  case curves periodic numVertices primVars =>
    exact curves_prepended ms periodic numVertices primVars r w
  case sphere radius zMin zMax thetaMax primVars =>
    exact sphere_prepended ms radius zMin zMax thetaMax primVars r w
  case mesh vertsPerFace vertIds interpolation primVars =>
    exact mesh_prepended ms vertsPerFace vertIds interpolation primVars r w
  case procedural bound render => exact procedural_prepended ms boxTransform _ r w
  all_goals exact notImplemented_prepended ms _ r w

theorem run_prepended (ms : List Message) (boxTransform : Box3f → M44f → Box3f)
    (cmds : List Cmd) (r : RendererImplementation) (w : World) :
    run boxTransform cmds r (prependMsgs ms w) =
      (run boxTransform cmds r w).map (withPrepended ms) := by
  induction cmds generalizing r w with
  | nil => rfl
  | cons c cs ih =>
    simp only [run, step_prepended]
    cases step boxTransform c r w with
    | none => rfl
    | some p =>
      simp only [Option.map_some', Option.some_bind, withPrepended]
      exact ih p.1 p.2

theorem prependMsgs_scene (w : World) : prependMsgs w.msgs (scene w) = w := by
  cases w
  simp [prependMsgs, scene]

theorem run_scene (boxTransform : Box3f → M44f → Box3f) (cmds : List Cmd)
    (r : RendererImplementation) (w : World) :
    (run boxTransform cmds r w).map sceneOf =
      (run boxTransform cmds r (scene w)).map sceneOf := by
  have h := run_prepended w.msgs boxTransform cmds r (scene w)
  rw [prependMsgs_scene] at h
  rw [h]
  cases run boxTransform cmds r (scene w) with
  | none => rfl
  | some p => rfl

theorem run_after_logging (boxTransform : Box3f → M44f → Box3f) (cmds : List Cmd)
    (r : RendererImplementation) (w : World) (l : Level) (c t : String) :
    (run boxTransform cmds r (msg l c t w)).map sceneOf =
      (run boxTransform cmds r w).map sceneOf := by
  rw [run_scene boxTransform cmds r (msg l c t w), run_scene boxTransform cmds r w]
  rfl

/-! ## Resource-creation failure -/

theorem AiNode_refused (name : String) (w : World) (h : (AiNode name w).1 = none) :
    AiNode name w = (none, w) := by
  unfold AiNode at h ⊢
  split
  · rename_i hk
    simp [hk] at h
  · rfl

/-- C13, the claim fails for shader: on the freshly constructed session, where Arnold has
no node entry "no_such_shader", shader( "surface", "no_such_shader", {} ) leaves the
renderer as it is and logs one message, of level Warning; no message of level Error is in
the log. -/
theorem shader_failure_logs_warning :
    ∃ r1 w1, (AiNode "no_such_shader" demoStart).1 = none ∧
      shader "surface" "no_such_shader" [] demoRenderer demoStart = some (r1, w1) ∧
      r1 = demoRenderer ∧
      w1.msgs = [{ level := Level.Warning,
                   context := "IECoreArnold::RendererImplementation::shader",
                   text := "Couldn't load shader \"no_such_shader\"" }] ∧
      ∀ m ∈ w1.msgs, m.level ≠ Level.Error := by
  refine ⟨demoRenderer, _, rfl, rfl, rfl, rfl, ?_⟩
  intro m hm
  have hm2 : m ∈ [Message.mk Level.Warning "IECoreArnold::RendererImplementation::shader"
      "Couldn't load shader \"no_such_shader\""] := hm
  rw [List.mem_singleton] at hm2
  rw [hm2]
  decide

/-- C13 as amended. When Arnold refuses to create the driver node, display returns the
renderer as it is and the world as it is but for one message of level Error added to the
log; when Arnold refuses to create the shader node, shader( "surface", shaderName,
parameters ) returns the renderer as it is and the world as it is but for one message of level Warning
added to the log. In both cases every later sequence of calls, run from the state after
the failed call, is undefined exactly when it is undefined from the state before it, and
otherwise ends in the same renderer and in the same world but for the log. -/
theorem creation_failure_is_atomic (boxTransform : Box3f → M44f → Box3f)
    (r : RendererImplementation) (w : World) (name type data shaderName : String)
    (parameters : CompoundDataMap) :
    ((AiNode type w).1 = none →
      ∃ w1, display name type data parameters r w = some (r, w1) ∧
        w1 = { w with msgs := w.msgs ++
          [{ level := Level.Error,
             context := "IECoreArnold::RendererImplementation::display",
             text := "Unable to create display of type \"" ++ type ++ "\"" }] } ∧
        ∀ cmds : List Cmd, (run boxTransform cmds r w1).map sceneOf =
          (run boxTransform cmds r w).map sceneOf) ∧
    ((AiNode shaderName w).1 = none →
      ∃ w1, shader "surface" shaderName parameters r w = some (r, w1) ∧
        w1 = { w with msgs := w.msgs ++
          [{ level := Level.Warning,
             context := "IECoreArnold::RendererImplementation::shader",
             text := "Couldn't load shader \"" ++ shaderName ++ "\"" }] } ∧
        ∀ cmds : List Cmd, (run boxTransform cmds r w1).map sceneOf =
          (run boxTransform cmds r w).map sceneOf) := by
  constructor
  · intro h
    refine ⟨_, ?_, rfl, fun cmds => run_after_logging boxTransform cmds r w Level.Error
      "IECoreArnold::RendererImplementation::display"
      ("Unable to create display of type \"" ++ type ++ "\"")⟩
    simp only [display, AiNode_refused type w h]
    rfl
  · intro h
    refine ⟨_, ?_, rfl, fun cmds => run_after_logging boxTransform cmds r w Level.Warning
      "IECoreArnold::RendererImplementation::shader"
      ("Couldn't load shader \"" ++ shaderName ++ "\"")⟩
    simp only [shader, AiNode_refused shaderName w h, if_true]
    rfl

theorem creation_failure_is_atomic_witness :
    (∃ w1, display "beauty.exr" "no_such_driver" "rgba" [] demoRenderer demoStart =
        some (demoRenderer, w1) ∧
        w1 = { demoStart with msgs := demoStart.msgs ++
          [{ level := Level.Error,
             context := "IECoreArnold::RendererImplementation::display",
             text := "Unable to create display of type \"" ++ "no_such_driver" ++ "\"" }] } ∧
        ∀ cmds : List Cmd, (run (fun b _ => b) cmds demoRenderer w1).map sceneOf =
          (run (fun b _ => b) cmds demoRenderer demoStart).map sceneOf) ∧
    (∃ w1, shader "surface" "no_such_shader" [] demoRenderer demoStart =
        some (demoRenderer, w1) ∧
        w1 = { demoStart with msgs := demoStart.msgs ++
          [{ level := Level.Warning,
             context := "IECoreArnold::RendererImplementation::shader",
             text := "Couldn't load shader \"" ++ "no_such_shader" ++ "\"" }] } ∧
        ∀ cmds : List Cmd, (run (fun b _ => b) cmds demoRenderer w1).map sceneOf =
          (run (fun b _ => b) cmds demoRenderer demoStart).map sceneOf) :=
  ⟨(creation_failure_is_atomic (fun b _ => b) demoRenderer demoStart "beauty.exr"
      "no_such_driver" "rgba" "no_such_shader" []).1 rfl,
   (creation_failure_is_atomic (fun b _ => b) demoRenderer demoStart "beauty.exr"
      "no_such_driver" "rgba" "no_such_shader" []).2 rfl⟩

end IECoreArnold
